import Mathlib

/-! # Finit supervision engine: per-service and global state machines

A shallow embedding of `src/src/service.c` (the per-service state machine,
its timers, start/stop helpers and the respawn logic) and of `src/src/sm.c`
(the global state machine), of the string helpers strtobytes, memsz and
sanitize of `src/src/util.c`, of the tokeniser of run in `src/src/exec.c`
and of the option parsing of service_register, followed by theorems about
them.

Side effects (signals, forks, timers, hooks) are recorded as a list of
events returned next to the new record.  Everything the C code reads from
outside the record (globals, the condition store, the result of system
calls) is collected in an explicit environment.
-/

namespace Finit

/-! ## Data model -/

/-- The respawn limit, `#define RESPAWN_MAX 10` in service.c. -/
def RESPAWN_MAX : Nat := 10

/-- The errno value returned (negated) when a timer is already registered. -/
def EBUSY : Int := 16

/-- Modelled from the spec: the kinds of a service record (`svc_type_t`
lives in svc.h, which is absent): SERVICE, TASK, RUN, SYSV, INETD and
INETD_CONN. -/
inductive svc_type_t where
  | SERVICE
  | TASK
  | RUN
  | SYSV
  | INETD
  | INETD_CONN
  deriving DecidableEq, Repr

/-- The states of the per-service state machine, as named in service.c. -/
inductive svc_state_t where
  | HALTED
  | DONE
  | STOPPING
  | READY
  | WAITING
  | RUNNING
  deriving DecidableEq, Repr

/-- Modelled from the spec: the block reasons of a record (`svc_block_t`
lives in svc.h, which is absent): NONE, MANUAL, CRASHING, RESTARTING and
MISSING. -/
inductive svc_block_t where
  | NONE
  | MANUAL
  | CRASHING
  | RESTARTING
  | MISSING
  deriving DecidableEq, Repr

/-- Modelled from the spec: the dirty marker of a record (declared in
svc.h, which is absent): CLEAN, NEW, CHANGED or REMOVED. -/
inductive svc_dirty_t where
  | CLEAN
  | NEW
  | CHANGED
  | REMOVED
  deriving DecidableEq, Repr

/-- The tri-state aggregate of a condition list, as used by service.c. -/
inductive cond_state_t where
  | OFF
  | FLUX
  | ON
  deriving DecidableEq, Repr

/-- The signals sent by service.c. -/
inductive Signal where
  | SIGTERM
  | SIGKILL
  | SIGHUP
  | SIGSTOP
  | SIGCONT
  deriving DecidableEq, Repr

/-- The two timer callbacks that service.c registers. -/
inductive timer_cb_t where
  | service_kill
  | service_retry
  deriving DecidableEq, Repr

/-- The part of `svc_t` that service.c reads and writes.  `timer_cb` is
`none` for a NULL callback; `timer` holds the period of the armed libuev
timer, `none` when it is stopped.  `restart_counter` is a C int: the model
counts in the integers and agrees with the code as long as the counter stays
within the range of an int, which the respawn limit sees to along the retry
path and which is a stated condition where a theorem lets it grow
otherwise. -/
structure svc_t where
  type : svc_type_t
  state : svc_state_t
  block : svc_block_t
  dirty : svc_dirty_t
  runlevels : Nat
  sighup : Bool
  inetd_cmd : Bool
  pid : Int
  restart_counter : Int
  starting : Bool
  timer_cb : Option timer_cb_t
  timer : Option Nat
  deriving DecidableEq, Repr

/-- Observable side effects of the service code, in program order.
`service_start` marks every entry into the function of that name. -/
inductive Event where
  | kill (pid : Int) (sig : Signal)
  | service_start
  | fork (pid : Int)
  | hook_svc_start (pid : Int)
  | complete (pid : Int)
  | inetd_start
  | inetd_stop
  | timer_init (timeout : Nat) (cb : timer_cb_t)
  | timer_stop
  | parent_step
  | unregister
  deriving DecidableEq, Repr

/-- Everything service.c reads from outside the record during one call:
the globals `runlevel` and `sm.in_teardown`, the aggregate of the record's
conditions, the build option INETD_ENABLED, and the results of the system
and library calls it makes. -/
structure Env where
  runlevel : Int
  in_teardown : Bool
  cond_agg : cond_state_t
  inetd_enabled : Bool
  fexist_cmd : Bool
  norespawn : Bool
  inetd_start_res : Int
  fork_pid : Int
  run_status : Nat
  kill_res : Int
  uev_res : Int
  parent_busy : Bool
  deriving DecidableEq, Repr

/-! ## Helpers of svc.h -/

/-- Modelled from the spec: `svc_in_runlevel` (svc.h is absent), membership
of the level in the record's runlevel bitmap. -/
def svc_in_runlevel (svc : svc_t) (runlevel : Int) : Bool :=
  decide (0 ≤ runlevel) && svc.runlevels.testBit runlevel.toNat

/-- Modelled from the spec: `svc_is_removed` (svc.h is absent), the dirty
marker is REMOVED. -/
def svc_is_removed (svc : svc_t) : Bool :=
  decide (svc.dirty = svc_dirty_t.REMOVED)

/-- Modelled from the spec: `svc_is_changed` (svc.h is absent), the record
is dirty, that is its marker is not CLEAN. -/
def svc_is_changed (svc : svc_t) : Bool :=
  decide (svc.dirty ≠ svc_dirty_t.CLEAN)

/-- Modelled from the spec: `svc_is_blocked` (svc.h is absent), the block
reason is not NONE. -/
def svc_is_blocked (svc : svc_t) : Bool :=
  decide (svc.block ≠ svc_block_t.NONE)

/-- Modelled from the spec: `svc_is_daemon` (svc.h is absent), the kind is
SERVICE. -/
def svc_is_daemon (svc : svc_t) : Bool :=
  decide (svc.type = svc_type_t.SERVICE)

/-- Modelled from the spec: `svc_is_inetd` (svc.h is absent). -/
def svc_is_inetd (svc : svc_t) : Bool :=
  decide (svc.type = svc_type_t.INETD)

/-- Modelled from the spec: `svc_is_inetd_conn` (svc.h is absent). -/
def svc_is_inetd_conn (svc : svc_t) : Bool :=
  decide (svc.type = svc_type_t.INETD_CONN)

/-- Modelled from the spec: `svc_mark_clean` (svc.h is absent). -/
def svc_mark_clean (svc : svc_t) : svc_t :=
  { svc with dirty := svc_dirty_t.CLEAN }

/-- Modelled from the spec: `svc_unblock` (svc.h is absent). -/
def svc_unblock (svc : svc_t) : svc_t :=
  { svc with block := svc_block_t.NONE }

/-- Modelled from the spec: `svc_missing` (svc.h is absent). -/
def svc_missing (svc : svc_t) : svc_t :=
  { svc with block := svc_block_t.MISSING }

/-- Modelled from the spec: `svc_crashing` (svc.h is absent). -/
def svc_crashing (svc : svc_t) : svc_t :=
  { svc with block := svc_block_t.CRASHING }

/-- Modelled from the spec: `svc_restarting` (svc.h is absent). -/
def svc_restarting (svc : svc_t) : svc_t :=
  { svc with block := svc_block_t.RESTARTING }

/-- Modelled from the spec: `svc_starting` (svc.h is absent), the record
waits for its pid file. -/
def svc_starting (svc : svc_t) : svc_t :=
  { svc with starting := true }

/-- Modelled from the spec: `print_result` (helpers.h is absent) shows its
argument on the console and hands it back. -/
def print_result (res : Int) : Int := res

/-! ## service.c -/

/-- service_enabled: should the service run in the current runlevel? -/
def service_enabled (e : Env) (svc : svc_t) : Bool :=
  if !svc_in_runlevel svc e.runlevel then false
  else if svc_is_removed svc || svc_is_blocked svc then false
  else true

/-- service_timeout_after: register `cb` unless a callback is registered. -/
def service_timeout_after (e : Env) (svc : svc_t) (timeout : Nat) (cb : timer_cb_t) :
    svc_t × Int × List Event :=
  match svc.timer_cb with
  | some _ => (svc, -EBUSY, [])
  | none =>
    ({ svc with timer_cb := some cb, timer := some timeout }, e.uev_res,
      [Event.timer_init timeout cb])

/-- service_timeout_cancel: stop the timer of the record, if any. -/
def service_timeout_cancel (e : Env) (svc : svc_t) : svc_t × Int × List Event :=
  match svc.timer_cb with
  | none => (svc, 0, [])
  | some _ => ({ svc with timer_cb := none, timer := none }, e.uev_res, [Event.timer_stop])

/-- is_norespawn: the supervisor is stopped or a norespawn file exists. -/
def is_norespawn (e : Env) : Bool := e.norespawn

/-- service_start: returns the record, the result (0 on success) and the
events of the parent process. -/
def service_start (e : Env) (svc : svc_t) : svc_t × Int × List Event :=
  if !e.fexist_cmd && !svc.inetd_cmd then
    (svc_missing svc, 1, [Event.service_start])
  else if is_norespawn e then
    (svc, 1, [Event.service_start])
  else if e.inetd_enabled && svc_is_inetd svc then
    (svc, print_result e.inetd_start_res, [Event.service_start, Event.inetd_start])
  else
    let svc := svc_starting svc
    let pid := e.fork_pid
    let svc := { svc with pid := pid }
    if svc.type = svc_type_t.RUN then
      ({ svc with pid := 0 }, print_result ((e.run_status % 256 : Nat) : Int),
        [Event.service_start, Event.fork pid, Event.hook_svc_start pid, Event.complete pid])
    else
      (svc, print_result 0, [Event.service_start, Event.fork pid, Event.hook_svc_start pid])

/-- service_kill: the timer callback that forcefully ends a service. -/
def service_kill (e : Env) (svc : svc_t) : svc_t × List Event :=
  let c := service_timeout_cancel e svc
  (c.1, c.2.2 ++ [Event.kill c.1.pid Signal.SIGKILL])

/-- service_stop: returns the result (0 on success) and the events. -/
def service_stop (e : Env) (svc : svc_t) : Int × List Event :=
  if e.inetd_enabled && svc_is_inetd svc then
    (0, [Event.inetd_stop])
  else if svc.pid ≤ 1 then
    (1, [])
  else if svc.type ≠ svc_type_t.SERVICE then
    (0, [])
  else
    (e.kill_res, [Event.kill svc.pid Signal.SIGTERM])

/-- service_restart: forward SIGHUP to a service that supports it. -/
def service_restart (e : Env) (svc : svc_t) : svc_t × Int × List Event :=
  if is_norespawn e then
    (svc, 1, [])
  else if !svc.sighup then
    (svc, 1, [])
  else if svc.pid ≤ 1 then
    ({ svc with pid := 0 }, 1, [])
  else
    (svc_starting svc, print_result e.kill_res, [Event.kill svc.pid Signal.SIGHUP])

/-- svc_set_state: set the state; entering STOPPING re-arms the kill timer. -/
def svc_set_state (e : Env) (svc : svc_t) (new : svc_state_t) : svc_t × List Event :=
  let svc := { svc with state := new }
  if svc.state = svc_state_t.STOPPING then
    let c := service_timeout_cancel e svc
    let a := service_timeout_after e c.1 3000 timer_cb_t.service_kill
    (a.1, c.2.2 ++ a.2.2)
  else
    (svc, [])

/-- The result of one pass through the transition table of service_step:
the record, the events, and whether the pass left through the `return` of
the DONE case (the record of a finished inetd connection is unregistered). -/
structure Pass where
  svc : svc_t
  ev : List Event
  returned : Bool
  deriving DecidableEq, Repr

/-- A pass that ends at the closing `break` of its case. -/
def Pass.brk (p : svc_t × List Event) : Pass := ⟨p.1, p.2, false⟩

/-- The body of service_step between the label `restart` and the final
comparison of the state with `old_state`. -/
def service_step_table (e : Env) (svc : svc_t) : Pass :=
  let enabled := service_enabled e svc
  match svc.state with
  | svc_state_t.HALTED =>
    if enabled then Pass.brk (svc_set_state e svc svc_state_t.READY)
    else Pass.brk (svc, [])
  | svc_state_t.DONE =>
    if e.inetd_enabled && svc_is_inetd_conn svc then
      ⟨svc, (if e.parent_busy then [Event.parent_step] else []) ++ [Event.unregister], true⟩
    else if svc_is_changed svc then Pass.brk (svc_set_state e svc svc_state_t.HALTED)
    else Pass.brk (svc, [])
  | svc_state_t.STOPPING =>
    if svc.pid = 0 then
      let c := service_timeout_cancel e svc
      match c.1.type with
      | svc_type_t.SERVICE | svc_type_t.INETD =>
        let s := svc_set_state e c.1 svc_state_t.HALTED
        Pass.brk (s.1, c.2.2 ++ s.2)
      | svc_type_t.INETD_CONN | svc_type_t.TASK | svc_type_t.RUN =>
        let s := svc_set_state e c.1 svc_state_t.DONE
        Pass.brk (s.1, c.2.2 ++ s.2)
      | svc_type_t.SYSV => Pass.brk (c.1, c.2.2)
    else Pass.brk (svc, [])
  | svc_state_t.READY =>
    if !enabled then Pass.brk (svc_set_state e svc svc_state_t.HALTED)
    else if e.cond_agg = cond_state_t.ON then
      if e.in_teardown then Pass.brk (svc, [])
      else
        let st := service_start e svc
        let svc1 : svc_t :=
          if st.2.1 ≠ 0 then { st.1 with restart_counter := st.1.restart_counter + 1 } else st.1
        if st.2.1 ≠ 0 ∧ !svc_is_inetd_conn svc1 then Pass.brk (svc1, st.2.2)
        else
          let s := svc_set_state e (svc_mark_clean svc1) svc_state_t.RUNNING
          Pass.brk (s.1, st.2.2 ++ s.2)
    else Pass.brk (svc, [])
  | svc_state_t.RUNNING =>
    if !enabled then
      let k := service_stop e svc
      let s := svc_set_state e svc svc_state_t.STOPPING
      Pass.brk (s.1, k.2 ++ s.2)
    else if svc.pid = 0 ∧ svc_is_daemon svc then
      let s := svc_set_state e (svc_restarting svc) svc_state_t.HALTED
      let a := service_timeout_after e s.1 1 timer_cb_t.service_retry
      Pass.brk (a.1, s.2 ++ a.2.2)
    else if svc.pid = 0 ∧ svc_is_inetd_conn svc then
      Pass.brk (svc_set_state e svc svc_state_t.STOPPING)
    else
      match e.cond_agg with
      | cond_state_t.OFF =>
        let k := service_stop e svc
        let s := svc_set_state e svc svc_state_t.STOPPING
        Pass.brk (s.1, k.2 ++ s.2)
      | cond_state_t.FLUX =>
        let s := svc_set_state e svc svc_state_t.WAITING
        Pass.brk (s.1, [Event.kill svc.pid Signal.SIGSTOP] ++ s.2)
      | cond_state_t.ON =>
        if svc_is_changed svc then
          if svc.sighup then
            if e.in_teardown then Pass.brk (svc, [])
            else
              let r := service_restart e svc
              Pass.brk (svc_mark_clean r.1, r.2.2)
          else
            let k := service_stop e svc
            let s := svc_set_state e svc svc_state_t.STOPPING
            Pass.brk (svc_mark_clean s.1, k.2 ++ s.2)
        else Pass.brk (svc, [])
  | svc_state_t.WAITING =>
    if !enabled then
      let k := service_stop e svc
      let s := svc_set_state e svc svc_state_t.STOPPING
      Pass.brk (s.1, [Event.kill svc.pid Signal.SIGCONT] ++ k.2 ++ s.2)
    else if svc.pid = 0 then
      Pass.brk (svc_set_state e { svc with restart_counter := svc.restart_counter + 1 }
        svc_state_t.READY)
    else
      match e.cond_agg with
      | cond_state_t.ON =>
        let s := svc_set_state e svc svc_state_t.RUNNING
        Pass.brk (s.1, [Event.kill svc.pid Signal.SIGCONT] ++ s.2)
      | cond_state_t.OFF =>
        let k := service_stop e svc
        let s := svc_set_state e svc svc_state_t.STOPPING
        Pass.brk (s.1, [Event.kill svc.pid Signal.SIGCONT] ++ k.2 ++ s.2)
      | cond_state_t.FLUX => Pass.brk (svc, [])

/-- Whether service_step jumps back to `restart` after a pass: the pass did
not return and the state differs from `old_state`. -/
def service_step_again (old : svc_t) (p : Pass) : Bool :=
  !p.returned && decide (p.svc.state ≠ old.state)

/-- The `goto restart` loop of service_step, with a bound on the number of
passes. -/
def service_step_loop : Nat → Env → svc_t → svc_t × List Event
  | 0, _, svc => (svc, [])
  | n + 1, e, svc =>
    let p := service_step_table e svc
    if service_step_again svc p then
      let r := service_step_loop n e p.svc
      (r.1, p.ev ++ r.2)
    else (p.svc, p.ev)

/-- The number of passes granted to service_step; no run needs more than
eight (see `service_step_loop_stable`). -/
def service_step_fuel : Nat := 8

/-- service_step: run the transition table until the state stops changing. -/
def service_step (e : Env) (svc : svc_t) : svc_t × List Event :=
  service_step_loop service_step_fuel e svc

/-- service_retry: the timer callback that respawns a crashed service. -/
def service_retry (e : Env) (svc : svc_t) : svc_t × List Event :=
  let c := service_timeout_cancel e svc
  let svc := c.1
  if svc.state ≠ svc_state_t.HALTED ∨ svc.block ≠ svc_block_t.RESTARTING then
    ({ svc with restart_counter := 0 }, c.2.2)
  else if svc.restart_counter ≥ (RESPAWN_MAX : Int) then
    let s := service_step e { svc_crashing svc with restart_counter := 0 }
    (s.1, c.2.2 ++ s.2)
  else
    let svc := { svc with restart_counter := svc.restart_counter + 1 }
    let s := service_step e (svc_unblock svc)
    let timeout : Nat :=
      if s.1.restart_counter ≤ ((RESPAWN_MAX / 2 : Nat) : Int) then 2000 else 5000
    let a := service_timeout_after e s.1 timeout timer_cb_t.service_retry
    (a.1, c.2.2 ++ s.2 ++ a.2.2)

/-! ## The transition table as a relation -/

/-- The record after `svc_set_state (.., STOPPING)`. -/
def stopping_of (svc : svc_t) : svc_t :=
  { svc with state := svc_state_t.STOPPING, timer_cb := some timer_cb_t.service_kill,
             timer := some 3000 }

/-- The timer events of `svc_set_state (.., STOPPING)`. -/
def stopping_events (svc : svc_t) : List Event :=
  (if svc.timer_cb.isSome then [Event.timer_stop] else []) ++
    [Event.timer_init 3000 timer_cb_t.service_kill]

/-- The rows of the transition table of service_step: `TableRow e svc p` holds when
`p` is the outcome that one row of the table prescribes for `svc`. -/
inductive TableRow (e : Env) (svc : svc_t) : Pass → Prop where
  | halted_ready (hs : svc.state = svc_state_t.HALTED) (hen : service_enabled e svc = true) :
      TableRow e svc ⟨{ svc with state := svc_state_t.READY }, [], false⟩
  | halted_stay (hs : svc.state = svc_state_t.HALTED) (hen : service_enabled e svc = false) :
      TableRow e svc ⟨svc, [], false⟩
  | done_unregister (hs : svc.state = svc_state_t.DONE) (hi : e.inetd_enabled = true)
      (ht : svc.type = svc_type_t.INETD_CONN) :
      TableRow e svc
        ⟨svc, (if e.parent_busy then [Event.parent_step] else []) ++ [Event.unregister], true⟩
  | done_halted (hs : svc.state = svc_state_t.DONE)
      (hi : ¬ (e.inetd_enabled = true ∧ svc.type = svc_type_t.INETD_CONN))
      (hd : svc.dirty ≠ svc_dirty_t.CLEAN) :
      TableRow e svc ⟨{ svc with state := svc_state_t.HALTED }, [], false⟩
  | done_stay (hs : svc.state = svc_state_t.DONE)
      (hi : ¬ (e.inetd_enabled = true ∧ svc.type = svc_type_t.INETD_CONN))
      (hd : svc.dirty = svc_dirty_t.CLEAN) :
      TableRow e svc ⟨svc, [], false⟩
  | stopping_halted (hs : svc.state = svc_state_t.STOPPING) (hp : svc.pid = 0)
      (ht : svc.type = svc_type_t.SERVICE ∨ svc.type = svc_type_t.INETD) :
      TableRow e svc
        ⟨{ svc with state := svc_state_t.HALTED, timer_cb := none,
                    timer := if svc.timer_cb.isSome then none else svc.timer },
          if svc.timer_cb.isSome then [Event.timer_stop] else [], false⟩
  | stopping_done (hs : svc.state = svc_state_t.STOPPING) (hp : svc.pid = 0)
      (ht : svc.type = svc_type_t.INETD_CONN ∨ svc.type = svc_type_t.TASK ∨
        svc.type = svc_type_t.RUN) :
      TableRow e svc
        ⟨{ svc with state := svc_state_t.DONE, timer_cb := none,
                    timer := if svc.timer_cb.isSome then none else svc.timer },
          if svc.timer_cb.isSome then [Event.timer_stop] else [], false⟩
  | stopping_sysv (hs : svc.state = svc_state_t.STOPPING) (hp : svc.pid = 0)
      (ht : svc.type = svc_type_t.SYSV) :
      TableRow e svc
        ⟨{ svc with timer_cb := none,
                    timer := if svc.timer_cb.isSome then none else svc.timer },
          if svc.timer_cb.isSome then [Event.timer_stop] else [], false⟩
  | stopping_stay (hs : svc.state = svc_state_t.STOPPING) (hp : svc.pid ≠ 0) :
      TableRow e svc ⟨svc, [], false⟩
  | ready_halted (hs : svc.state = svc_state_t.READY) (hen : service_enabled e svc = false) :
      TableRow e svc ⟨{ svc with state := svc_state_t.HALTED }, [], false⟩
  | ready_cond (hs : svc.state = svc_state_t.READY) (hen : service_enabled e svc = true)
      (hc : e.cond_agg ≠ cond_state_t.ON) :
      TableRow e svc ⟨svc, [], false⟩
  | ready_teardown (hs : svc.state = svc_state_t.READY) (hen : service_enabled e svc = true)
      (hc : e.cond_agg = cond_state_t.ON) (htd : e.in_teardown = true) :
      TableRow e svc ⟨svc, [], false⟩
  | ready_start_failed (hs : svc.state = svc_state_t.READY)
      (hen : service_enabled e svc = true) (hc : e.cond_agg = cond_state_t.ON)
      (htd : e.in_teardown = false) (hr : (service_start e svc).2.1 ≠ 0)
      (ht : svc.type ≠ svc_type_t.INETD_CONN) :
      TableRow e svc
        ⟨{ (service_start e svc).1 with
            restart_counter := (service_start e svc).1.restart_counter + 1 },
          (service_start e svc).2.2, false⟩
  | ready_start_failed_conn (hs : svc.state = svc_state_t.READY)
      (hen : service_enabled e svc = true) (hc : e.cond_agg = cond_state_t.ON)
      (htd : e.in_teardown = false) (hr : (service_start e svc).2.1 ≠ 0)
      (ht : svc.type = svc_type_t.INETD_CONN) :
      TableRow e svc
        ⟨{ (service_start e svc).1 with
            restart_counter := (service_start e svc).1.restart_counter + 1,
            dirty := svc_dirty_t.CLEAN, state := svc_state_t.RUNNING },
          (service_start e svc).2.2, false⟩
  | ready_started (hs : svc.state = svc_state_t.READY)
      (hen : service_enabled e svc = true) (hc : e.cond_agg = cond_state_t.ON)
      (htd : e.in_teardown = false) (hr : (service_start e svc).2.1 = 0) :
      TableRow e svc
        ⟨{ (service_start e svc).1 with
            dirty := svc_dirty_t.CLEAN, state := svc_state_t.RUNNING },
          (service_start e svc).2.2, false⟩
  | running_disabled (hs : svc.state = svc_state_t.RUNNING)
      (hen : service_enabled e svc = false) :
      TableRow e svc ⟨stopping_of svc, (service_stop e svc).2 ++ stopping_events svc, false⟩
  | running_lost_daemon (hs : svc.state = svc_state_t.RUNNING)
      (hen : service_enabled e svc = true) (hp : svc.pid = 0)
      (ht : svc.type = svc_type_t.SERVICE) :
      TableRow e svc
        ⟨{ svc with block := svc_block_t.RESTARTING, state := svc_state_t.HALTED,
                    timer_cb := if svc.timer_cb.isSome then svc.timer_cb
                                else some timer_cb_t.service_retry,
                    timer := if svc.timer_cb.isSome then svc.timer else some 1 },
          if svc.timer_cb.isSome then [] else [Event.timer_init 1 timer_cb_t.service_retry],
          false⟩
  | running_lost_conn (hs : svc.state = svc_state_t.RUNNING)
      (hen : service_enabled e svc = true) (hp : svc.pid = 0)
      (ht : svc.type = svc_type_t.INETD_CONN) :
      TableRow e svc ⟨stopping_of svc, stopping_events svc, false⟩
  | running_off (hs : svc.state = svc_state_t.RUNNING)
      (hen : service_enabled e svc = true)
      (hp : ¬ (svc.pid = 0 ∧ (svc.type = svc_type_t.SERVICE ∨ svc.type = svc_type_t.INETD_CONN)))
      (hc : e.cond_agg = cond_state_t.OFF) :
      TableRow e svc ⟨stopping_of svc, (service_stop e svc).2 ++ stopping_events svc, false⟩
  | running_flux (hs : svc.state = svc_state_t.RUNNING)
      (hen : service_enabled e svc = true)
      (hp : ¬ (svc.pid = 0 ∧ (svc.type = svc_type_t.SERVICE ∨ svc.type = svc_type_t.INETD_CONN)))
      (hc : e.cond_agg = cond_state_t.FLUX) :
      TableRow e svc
        ⟨{ svc with state := svc_state_t.WAITING }, [Event.kill svc.pid Signal.SIGSTOP], false⟩
  | running_clean (hs : svc.state = svc_state_t.RUNNING)
      (hen : service_enabled e svc = true)
      (hp : ¬ (svc.pid = 0 ∧ (svc.type = svc_type_t.SERVICE ∨ svc.type = svc_type_t.INETD_CONN)))
      (hc : e.cond_agg = cond_state_t.ON) (hd : svc.dirty = svc_dirty_t.CLEAN) :
      TableRow e svc ⟨svc, [], false⟩
  | running_dirty_teardown (hs : svc.state = svc_state_t.RUNNING)
      (hen : service_enabled e svc = true)
      (hp : ¬ (svc.pid = 0 ∧ (svc.type = svc_type_t.SERVICE ∨ svc.type = svc_type_t.INETD_CONN)))
      (hc : e.cond_agg = cond_state_t.ON) (hd : svc.dirty ≠ svc_dirty_t.CLEAN)
      (hh : svc.sighup = true) (htd : e.in_teardown = true) :
      TableRow e svc ⟨svc, [], false⟩
  | running_sighup (hs : svc.state = svc_state_t.RUNNING)
      (hen : service_enabled e svc = true)
      (hp : ¬ (svc.pid = 0 ∧ (svc.type = svc_type_t.SERVICE ∨ svc.type = svc_type_t.INETD_CONN)))
      (hc : e.cond_agg = cond_state_t.ON) (hd : svc.dirty ≠ svc_dirty_t.CLEAN)
      (hh : svc.sighup = true) (htd : e.in_teardown = false) :
      TableRow e svc
        ⟨{ (service_restart e svc).1 with dirty := svc_dirty_t.CLEAN },
          (service_restart e svc).2.2, false⟩
  | running_dirty_stop (hs : svc.state = svc_state_t.RUNNING)
      (hen : service_enabled e svc = true)
      (hp : ¬ (svc.pid = 0 ∧ (svc.type = svc_type_t.SERVICE ∨ svc.type = svc_type_t.INETD_CONN)))
      (hc : e.cond_agg = cond_state_t.ON) (hd : svc.dirty ≠ svc_dirty_t.CLEAN)
      (hh : svc.sighup = false) :
      TableRow e svc
        ⟨{ stopping_of svc with dirty := svc_dirty_t.CLEAN },
          (service_stop e svc).2 ++ stopping_events svc, false⟩
  | waiting_disabled (hs : svc.state = svc_state_t.WAITING)
      (hen : service_enabled e svc = false) :
      TableRow e svc
        ⟨stopping_of svc,
          [Event.kill svc.pid Signal.SIGCONT] ++ (service_stop e svc).2 ++ stopping_events svc,
          false⟩
  | waiting_lost (hs : svc.state = svc_state_t.WAITING)
      (hen : service_enabled e svc = true) (hp : svc.pid = 0) :
      TableRow e svc
        ⟨{ svc with restart_counter := svc.restart_counter + 1, state := svc_state_t.READY },
          [], false⟩
  | waiting_on (hs : svc.state = svc_state_t.WAITING)
      (hen : service_enabled e svc = true) (hp : svc.pid ≠ 0)
      (hc : e.cond_agg = cond_state_t.ON) :
      TableRow e svc
        ⟨{ svc with state := svc_state_t.RUNNING }, [Event.kill svc.pid Signal.SIGCONT], false⟩
  | waiting_off (hs : svc.state = svc_state_t.WAITING)
      (hen : service_enabled e svc = true) (hp : svc.pid ≠ 0)
      (hc : e.cond_agg = cond_state_t.OFF) :
      TableRow e svc
        ⟨stopping_of svc,
          [Event.kill svc.pid Signal.SIGCONT] ++ (service_stop e svc).2 ++ stopping_events svc,
          false⟩
  | waiting_flux (hs : svc.state = svc_state_t.WAITING)
      (hen : service_enabled e svc = true) (hp : svc.pid ≠ 0)
      (hc : e.cond_agg = cond_state_t.FLUX) :
      TableRow e svc ⟨svc, [], false⟩

/-! ## A bound on the passes of service_step

`service_step_rank e svc` bounds the number of state changes that the loop
of service_step can still make from `svc` while the environment stays `e`. -/

/-- Remaining state changes from HALTED. -/
def rkHALTED (e : Env) (svc : svc_t) : Nat :=
  if service_enabled e svc then
    (if e.cond_agg = cond_state_t.ON ∧ e.in_teardown = false then 4 else 1)
  else 0

/-- Remaining state changes from READY. -/
def rkREADY (e : Env) (svc : svc_t) : Nat :=
  if service_enabled e svc then
    (if e.cond_agg = cond_state_t.ON ∧ e.in_teardown = false then 3 else 0)
  else 1

/-- Remaining state changes from DONE. -/
def rkDONE (e : Env) (svc : svc_t) : Nat :=
  if e.inetd_enabled && svc_is_inetd_conn svc then 0
  else if svc_is_changed svc then 1 + rkHALTED e svc else 0

/-- Remaining state changes from STOPPING. -/
def rkSTOPPING (e : Env) (svc : svc_t) : Nat :=
  if svc.pid = 0 then
    match svc.type with
    | svc_type_t.SERVICE | svc_type_t.INETD => 1 + rkHALTED e svc
    | svc_type_t.INETD_CONN | svc_type_t.TASK | svc_type_t.RUN => 1 + rkDONE e svc
    | svc_type_t.SYSV => 0
  else 0

/-- Remaining state changes from RUNNING. -/
def rkRUNNING (e : Env) (svc : svc_t) : Nat :=
  if !service_enabled e svc then 1 + rkSTOPPING e svc
  else if svc.pid = 0 ∧ svc_is_daemon svc then 1
  else if svc.pid = 0 ∧ svc_is_inetd_conn svc then 1 + rkSTOPPING e svc
  else
    match e.cond_agg with
    | cond_state_t.OFF => 1 + rkSTOPPING e svc
    | cond_state_t.FLUX => 1 + (if svc.pid = 0 then 1 + rkREADY e svc else 0)
    | cond_state_t.ON =>
      if svc_is_changed svc then
        if svc.sighup then 0 else 1 + rkSTOPPING e (svc_mark_clean svc)
      else 0

/-- Remaining state changes from WAITING. -/
def rkWAITING (e : Env) (svc : svc_t) : Nat :=
  if !service_enabled e svc then 1 + rkSTOPPING e svc
  else if svc.pid = 0 then 1 + rkREADY e svc
  else
    match e.cond_agg with
    | cond_state_t.ON => 1 + rkRUNNING e svc
    | cond_state_t.OFF => 1 + rkSTOPPING e svc
    | cond_state_t.FLUX => 0

/-- The bound on the state changes left, by state. -/
def service_step_rank (e : Env) (svc : svc_t) : Nat :=
  match svc.state with
  | svc_state_t.HALTED => rkHALTED e svc
  | svc_state_t.READY => rkREADY e svc
  | svc_state_t.DONE => rkDONE e svc
  | svc_state_t.STOPPING => rkSTOPPING e svc
  | svc_state_t.RUNNING => rkRUNNING e svc
  | svc_state_t.WAITING => rkWAITING e svc

/-- Whether an event belongs to a start attempt: the entry into
service_start or the fork it makes. -/
def Event.starts : Event → Bool
  | Event.service_start => true
  | Event.fork _ => true
  | _ => false

/-! ## Predicates and sample inputs used by the theorems -/

/-- The invariant of the data model: the pid is positive exactly in the
states RUNNING, WAITING and STOPPING. -/
def pid_state_inv (svc : svc_t) : Prop :=
  0 < svc.pid ↔
    (svc.state = svc_state_t.RUNNING ∨ svc.state = svc_state_t.WAITING ∨
      svc.state = svc_state_t.STOPPING)

instance (svc : svc_t) : Decidable (pid_state_inv svc) := by
  unfold pid_state_inv
  infer_instance

/-- A sample environment: runlevel 2, no teardown, conditions ON, inetd
support built in, every start succeeds with child pid 100. -/
def env_up : Env :=
  { runlevel := 2, in_teardown := false, cond_agg := cond_state_t.ON, inetd_enabled := true,
    fexist_cmd := true, norespawn := false, inetd_start_res := 0, fork_pid := 100,
    run_status := 0, kill_res := 0, uev_res := 0, parent_busy := false }

/-- A sample record: a fresh service for runlevels 2 to 5, halted, no pid. -/
def svc_fresh : svc_t :=
  { type := svc_type_t.SERVICE, state := svc_state_t.HALTED, block := svc_block_t.NONE,
    dirty := svc_dirty_t.NEW, runlevels := 60, sighup := true, inetd_cmd := false, pid := 0,
    restart_counter := 0, starting := false, timer_cb := none, timer := none }

/-- The kinds whose successful start leaves the pid of a forked child in
the record: every kind but RUN (run to completion inside service_start)
and INETD (no process of its own). -/
def svc_keeps_pid (svc : svc_t) : Prop :=
  svc.type ≠ svc_type_t.RUN ∧ svc.type ≠ svc_type_t.INETD

instance (svc : svc_t) : Decidable (svc_keeps_pid svc) := by
  unfold svc_keeps_pid
  infer_instance

/-- The invariant that holds at every pass of a step started from
`pid_state_inv`: the record of a failed inetd connection passes through
RUNNING and STOPPING with pid 0 on its way to DONE. -/
def pid_state_pass_inv (svc : svc_t) : Prop :=
  svc_keeps_pid svc ∧ (svc.pid = 0 ∨ 1 < svc.pid) ∧
    (pid_state_inv svc ∨
      (svc.type = svc_type_t.INETD_CONN ∧ svc.pid = 0 ∧
        (svc.state = svc_state_t.RUNNING ∨ svc.state = svc_state_t.STOPPING)))

/-- No start attempt on this record can fail in this environment: the
command exists (or is built in), respawning is not suspended, and for the
kinds whose result comes from elsewhere (INETD, RUN) that result is 0. -/
def start_succeeds (e : Env) (svc : svc_t) : Prop :=
  (e.fexist_cmd = true ∨ svc.inetd_cmd = true) ∧ e.norespawn = false ∧
    (e.inetd_enabled = true → svc.type = svc_type_t.INETD → e.inetd_start_res = 0) ∧
    (svc.type = svc_type_t.RUN → e.run_status % 256 = 0)

instance (e : Env) (svc : svc_t) : Decidable (start_succeeds e svc) := by
  unfold start_succeeds
  infer_instance

/-- A sample environment in which every start attempt fails after the
fork: the command of a RUN record exits with status 1. -/
def env_failing : Env := { env_up with run_status := 1 }

/-- Repeated calls of service_step on one record in a fixed environment. -/
def service_step_times (e : Env) : Nat → svc_t → svc_t
  | 0, svc => svc
  | n + 1, svc => service_step_times e n (service_step e svc).1

/-! ## The crash loop -/

/-- The part of service_monitor that acts on the record found for the lost
pid: `svc->pid = 0; service_step(svc);`. -/
def service_monitor (e : Env) (svc : svc_t) : svc_t × List Event :=
  service_step e { svc with pid := 0 }

/-- One round of a crash loop: the process is collected, then the pending
retry timer fires. -/
def crash_cycle (e : Env) (svc : svc_t) : svc_t × List Event :=
  let m := service_monitor e svc
  let r := service_retry e m.1
  (r.1, m.2 ++ r.2)

/-- Repeated rounds of the crash loop in a fixed environment. -/
def crash_loop (e : Env) : Nat → svc_t → svc_t × List Event
  | 0, svc => (svc, [])
  | n + 1, svc =>
    let c := crash_cycle e svc
    let r := crash_loop e n c.1
    (r.1, c.2 ++ r.2)

/-- The records met in a crash loop of a daemon after `k` respawns: the
service is RUNNING again, still enabled, and its counter stands at `k`. -/
def crash_loop_running (e : Env) (k : Nat) (svc : svc_t) : Prop :=
  svc.type = svc_type_t.SERVICE ∧ svc.state = svc_state_t.RUNNING ∧
    service_enabled e svc = true ∧ start_succeeds e svc ∧ svc.restart_counter = (k : Int)

/-- The record at the end of a crash loop: halted and blocked as CRASHING,
with no timer and the counter reset. -/
def crash_loop_given_up (svc : svc_t) : Prop :=
  svc.state = svc_state_t.HALTED ∧ svc.block = svc_block_t.CRASHING ∧
    svc.timer_cb = none ∧ svc.restart_counter = 0

instance (e : Env) (k : Nat) (svc : svc_t) : Decidable (crash_loop_running e k svc) := by
  unfold crash_loop_running
  infer_instance

instance (svc : svc_t) : Decidable (crash_loop_given_up svc) := by
  unfold crash_loop_given_up
  infer_instance

/-- A sample record: the fresh service once started, RUNNING with pid 100. -/
def svc_running : svc_t :=
  { svc_fresh with state := svc_state_t.RUNNING, dirty := svc_dirty_t.CLEAN, pid := 100 }

/-! ## The retry -/

/-- The largest value of a C int; restart_counter is one. -/
def INT_MAX : Int := 2147483647

/-- A sample environment in which the command of the record does not exist
on disk. -/
def env_missing : Env := { env_up with fexist_cmd := false }

/-- A sample environment in which respawning is suspended (a norespawn
file exists): every start attempt returns 1 before the fork. -/
def env_norespawn : Env := { env_up with norespawn := true }

/-- Whether the start attempt made by the service_step inside service_retry
fails: the unblocked record is enabled, the condition is ON, there is no
teardown, and service_start returns non-zero. -/
def retry_start_fails (e : Env) (svc : svc_t) : Prop :=
  service_enabled e (svc_unblock svc) = true ∧ e.cond_agg = cond_state_t.ON ∧
    e.in_teardown = false ∧ ¬ start_succeeds e svc

instance (e : Env) (svc : svc_t) : Decidable (retry_start_fails e svc) := by
  unfold retry_start_fails
  infer_instance

/-- The records met by the service_step that service_retry runs on the
unblocked record `u`: no timer is registered, and the counter is the one of
`u` until a start attempt fails. -/
def retry_pass_inv (e : Env) (u svc : svc_t) : Prop :=
  svc.type = u.type ∧ svc.inetd_cmd = u.inetd_cmd ∧ svc.timer_cb = none ∧
    svc.restart_counter = u.restart_counter ∧
    ((svc.state = svc_state_t.HALTED ∧ service_enabled e svc = service_enabled e u) ∨
      (svc.state = svc_state_t.READY ∧ service_enabled e svc = true ∧
        service_enabled e u = true) ∨
      (svc.state = svc_state_t.RUNNING ∧ service_enabled e svc = true ∧
        svc.dirty = svc_dirty_t.CLEAN ∧ e.cond_agg = cond_state_t.ON ∧
        start_succeeds e u ∧ (svc.type = svc_type_t.SERVICE → svc.pid ≠ 0)))

/-- Whether an event arms a timer. -/
def Event.arms : Event → Bool
  | Event.timer_init _ _ => true
  | _ => false

/-- Whether an event starts or stops a timer. -/
def Event.timers : Event → Bool
  | Event.timer_init _ _ => true
  | Event.timer_stop => true
  | _ => false

/-- Whether an event is a SIGKILL. -/
def Event.sigkill : Event → Bool
  | Event.kill _ Signal.SIGKILL => true
  | _ => false

/-- A record on which one more pass of the table changes neither the state
nor the restart counter. -/
def service_step_settled (e : Env) (svc : svc_t) : Prop :=
  service_step_again svc (service_step_table e svc) = false ∧
    (service_step_table e svc).svc.state = svc.state ∧
    (service_step_table e svc).svc.restart_counter = svc.restart_counter

/-- The records met by a step that makes no failing start attempt from a
record with a valid pid: the pid is 0 or above 1, or the record has just
been started and is clean. -/
def idempotence_pass_inv (e : Env) (svc : svc_t) : Prop :=
  start_succeeds e svc ∧ (svc.pid = 0 ∨ 1 < svc.pid ∨ svc.dirty = svc_dirty_t.CLEAN)

/-! ## sm.c: the global state machine -/

/-- The states of the global state machine, as named in sm.c. -/
inductive sm_state_t where
  | BOOTSTRAP
  | BOOTSTRAP_WAIT
  | RUNNING
  | RUNLEVEL_CHANGE
  | RUNLEVEL_WAIT
  | RUNLEVEL_CLEAN
  | RELOAD_CHANGE
  | RELOAD_WAIT
  | RELOAD_CLEAN
  deriving DecidableEq, Repr

/-- The struct `sm_t`: `reload` and `in_teardown` are ints used as flags. -/
structure sm_t where
  state : sm_state_t
  newlevel : Int
  reload : Bool
  in_teardown : Bool
  deriving DecidableEq, Repr

/-- The type masks that sm.c passes to service_step_all (the values of the
masks are declared in svc.h, which is absent). -/
inductive svc_mask_t where
  | ANY
  | RUNTASK_SERVICE_SYSV
  | RESPAWN
  deriving DecidableEq, Repr

/-- The hook points that sm.c runs. -/
inductive hook_t where
  | HOOK_SYSTEM_UP
  | HOOK_SHUTDOWN
  | HOOK_RUNLEVEL_CHANGE
  | HOOK_SVC_RECONF
  | HOOK_SVC_UP
  deriving DecidableEq, Repr

/-- The calls that sm.c makes into the other modules (registry, condition
store, configuration, plugins, utmp, shutdown), in the order of the code.
Pure logging (dbg, logit) is left out.  schedule_work carries the `.delay`
of the work item it is given, in milliseconds. -/
inductive Call where
  | service_step_all (types : svc_mask_t)
  | cond_set_oneshot_bootstrap
  | plugin_run_hooks (hook : hook_t)
  | enable_progress_off
  | api_exit
  | log_exit
  | runlevel_set (prev cur : Int)
  | nologin
  | conf_reload
  | conf_flush_events
  | service_runtask_clean
  | svc_clean_dynamic
  | run_bg_rc_local
  | do_shutdown
  | cond_reload
  | service_notify_reconf
  | schedule_work (delay : Nat)
  | svc_prune_bootstrap
  deriving DecidableEq, Repr

/-- What a called module can see of the globals at the time of a call. -/
structure Globals where
  runlevel : Int
  prevlevel : Int
  in_teardown : Bool
  deriving DecidableEq, Repr

/-- A call together with the globals at the time it is made. -/
structure Seen where
  call : Call
  globals : Globals
  deriving DecidableEq, Repr

/-- The modules around sm.c, over a state `R` of their own (the service
registry, the condition store, the files on disk): the effect of each call,
and the three queries of sm_step.  The queries return a service record or
NULL; only whether the result is NULL matters to sm.c.  A call acts on `R`
alone: within service.c only service_monitor, service_runlevel and
service_reload_dynamic call back into sm.c, none of them from sm_step, and
do_shutdown is taken to return. -/
structure Ext (R : Type) where
  call : Call → Globals → R → R
  svc_stop_completed : R → Option Nat
  svc_clean_completed : R → Option Nat
  conf_any_change : R → Bool

/-- Build options and globals that sm_step only reads: whether
FINIT_RC_LOCAL is defined, the global `rescue`, and INIT_LEVEL. -/
structure sm_cfg where
  rc_local : Bool
  rescue : Bool
  init_level : Int
  deriving DecidableEq, Repr

/-- The state that sm.c works on: the machine `sm`, the globals `runlevel`,
`prevlevel` and `bootstrap`, the state of the other modules, and the calls
made so far. -/
structure World (R : Type) where
  sm : sm_t
  runlevel : Int
  prevlevel : Int
  bootstrap : Bool
  reg : R
  trace : List Seen

/-- Make a call into another module: it acts on the state of the modules
and is recorded with the globals it can see. -/
def World.call {R : Type} (x : Ext R) (c : Call) (w : World R) : World R :=
  { w with
    reg := x.call c ⟨w.runlevel, w.prevlevel, w.sm.in_teardown⟩ w.reg
    trace := w.trace ++ [⟨c, ⟨w.runlevel, w.prevlevel, w.sm.in_teardown⟩⟩] }

/-- Set `sm->state`. -/
def World.set_state {R : Type} (s : sm_state_t) (w : World R) : World R :=
  { w with sm := { w.sm with state := s } }

/-- Set `sm->in_teardown`. -/
def World.set_teardown {R : Type} (b : Bool) (w : World R) : World R :=
  { w with sm := { w.sm with in_teardown := b } }

/-- The `.delay` of the work item `work` that sm_init makes for
sm_check_bootstrap, in milliseconds. -/
def sm_work_delay : Nat := 1000

/-- sm_init: the machine starts in BOOTSTRAP and the bootstrap work item is
scheduled. -/
def sm_init {R : Type} (x : Ext R) (w : World R) : World R :=
  World.call x (Call.schedule_work sm_work_delay)
    { w with sm := ⟨sm_state_t.BOOTSTRAP, -1, false, false⟩ }

/-- sm_set_runlevel: request a runlevel. -/
def sm_set_runlevel {R : Type} (x : Ext R) (newlevel : Int) (w : World R) : World R :=
  World.call x Call.conf_flush_events { w with sm := { w.sm with newlevel := newlevel } }

/-- sm_set_reload: request a reload of the configuration. -/
def sm_set_reload {R : Type} (x : Ext R) (w : World R) : World R :=
  World.call x Call.conf_flush_events { w with sm := { w.sm with reload := true } }

/-- sm_is_in_teardown: the teardown flag. -/
def sm_is_in_teardown (sm : sm_t) : Bool := sm.in_teardown

/-- The body of sm_step between the label `restart` and the final
comparison of the state with `old_state`. -/
def sm_step_table {R : Type} (x : Ext R) (cfg : sm_cfg) (w : World R) : World R :=
  match w.sm.state with
  | sm_state_t.BOOTSTRAP =>
    let w := World.call x (Call.service_step_all svc_mask_t.RUNTASK_SERVICE_SYSV) w
    World.set_state sm_state_t.BOOTSTRAP_WAIT w
  | sm_state_t.BOOTSTRAP_WAIT =>
    let w := World.call x (Call.service_step_all svc_mask_t.ANY) w
    let w := World.call x Call.cond_set_oneshot_bootstrap w
    if w.sm.newlevel = -1 then w
    else
      let w := World.call x (Call.plugin_run_hooks hook_t.HOOK_SYSTEM_UP) w
      let w := World.call x (Call.service_step_all svc_mask_t.ANY) w
      let w := World.call x Call.enable_progress_off w
      let w := { w with bootstrap := false }
      let w := World.call x (Call.service_step_all svc_mask_t.RESPAWN) w
      World.set_state sm_state_t.RUNNING w
  | sm_state_t.RUNNING =>
    let w := World.call x (Call.service_step_all svc_mask_t.ANY) w
    if 0 ≤ w.sm.newlevel ∧ w.sm.newlevel ≤ 9 then
      if w.runlevel = w.sm.newlevel then { w with sm := { w.sm with newlevel := -1 } }
      else World.set_state sm_state_t.RUNLEVEL_CHANGE w
    else if w.sm.reload then
      World.set_state sm_state_t.RELOAD_CHANGE { w with sm := { w.sm with reload := false } }
    else w
  | sm_state_t.RUNLEVEL_CHANGE =>
    let w := { w with prevlevel := w.runlevel, runlevel := w.sm.newlevel,
                      sm := { w.sm with newlevel := -1 } }
    let w :=
      if w.runlevel = 0 ∨ w.runlevel = 6 then
        World.call x (Call.plugin_run_hooks hook_t.HOOK_SHUTDOWN)
          (World.call x Call.log_exit (World.call x Call.api_exit w))
      else w
    let w := World.call x (Call.runlevel_set w.prevlevel w.runlevel) w
    let w := World.call x Call.nologin w
    let w :=
      if w.runlevel ≠ 0 ∧ w.runlevel ≠ 6 then
        if x.conf_any_change w.reg then World.call x Call.conf_reload w else w
      else w
    let w := World.call x Call.service_runtask_clean w
    let w := World.set_teardown true w
    let w := World.call x (Call.service_step_all svc_mask_t.ANY) w
    World.set_state sm_state_t.RUNLEVEL_WAIT w
  | sm_state_t.RUNLEVEL_WAIT =>
    if (x.svc_stop_completed w.reg).isSome then w
    else
      let w := World.call x (Call.plugin_run_hooks hook_t.HOOK_RUNLEVEL_CHANGE) w
      let w := World.set_teardown false w
      let w := World.call x (Call.service_step_all svc_mask_t.ANY) w
      World.set_state sm_state_t.RUNLEVEL_CLEAN w
  | sm_state_t.RUNLEVEL_CLEAN =>
    if (x.svc_clean_completed w.reg).isSome then w
    else
      let w := World.call x Call.svc_clean_dynamic w
      let w :=
        if cfg.rc_local ∧ w.prevlevel = cfg.init_level ∧ cfg.rescue = false then
          World.call x Call.run_bg_rc_local w
        else w
      let w :=
        if w.runlevel = 0 ∨ w.runlevel = 6 then World.call x Call.do_shutdown w else w
      World.set_state sm_state_t.RUNNING w
  | sm_state_t.RELOAD_CHANGE =>
    let w := World.call x Call.conf_reload w
    let w := World.set_teardown true w
    let w := World.call x Call.cond_reload w
    let w := World.call x (Call.service_step_all svc_mask_t.ANY) w
    World.set_state sm_state_t.RELOAD_WAIT w
  | sm_state_t.RELOAD_WAIT =>
    if (x.svc_stop_completed w.reg).isSome then w
    else
      let w := World.set_teardown false w
      let w := World.call x (Call.service_step_all svc_mask_t.ANY) w
      World.set_state sm_state_t.RELOAD_CLEAN w
  | sm_state_t.RELOAD_CLEAN =>
    if (x.svc_clean_completed w.reg).isSome then w
    else
      let w := World.call x Call.svc_clean_dynamic w
      let w := World.call x (Call.plugin_run_hooks hook_t.HOOK_SVC_RECONF) w
      let w := World.call x Call.service_notify_reconf w
      World.set_state sm_state_t.RUNNING w

/-- The `goto restart` loop of sm_step, with a bound on the passes. -/
def sm_step_loop {R : Type} (x : Ext R) (cfg : sm_cfg) : Nat → World R → World R
  | 0, w => w
  | n + 1, w =>
    let w1 := sm_step_table x cfg w
    if w1.sm.state ≠ w.sm.state then sm_step_loop x cfg n w1 else w1

/-- The number of passes granted to sm_step; no call needs more than
eleven (see `sm_step_loop_stable`). -/
def sm_step_fuel : Nat := 12

/-- sm_step: run the machine until its state stops changing. -/
def sm_step {R : Type} (x : Ext R) (cfg : sm_cfg) (w : World R) : World R :=
  sm_step_loop x cfg sm_step_fuel w

/-- A bound on the state changes that sm_step can still make. -/
def sm_step_rank (sm : sm_t) (runlevel : Int) : Nat :=
  let rl : Nat := if sm.reload then 4 else 0
  let running : Nat :=
    if 0 ≤ sm.newlevel ∧ sm.newlevel ≤ 9 then
      (if runlevel = sm.newlevel then 0 else 4 + rl)
    else rl
  match sm.state with
  | sm_state_t.BOOTSTRAP => 2 + running
  | sm_state_t.BOOTSTRAP_WAIT => if sm.newlevel = -1 then 0 else 1 + running
  | sm_state_t.RUNNING => running
  | sm_state_t.RUNLEVEL_CHANGE => 3 + rl
  | sm_state_t.RUNLEVEL_WAIT => 2 + running
  | sm_state_t.RUNLEVEL_CLEAN => 1 + running
  | sm_state_t.RELOAD_CHANGE => 3 + running
  | sm_state_t.RELOAD_WAIT => 2 + running
  | sm_state_t.RELOAD_CLEAN => 1 + running

/-- A sample set of modules with no state of their own: nothing is stopping,
nothing waits for cleanup, no configuration file changed. -/
def ext_quiet : Ext Unit :=
  { call := fun _ _ r => r, svc_stop_completed := fun _ => none,
    svc_clean_completed := fun _ => none, conf_any_change := fun _ => false }

/-- A sample set of modules in which a service is still stopping. -/
def ext_stopping : Ext Unit :=
  { call := fun _ _ r => r, svc_stop_completed := fun _ => some 1,
    svc_clean_completed := fun _ => none, conf_any_change := fun _ => false }

/-- A sample configuration: no rc.local, not in rescue mode, INIT_LEVEL 10. -/
def cfg_plain : sm_cfg := ⟨false, false, 10⟩

/-- The property that sm_step keeps once a level change has been made: no
level in 0..9 is requested, and every call made since `base`, the call
`mark` among them, has seen the new pair of levels. -/
def levels_settled {R : Type} (base : List Seen) (mark : Call) (cur prev : Int)
    (v : World R) : Prop :=
  v.sm.newlevel = -1 ∧ v.sm.state ≠ sm_state_t.RUNLEVEL_CHANGE ∧
    v.runlevel = cur ∧ v.prevlevel = prev ∧
    ∃ calls : List Seen, v.trace = base ++ calls ∧
      (∃ s ∈ calls, s.call = mark) ∧
      ∀ s ∈ calls, s.globals.runlevel = cur ∧ s.globals.prevlevel = prev

/-- The states that sm_step visits after the pass in RUNLEVEL_CHANGE when no
further level is requested. -/
def sm_state_t.after_change : sm_state_t → Bool
  | sm_state_t.RUNLEVEL_WAIT => true
  | sm_state_t.RUNLEVEL_CLEAN => true
  | sm_state_t.RUNNING => true
  | sm_state_t.RELOAD_CHANGE => true
  | sm_state_t.RELOAD_WAIT => true
  | sm_state_t.RELOAD_CLEAN => true
  | _ => false

/-- The states in which the teardown flag is known to be clear after a
change of runlevel or a reload. -/
def sm_state_t.teardown_over : sm_state_t → Bool
  | sm_state_t.RUNLEVEL_CLEAN => true
  | sm_state_t.RUNNING => true
  | sm_state_t.RELOAD_CLEAN => true
  | _ => false

/-- The property that sm_step keeps along a change of runlevel towards a
level `L` other than 0 and 6, from the pass in RUNLEVEL_CHANGE on: no level
is requested, the runlevel is `L`, the machine is past RUNLEVEL_CHANGE, the
teardown flag is clear once the waiting is over, do_shutdown has not been
called since `base`, the stale services have been removed once RUNLEVEL_CLEAN
is left and, when `hooks` is set (the trace from `base` on includes the stay
in RUNLEVEL_WAIT), the runlevel-change hooks have run once RUNLEVEL_WAIT is
left. -/
def change_inv {R : Type} (hooks : Bool) (L : Int) (base : List Seen) (v : World R) : Prop :=
  v.sm.newlevel = -1 ∧ v.runlevel = L ∧ L ≠ 0 ∧ L ≠ 6 ∧
    v.sm.state.after_change = true ∧
    (v.sm.state.teardown_over = true → v.sm.in_teardown = false) ∧
    ∃ calls : List Seen, v.trace = base ++ calls ∧
      Call.do_shutdown ∉ calls.map Seen.call ∧
      (hooks = true → v.sm.state ≠ sm_state_t.RUNLEVEL_WAIT →
        Call.plugin_run_hooks hook_t.HOOK_RUNLEVEL_CHANGE ∈ calls.map Seen.call) ∧
      (v.sm.state ≠ sm_state_t.RUNLEVEL_WAIT → v.sm.state ≠ sm_state_t.RUNLEVEL_CLEAN →
        Call.svc_clean_dynamic ∈ calls.map Seen.call)

/-- A reload that waits behind a change of runlevel towards `L`: sm_step has
returned in RUNLEVEL_WAIT or RUNLEVEL_CLEAN because the query of that state
reports a service, and the reload flag is still set. -/
def reload_kept {R : Type} (x : Ext R) (L : Int) (r : World R) : Prop :=
  (r.sm.state = sm_state_t.RUNLEVEL_WAIT ∨ r.sm.state = sm_state_t.RUNLEVEL_CLEAN) ∧
    r.sm.reload = true ∧ r.runlevel = L ∧ r.sm.newlevel = -1 ∧
    (r.sm.state = sm_state_t.RUNLEVEL_WAIT → (x.svc_stop_completed r.reg).isSome = true) ∧
    (r.sm.state = sm_state_t.RUNLEVEL_CLEAN →
      (x.svc_clean_completed r.reg).isSome = true ∧ r.sm.in_teardown = false)

/-- The world at the `n`-th return to the label `restart` of sm_step: the
world after `n` passes through the table. -/
def sm_step_nth {R : Type} (x : Ext R) (cfg : sm_cfg) : Nat → World R → World R
  | 0, w => w
  | n + 1, w => sm_step_nth x cfg n (sm_step_table x cfg w)

/-- A reload performed after a change of runlevel towards `L`: the call of
sm_step on `u` that returned `r` came, after some passes, through a world
`v` in RUNNING with runlevel `L`, no level requested and the reload flag
still set, neither cond_reload nor do_shutdown having been called since the
call began, and went on from there: the flag is consumed and conf_reload and
cond_reload are called with runlevel `L`, which is still the runlevel in
`r`. -/
def reload_done {R : Type} (x : Ext R) (cfg : sm_cfg) (L : Int) (u : World R)
    (r : World R) : Prop :=
  ¬ (r.sm.state = sm_state_t.RUNLEVEL_WAIT ∨ r.sm.state = sm_state_t.RUNLEVEL_CLEAN) ∧
    ∃ v : World R, (∃ k : Nat, v = sm_step_nth x cfg k u) ∧ r = sm_step x cfg v ∧
      v.sm.state = sm_state_t.RUNNING ∧ v.sm.reload = true ∧ v.sm.newlevel = -1 ∧
      v.runlevel = L ∧ v.sm.in_teardown = false ∧
      (∃ calls : List Seen, v.trace = u.trace ++ calls ∧
        Call.cond_reload ∉ calls.map Seen.call ∧ Call.do_shutdown ∉ calls.map Seen.call) ∧
      (∃ calls : List Seen, r.trace =
        v.trace ++
          [⟨Call.service_step_all svc_mask_t.ANY, ⟨L, v.prevlevel, false⟩⟩,
           ⟨Call.conf_reload, ⟨L, v.prevlevel, false⟩⟩,
           ⟨Call.cond_reload, ⟨L, v.prevlevel, true⟩⟩,
           ⟨Call.service_step_all svc_mask_t.ANY, ⟨L, v.prevlevel, true⟩⟩] ++ calls) ∧
      r.sm.reload = false ∧ r.runlevel = L

/-- The query that a pass on `v` makes, if it makes one, returns NULL: in
RUNLEVEL_WAIT and RELOAD_WAIT no service is reported as stopping, in
RUNLEVEL_CLEAN and RELOAD_CLEAN none as waiting for its cleanup, by the
registry as it is in `v`. -/
def sm_quiet_at {R : Type} (x : Ext R) (v : World R) : Prop :=
  (v.sm.state = sm_state_t.RUNLEVEL_WAIT ∨ v.sm.state = sm_state_t.RELOAD_WAIT →
      x.svc_stop_completed v.reg = none) ∧
    (v.sm.state = sm_state_t.RUNLEVEL_CLEAN ∨ v.sm.state = sm_state_t.RELOAD_CLEAN →
      x.svc_clean_completed v.reg = none)

instance {R : Type} (x : Ext R) (v : World R) : Decidable (sm_quiet_at x v) := by
  unfold sm_quiet_at
  infer_instance

/-- A sample set of modules whose state is the number of services that are
still stopping: each stepping of the services lets one of them finish, and
svc_stop_completed reports a service as long as the number is positive. -/
def ext_counting : Ext Nat :=
  { call := fun c _ r =>
      match c with
      | Call.service_step_all _ => r - 1
      | _ => r,
    svc_stop_completed := fun r => if r = 0 then none else some r,
    svc_clean_completed := fun _ => none, conf_any_change := fun _ => false }

/-- A sample world over `ext_counting`: the machine in `state` with
`newlevel` requested, in runlevel 2, with `n` services still stopping. -/
def world_counting (state : sm_state_t) (newlevel : Int) (n : Nat) : World Nat :=
  { sm := ⟨state, newlevel, false, false⟩, runlevel := 2, prevlevel := 10,
    bootstrap := false, reg := n, trace := [] }

/-- A sample world: the machine in `state` with `newlevel` requested and the
reload flag as given, in runlevel 2 after bootstrap (previous level 10). -/
def world_at (state : sm_state_t) (newlevel : Int) (reload : Bool) : World Unit :=
  { sm := ⟨state, newlevel, reload, false⟩, runlevel := 2, prevlevel := 10,
    bootstrap := false, reg := (), trace := [] }

/-- The states that sm_step visits after the pass in RELOAD_CHANGE when no
level in 0..9 is requested. -/
def sm_state_t.after_reload : sm_state_t → Bool
  | sm_state_t.RELOAD_WAIT => true
  | sm_state_t.RELOAD_CLEAN => true
  | sm_state_t.RUNNING => true
  | _ => false

/-- The property that sm_step keeps after the pass in RELOAD_CHANGE: no
level in 0..9 is requested, the reload flag is clear, the machine is in
RELOAD_WAIT, RELOAD_CLEAN or RUNNING, the levels are `cur` and `prev`, and
the trace extends `base`. -/
def reload_inv {R : Type} (base : List Seen) (cur prev : Int) (v : World R) : Prop :=
  ¬ (0 ≤ v.sm.newlevel ∧ v.sm.newlevel ≤ 9) ∧ v.sm.reload = false ∧
    v.sm.state.after_reload = true ∧ v.runlevel = cur ∧ v.prevlevel = prev ∧
    ∃ calls : List Seen, v.trace = base ++ calls

/-! ## sm.c: the bootstrap watchdog -/

/-- service_reload_dynamic of service.c: request a reload and run the
machine. -/
def service_reload_dynamic {R : Type} (x : Ext R) (cfg : sm_cfg) (w : World R) : World R :=
  sm_step x cfg (sm_set_reload x w)

/-- The delay that a call asks the work queue for: the delay of the item
for schedule_work, nothing for any other call. -/
def Call.delay : Call → Nat
  | Call.schedule_work d => d
  | _ => 0

/-- A sample record: a task RUNNING with pid 100, blocked by the operator
and therefore not enabled. -/
def task_stopped_by_hand : svc_t :=
  { svc_running with type := svc_type_t.TASK, block := svc_block_t.MANUAL }

/-- A sample record: the running service, blocked by the operator and
therefore not enabled. -/
def svc_stopped_by_hand : svc_t := { svc_running with block := svc_block_t.MANUAL }

/-- A sample record: the running service found dead (pid 0) while the 2 s
timer of an earlier retry is still pending. -/
def svc_lost_retrying : svc_t :=
  { svc_running with pid := 0, timer_cb := some timer_cb_t.service_retry, timer := some 2000 }

/-- A sample record: the running service found dead (pid 0), no timer
pending. -/
def svc_lost : svc_t := { svc_running with pid := 0 }

/-- A sample record: a task that has run to its end, RUNNING with pid 0,
clean and enabled. -/
def task_finished : svc_t := { svc_running with type := svc_type_t.TASK, pid := 0 }

/-- A sample environment: as `env_up`, with the condition aggregate OFF. -/
def env_off : Env := { env_up with cond_agg := cond_state_t.OFF }

/-- A sample record: the fresh service made READY. -/
def svc_ready : svc_t := { svc_fresh with state := svc_state_t.READY }

/-- A sample environment: as `env_up`, with the condition aggregate in
FLUX. -/
def env_flux : Env := { env_up with cond_agg := cond_state_t.FLUX }

/-- Whether an event is a SIGHUP. -/
def Event.sighup : Event → Bool
  | Event.kill _ Signal.SIGHUP => true
  | _ => false

/-- The records to which a service_step may still forward SIGHUP: RUNNING,
or WAITING and about to be resumed, enabled, marked changed, with sighup
set, while the condition aggregate is ON and no teardown is in progress. -/
def sighup_due (e : Env) (svc : svc_t) : Prop :=
  (svc.state = svc_state_t.RUNNING ∨ svc.state = svc_state_t.WAITING) ∧
    service_enabled e svc = true ∧ e.cond_agg = cond_state_t.ON ∧
    svc.dirty ≠ svc_dirty_t.CLEAN ∧ svc.sighup = true ∧ e.in_teardown = false

instance (e : Env) (svc : svc_t) : Decidable (sighup_due e svc) := by
  unfold sighup_due
  infer_instance

/-- A sample record: the running service after an edit of its
configuration, marked changed. -/
def svc_changed : svc_t := { svc_running with dirty := svc_dirty_t.CHANGED }

/-- A sample record: the changed service, stopped by SIGSTOP while its
condition was in flux (WAITING, pid 100). -/
def svc_stopped_changed : svc_t := { svc_changed with state := svc_state_t.WAITING }

/-- A sample record: the fresh service halted after a crash, waiting for
its retry timer. -/
def svc_crashed : svc_t := { svc_fresh with block := svc_block_t.RESTARTING }

/-- The record at the `n`-th return to the label `restart` of service_step:
the record after `n` passes through the table. -/
def service_step_nth (e : Env) : Nat → svc_t → svc_t
  | 0, svc => svc
  | n + 1, svc => service_step_nth e n (service_step_table e svc).svc

/-! ## sm.c: the worlds that the machine can reach -/

/-- The teardown flag is set exactly in the two states that wait for
services to stop. -/
def sm_teardown_inv (sm : sm_t) : Prop :=
  sm.in_teardown = true ↔
    (sm.state = sm_state_t.RUNLEVEL_WAIT ∨ sm.state = sm_state_t.RELOAD_WAIT)

instance (sm : sm_t) : Decidable (sm_teardown_inv sm) := by
  unfold sm_teardown_inv
  infer_instance

/-- The worlds reached from sm_init by the entry points of sm.c, with the
other modules changing their own state at will in between. -/
inductive sm_reachable {R : Type} (x : Ext R) (cfg : sm_cfg) : World R → Prop where
  | init (w : World R) : sm_reachable x cfg (sm_init x w)
  | step (w : World R) : sm_reachable x cfg w → sm_reachable x cfg (sm_step x cfg w)
  | set_runlevel (w : World R) (newlevel : Int) :
      sm_reachable x cfg w → sm_reachable x cfg (sm_set_runlevel x newlevel w)
  | set_reload (w : World R) : sm_reachable x cfg w → sm_reachable x cfg (sm_set_reload x w)
  | outside (w : World R) (reg : R) :
      sm_reachable x cfg w → sm_reachable x cfg { w with reg := reg }

/-- A sample record: a finished task (pid 0) stopped in WAITING and blocked
by the operator. -/
def task_waiting_blocked : svc_t :=
  { task_finished with state := svc_state_t.WAITING, block := svc_block_t.MANUAL }

/-! ## C strings and libc helpers

A C string is modelled by the list of its characters up to, and without,
the terminating NUL. -/

/-- The NUL character. -/
def NUL : Char := Char.ofNat 0

/-- The decimal digits, the accept set of `strspn(arg, "0123456789")` and
the characters for which isdigit holds. -/
def digit_chars : List Char := ['0', '1', '2', '3', '4', '5', '6', '7', '8', '9']

/-- The characters for which isspace holds in the C locale. -/
def space_chars : List Char :=
  [' ', '\t', '\n', Char.ofNat 11, Char.ofNat 12, '\r']

/-- strspn: the length of the longest prefix made of accepted characters. -/
def strspn (s accept : List Char) : Nat := (s.takeWhile accept.contains).length

/-- The value of a string of decimal digits, most significant first. -/
def digits_value (s : List Char) : Nat :=
  s.foldl (fun acc c => 10 * acc + (c.toNat - '0'.toNat)) 0

/-- Conversion to `int`: the value is reduced modulo 2^32 into the range
-2^31 .. 2^31 - 1 (what the usual targets do where C leaves the result of
an overflow open). -/
def to_int (z : Int) : Int := (z + 2147483648) % 4294967296 - 2147483648

/-- The bounds of a 64-bit `long`. -/
def LONG_MAX : Int := 9223372036854775807

/-- strtol(s, NULL, 10): skip white space, take an optional sign, then read
decimal digits up to the first other character; no digits give 0, and a
value outside the range of `long` gives LONG_MIN or LONG_MAX. -/
def strtol10 (s : List Char) : Int :=
  let s := s.dropWhile space_chars.contains
  let neg := s.head? = some '-'
  let s := if s.head? = some '-' ∨ s.head? = some '+' then s.tail else s
  let v : Int := digits_value (s.takeWhile digit_chars.contains)
  let z : Int := if neg then -v else v
  if z < -LONG_MAX - 1 then -LONG_MAX - 1 else if LONG_MAX < z then LONG_MAX else z

/-- atoi, which the C library defines as `(int) strtol(s, NULL, 10)`. -/
def atoi (s : List Char) : Int := to_int (strtol10 s)

/-! ## util.c -/

/-- strtobytes: `none` stands for a NULL argument. -/
def strtobytes (arg : Option (List Char)) : Int :=
  match arg with
  | none => -1
  | some arg =>
    let pos := strspn arg digit_chars
    let scale (mod : Nat) : Int :=
      (List.range mod).foldl (fun bytes _ => to_int (bytes * 1000)) (atoi (arg.take pos))
    match arg.get? pos with
    | none => scale 0
    | some c =>
      if c = 'G' then scale 3
      else if c = 'M' then scale 2
      else if c = 'k' then scale 1
      else -1

/-- The conversion `%d` of printf. -/
def print_d (z : Int) : List Char :=
  if z < 0 then '-' :: Nat.toDigits 10 z.natAbs else Nat.toDigits 10 z.natAbs

/-- What snprintf and strlcpy leave in a buffer of `len` bytes: at most
`len - 1` characters of the text. -/
def buf_fit (text : List Char) (len : Nat) : List Char := text.take (len - 1)

/-- memsz: format the size `sz` (a uint64_t) into `buf`; the result is the
string left in the buffer. -/
def memsz (sz : Nat) (len : Nat) : List Char :=
  if sz = 0 then buf_fit ['-', '-', '.', '-', '-'] len
  else
    let gb := to_int ((sz / (1024 * 1024 * 1024) : Nat) : Int)
    let sz := sz % (1024 * 1024 * 1024)
    let mb := to_int ((sz / (1024 * 1024) : Nat) : Int)
    let sz := sz % (1024 * 1024)
    let kb := to_int ((sz / 1024 : Nat) : Int)
    let b := to_int ((sz % 1024 : Nat) : Int)
    if gb ≠ 0 then buf_fit (print_d gb ++ ['.'] ++ print_d (mb / 102) ++ ['G']) len
    else if mb ≠ 0 then buf_fit (print_d mb ++ ['.'] ++ print_d (kb / 102) ++ ['M']) len
    else buf_fit (print_d kb ++ ['.'] ++ print_d (b / 102) ++ ['k']) len

/-- The bracket expression `[a-z0-9_]` under REG_ICASE. -/
def job_char (c : Char) : Bool :=
  ('a' ≤ c ∧ c ≤ 'z') ∨ ('A' ≤ c ∧ c ≤ 'Z') ∨ ('0' ≤ c ∧ c ≤ '9') ∨ c = '_'

/-- The length of the match of `[a-z0-9_]+[:]?[a-z0-9_]*` that starts at
the head of `s`, if there is one. -/
def job_regex_here (s : List Char) : Option Nat :=
  let a := (s.takeWhile job_char).length
  if a = 0 then none
  else
    let r := s.drop a
    let colon := if r.head? = some ':' then 1 else 0
    let r := r.drop colon
    some (a + colon + (r.takeWhile job_char).length)

/-- regexec with the pattern of sanitize: the pattern has no anchors, so a
match may start at any position of the string. -/
def job_regexec : List Char → Bool
  | [] => (job_regex_here []).isSome
  | c :: s => (job_regex_here (c :: s)).isSome || job_regexec s

/-- sanitize: `arg` is the memory from the pointer on, `len` the size given.
The result is `some` of the C string when `arg` is returned and `none` for
NULL.  `regcomp_fails` tells whether regcomp reports an error. -/
def sanitize (regcomp_fails : Bool) (arg : List Char) (len : Nat) : Option (List Char) :=
  if !(arg.take len).contains NUL then none
  else if regcomp_fails then none
  else if !job_regexec (arg.takeWhile (fun c => c ≠ NUL)) then none
  else some (arg.takeWhile (fun c => c ≠ NUL))

/-! ## exec.c: the tokeniser of run

The duplicated command is a block of memory, the list of its bytes with the
terminating NUL last; a pointer into it is an index, and `none` is NULL. -/

/-- The size of the argv of run, `NUM_ARGS`. -/
def NUM_ARGS : Nat := 16

/-- What the tokeniser can do wrong with memory. -/
inductive Fault where
  /-- an access beyond the terminating NUL of the duplicated string -/
  | out_of_bounds
  /-- an access through a pointer computed from NULL -/
  | null_pointer
  deriving DecidableEq

/-- strsep(&arg, delim) with `arg` at index `s` of `buf`: scan for the
first delimiter or NUL; a delimiter is overwritten with NUL and `arg` moves
behind it, at the NUL `arg` becomes NULL.  The result is the memory and the
new `arg`; the token returned starts at `s`. -/
def strsep (buf : List Char) (s : Nat) (delim : List Char) :
    Except Fault (List Char × Option Nat) :=
  let k := ((buf.drop s).takeWhile (fun c => c ≠ NUL && !delim.contains c)).length
  match buf.get? (s + k) with
  | none => .error .out_of_bounds
  | some c => if c = NUL then .ok (buf, none) else .ok (buf.set (s + k) NUL, some (s + k + 1))

/-- The loop `while (arg && i < NUM_ARGS)` of run; `slots` is
`NUM_ARGS - i`, and `args` holds `args[0] .. args[i - 1]`. -/
def run_loop : Nat → List Char → Option Nat → List Nat →
    Except Fault (List Char × Option Nat × List Nat)
  | _, buf, none, args => .ok (buf, none, args)
  | 0, buf, some a, args => .ok (buf, some a, args)
  | slots + 1, buf, some a, args =>
    match buf.get? a with
    | none => .error .out_of_bounds
    | some c =>
      if c = '\'' ∨ c = '"' then
        match strsep buf (a + 1) [c] with
        | .error f => .error f
        | .ok (_, none) => .error .null_pointer
        | .ok (buf, some a2) =>
          match buf.get? a2 with
          | none => .error .out_of_bounds
          | some _ => run_loop slots ((buf.set (a2 - 1) c).set a2 NUL) (some (a2 + 1)) (args ++ [a])
      else
        match strsep buf a ['\t', ' '] with
        | .error f => .error f
        | .ok (buf, arg) => run_loop slots buf arg (args ++ [a])

/-- The C string that starts at index `a` of `buf`. -/
def cstr_at (buf : List Char) (a : Nat) : List Char :=
  (buf.drop a).takeWhile (fun c => c ≠ NUL)

/-- The tokeniser of run, up to the call of execvp: the result is the argv
given to execvp, or `none` when run gives up with "Command too long".  The
strdup of `cmd` is taken to succeed. -/
def run_argv (cmd : List Char) : Except Fault (Option (List (List Char))) :=
  match strsep (cmd ++ [NUL]) 0 ['\t', ' '] with
  | .error f => .error f
  | .ok (buf, arg) =>
    match run_loop (NUM_ARGS - 1) buf arg [0] with
    | .error f => .error f
    | .ok (buf, arg, args) =>
      if args.length = NUM_ARGS ∧ arg ≠ none then .ok none
      else .ok (some (args.map (cstr_at buf)))

/-! ### Command lines of the form `w1 ... "q1 q2" ... wn` -/

/-- An element of a command line: a plain word, or a text enclosed in a
pair of equal quotes. -/
inductive Arg where
  | word (w : List Char)
  | quoted (q : Char) (text : List Char)
  deriving DecidableEq

/-- The characters of an element as they stand in the command; a quoted
element stands there with its quotes. -/
def Arg.chars : Arg → List Char
  | .word w => w
  | .quoted q text => q :: (text ++ [q])

/-- No character of `w` is NUL or one of the delimiters. -/
def free_of (delim : List Char) (w : List Char) : Bool :=
  w.all (fun c => c ≠ NUL && !delim.contains c)

/-- A word has no space, tab or NUL and does not begin with a quote; a
quoted element has a single or double quote around a text without that
quote. -/
def Arg.wf : Arg → Bool
  | .word w => free_of ['\t', ' '] w && w.head? ≠ some '\'' && w.head? ≠ some '"'
  | .quoted q text => (q = '\'' || q = '"') && free_of [q] text

/-- The element `x` and the elements after it, each with the blank that
stands before it, are well formed, and the last one is a word. -/
def args_wf : Arg → List (Char × Arg) → Bool
  | .word w, [] => Arg.wf (.word w)
  | .quoted _ _, [] => false
  | x, (s, y) :: r => x.wf && (s = ' ' || s = '\t') && args_wf y r

/-- The elements after the first word of a command are well formed. -/
def rest_wf : List (Char × Arg) → Bool
  | [] => true
  | (s, y) :: r => (s = ' ' || s = '\t') && args_wf y r

/-- The text of the elements after the first word, blanks included. -/
def rest_text : List (Char × Arg) → List Char
  | [] => []
  | (s, y) :: r => s :: (y.chars ++ rest_text r)

/-- The memory from the element `x` on, up to the terminating NUL. -/
def args_text : Arg → List (Char × Arg) → List Char
  | x, [] => x.chars ++ [NUL]
  | x, (s, y) :: r => x.chars ++ s :: args_text y r

/-- The same memory after the tokeniser has passed: every blank between
two elements is overwritten with NUL. -/
def final_text : Arg → List (Char × Arg) → List Char
  | x, [] => x.chars ++ [NUL]
  | x, (_, y) :: r => x.chars ++ NUL :: final_text y r

/-- The index at which each element starts when `x` starts at `a`. -/
def arg_offsets : Nat → Arg → List (Char × Arg) → List Nat
  | a, _, [] => [a]
  | a, x, (_, y) :: r => a :: arg_offsets (a + x.chars.length + 1) y r

/-! ## service.c: service_register, up to the lookup of the record -/

/-- The errno value for an invalid argument. -/
def EINVAL : Int := 22

/-- The errno value for a missing entry. -/
def ENOENT : Int := 2

/-- The part of `line` before the first "-- ", where service_register cuts
off the description; the whole line when there is none. -/
def before_desc : List Char → List Char
  | [] => []
  | c :: s => if (c :: s).take 3 = ['-', '-', ' '] then [] else c :: before_desc s

/-- The tokens that strtok(line, " ") and the calls strtok(NULL, " ") after
it return, in order: the non-empty pieces between spaces. -/
def strtok_all (s : List Char) : List (List Char) :=
  (s.foldr (fun c acc =>
    if c = ' ' then [] :: acc
    else match acc with
      | [] => [[c]]
      | t :: r => (c :: t) :: r) [[]]).filter (fun t => t ≠ [])

/-- The test `!strncasecmp(cmd, lit, n)` for a lower-case literal `lit`
of length `n`. -/
def strncasecmp_eq (cmd lit : List Char) : Bool :=
  (cmd.take lit.length).map Char.toLower = lit

/-- The local variables of service_register that the options of a line
set. -/
structure reg_opts where
  username : Option (List Char)
  runlevels : Option (List Char)
  cond : Option (List Char)
  id : Int
  forking : Bool
  service : Option (List Char)
  log : Bool
  deriving DecidableEq

/-- The loop over the leading options of a line.  `none` is the exit by
`goto incomplete`; otherwise the result is the command, the tokens after
it and the options read. -/
def register_opts (INETD_ENABLED : Bool) :
    List (List Char) → reg_opts → Option (List Char × List (List Char) × reg_opts)
  | [], _ => none
  | cmd :: rest, o =>
    if cmd.head? = some '@' then
      register_opts INETD_ENABLED rest { o with username := some cmd.tail }
    else if cmd.head? = some '[' then
      register_opts INETD_ENABLED rest { o with runlevels := some cmd }
    else if cmd.head? = some '<' then
      register_opts INETD_ENABLED rest { o with cond := some cmd.tail }
    else if cmd.head? = some ':' then
      register_opts INETD_ENABLED rest { o with id := atoi cmd.tail }
    else if strncasecmp_eq cmd ['n', 'o', 'w', 'a', 'i', 't'] && INETD_ENABLED then
      register_opts INETD_ENABLED rest { o with forking := true }
    else if strncasecmp_eq cmd ['w', 'a', 'i', 't'] && INETD_ENABLED then
      register_opts INETD_ENABLED rest { o with forking := false }
    else if cmd.head? ≠ some '/' ∧ '/' ∈ cmd then
      register_opts INETD_ENABLED rest { o with service := some cmd }
    else if strncasecmp_eq cmd ['l', 'o', 'g'] then
      register_opts INETD_ENABLED rest { o with log := true }
    else some (cmd, rest, o)

/-- What service_register needs from code that is not in service.c:
whether inetd support is compiled in (`INETD_ENABLED`), whether plugin_find
returns a plugin with an inetd callback, whether inetd_find_svc returns a
record, and the value of svc_next_id. -/
structure reg_env where
  INETD_ENABLED : Bool
  plugin_find : List Char → Bool
  inetd_find_svc : List Char → List Char → List Char → Bool
  svc_next_id : List Char → Int

/-- How far service_register gets with a line. -/
inductive Registered where
  /-- the inetd service is known already, only its interface filter is set up -/
  | inetd_setup (cmd : List Char)
  /-- the record is looked up with svc_find(cmd, id) and, when there is
  none, created with svc_new(cmd, id, type) -/
  | record (cmd : List Char) (id : Int) (type : svc_type_t)
  deriving DecidableEq

/-- service_register up to the lookup or creation of the record; `line` is
the text after the keyword, `none` for NULL.  An error is the errno
returned. -/
def service_register (x : reg_env) (type : svc_type_t) (line : Option (List Char)) :
    Except Int Registered :=
  match line with
  | none => .error EINVAL
  | some line =>
    let o : reg_opts := { username := none, runlevels := none, cond := none, id := 1,
                          forking := false, service := none, log := false }
    match register_opts x.INETD_ENABLED (strtok_all (before_desc line)) o with
    | none => .error ENOENT
    | some (cmd, _, o) =>
      let service := o.service.map (fun s => s.takeWhile (fun c => c ≠ '@'))
      if service.any (fun s => !s.contains '/') then .error ENOENT
      else
        let proto := (service.getD []).dropWhile (fun c => c ≠ '/') |>.tail
        let service := (service.getD []).takeWhile (fun c => c ≠ '/')
        if x.INETD_ENABLED && type = svc_type_t.INETD then
          let ps := match cmd.dropWhile (fun c => c ≠ '.') with
            | [] => service
            | _ :: ptr => ptr
          if strncasecmp_eq cmd ['i', 'n', 't', 'e', 'r', 'n', 'a', 'l'] && !x.plugin_find ps then
            .error ENOENT
          else
            let cmd := if strncasecmp_eq cmd ['i', 'n', 't', 'e', 'r', 'n', 'a', 'l']
              then cmd.takeWhile (fun c => c ≠ '.') else cmd
            if x.inetd_find_svc cmd service proto then .ok (.inetd_setup cmd)
            else .ok (.record cmd (x.svc_next_id cmd) type)
        else .ok (.record cmd o.id type)

/-! ## Theorems -/

/-! ## Basic facts about the helpers -/

theorem service_enabled_eq (e : Env) (svc : svc_t) :
    service_enabled e svc =
      (svc_in_runlevel svc e.runlevel && !(svc_is_removed svc) && !(svc_is_blocked svc)) := by
  unfold service_enabled
  cases svc_in_runlevel svc e.runlevel <;> cases svc_is_removed svc <;>
    cases svc_is_blocked svc <;> rfl

theorem service_enabled_congr (e : Env) (a b : svc_t) (h1 : a.runlevels = b.runlevels)
    (h2 : a.dirty = b.dirty) (h3 : a.block = b.block) :
    service_enabled e a = service_enabled e b := by
  simp [service_enabled_eq, svc_in_runlevel, svc_is_removed, svc_is_blocked, h1, h2, h3]

theorem service_enabled_clean (e : Env) (a b : svc_t) (h1 : a.runlevels = b.runlevels)
    (h2 : a.dirty = svc_dirty_t.CLEAN) (h3 : a.block = b.block)
    (hb : service_enabled e b = true) : service_enabled e a = true := by
  simp [service_enabled_eq, svc_in_runlevel, svc_is_removed, svc_is_blocked, h1, h2, h3] at hb ⊢
  simp [hb]

theorem service_enabled_blocked (e : Env) (svc : svc_t) (h : svc.block ≠ svc_block_t.NONE) :
    service_enabled e svc = false := by
  simp [service_enabled_eq, svc_is_blocked, h]

theorem svc_set_state_HALTED (e : Env) (svc : svc_t) :
    svc_set_state e svc svc_state_t.HALTED = ({ svc with state := svc_state_t.HALTED }, []) := by
  simp [svc_set_state]

theorem svc_set_state_READY (e : Env) (svc : svc_t) :
    svc_set_state e svc svc_state_t.READY = ({ svc with state := svc_state_t.READY }, []) := by
  simp [svc_set_state]

theorem svc_set_state_DONE (e : Env) (svc : svc_t) :
    svc_set_state e svc svc_state_t.DONE = ({ svc with state := svc_state_t.DONE }, []) := by
  simp [svc_set_state]

theorem svc_set_state_RUNNING (e : Env) (svc : svc_t) :
    svc_set_state e svc svc_state_t.RUNNING = ({ svc with state := svc_state_t.RUNNING }, []) := by
  simp [svc_set_state]

theorem svc_set_state_WAITING (e : Env) (svc : svc_t) :
    svc_set_state e svc svc_state_t.WAITING = ({ svc with state := svc_state_t.WAITING }, []) := by
  simp [svc_set_state]

theorem svc_set_state_STOPPING (e : Env) (svc : svc_t) :
    svc_set_state e svc svc_state_t.STOPPING = (stopping_of svc, stopping_events svc) := by
  cases h : svc.timer_cb <;>
    simp [svc_set_state, service_timeout_cancel, service_timeout_after, h, stopping_of,
      stopping_events]

theorem service_start_frame (e : Env) (svc : svc_t) :
    (service_start e svc).1.state = svc.state ∧ (service_start e svc).1.type = svc.type ∧
    (service_start e svc).1.dirty = svc.dirty ∧
    (service_start e svc).1.runlevels = svc.runlevels ∧
    (service_start e svc).1.restart_counter = svc.restart_counter ∧
    (service_start e svc).1.timer_cb = svc.timer_cb ∧
    (service_start e svc).1.timer = svc.timer ∧
    (service_start e svc).1.sighup = svc.sighup ∧
    (service_start e svc).1.inetd_cmd = svc.inetd_cmd := by
  simp only [service_start]
  split_ifs <;> simp [svc_missing, svc_starting]

theorem bool_not_true {b : Bool} (h : ¬ b = true) : b = false := by
  simpa using h

set_option maxHeartbeats 1000000 in
/-- Every pass of service_step follows one row of the table. -/
theorem service_step_table_row (e : Env) (svc : svc_t) :
    TableRow e svc (service_step_table e svc) := by
  cases hs : svc.state
  · -- HALTED
    by_cases hen : service_enabled e svc = true
    · convert TableRow.halted_ready hs hen using 1
      simp [service_step_table, hs, Pass.brk, svc_set_state_HALTED, svc_set_state_READY, svc_set_state_DONE, svc_set_state_RUNNING, svc_set_state_WAITING, svc_set_state_STOPPING, svc_is_inetd_conn, svc_is_changed, svc_is_daemon, svc_mark_clean, svc_restarting, stopping_of, stopping_events, hen]
    · convert TableRow.halted_stay hs (bool_not_true hen) using 1
      simp [service_step_table, hs, Pass.brk, svc_set_state_HALTED, svc_set_state_READY, svc_set_state_DONE, svc_set_state_RUNNING, svc_set_state_WAITING, svc_set_state_STOPPING, svc_is_inetd_conn, svc_is_changed, svc_is_daemon, svc_mark_clean, svc_restarting, stopping_of, stopping_events, hen]
  · -- DONE
    by_cases hi : e.inetd_enabled = true ∧ svc.type = svc_type_t.INETD_CONN
    · convert TableRow.done_unregister hs hi.1 hi.2 using 1
      simp [service_step_table, hs, Pass.brk, svc_set_state_HALTED, svc_set_state_READY, svc_set_state_DONE, svc_set_state_RUNNING, svc_set_state_WAITING, svc_set_state_STOPPING, svc_is_inetd_conn, svc_is_changed, svc_is_daemon, svc_mark_clean, svc_restarting, stopping_of, stopping_events, hi.1, hi.2]
    · by_cases hd : svc.dirty = svc_dirty_t.CLEAN
      · convert TableRow.done_stay hs hi hd using 1
        simp only [not_and] at hi
        simp [service_step_table, hs, Pass.brk, svc_set_state_HALTED, svc_set_state_READY, svc_set_state_DONE, svc_set_state_RUNNING, svc_set_state_WAITING, svc_set_state_STOPPING, svc_is_inetd_conn, svc_is_changed, svc_is_daemon, svc_mark_clean, svc_restarting, stopping_of, stopping_events, hd]
        intro h1 h2
        exact absurd h2 (hi h1)
      · convert TableRow.done_halted hs hi hd using 1
        simp only [not_and] at hi
        simp [service_step_table, hs, Pass.brk, svc_set_state_HALTED, svc_set_state_READY, svc_set_state_DONE, svc_set_state_RUNNING, svc_set_state_WAITING, svc_set_state_STOPPING, svc_is_inetd_conn, svc_is_changed, svc_is_daemon, svc_mark_clean, svc_restarting, stopping_of, stopping_events, hd]
        intro h1 h2
        exact absurd h2 (hi h1)
  · -- STOPPING
    by_cases hp : svc.pid = 0
    · cases ht : svc.type
      · convert TableRow.stopping_halted hs hp (Or.inl ht) using 1
        obtain ⟨type, state, block, dirty, runlevels, sighup, inetd_cmd, pid, rc, starting, tcb,
          timer⟩ := svc
        simp only at hs hp ht
        subst hs hp ht
        cases tcb <;> simp [service_step_table, Pass.brk, svc_set_state_HALTED, svc_set_state_DONE, service_timeout_cancel]
      · convert TableRow.stopping_done hs hp (Or.inr (Or.inl ht)) using 1
        obtain ⟨type, state, block, dirty, runlevels, sighup, inetd_cmd, pid, rc, starting, tcb,
          timer⟩ := svc
        simp only at hs hp ht
        subst hs hp ht
        cases tcb <;> simp [service_step_table, Pass.brk, svc_set_state_HALTED, svc_set_state_DONE, service_timeout_cancel]
      · convert TableRow.stopping_done hs hp (Or.inr (Or.inr ht)) using 1
        obtain ⟨type, state, block, dirty, runlevels, sighup, inetd_cmd, pid, rc, starting, tcb,
          timer⟩ := svc
        simp only at hs hp ht
        subst hs hp ht
        cases tcb <;> simp [service_step_table, Pass.brk, svc_set_state_HALTED, svc_set_state_DONE, service_timeout_cancel]
      · convert TableRow.stopping_sysv hs hp ht using 1
        obtain ⟨type, state, block, dirty, runlevels, sighup, inetd_cmd, pid, rc, starting, tcb,
          timer⟩ := svc
        simp only at hs hp ht
        subst hs hp ht
        cases tcb <;> simp [service_step_table, Pass.brk, svc_set_state_HALTED, svc_set_state_DONE, service_timeout_cancel]
      · convert TableRow.stopping_halted hs hp (Or.inr ht) using 1
        obtain ⟨type, state, block, dirty, runlevels, sighup, inetd_cmd, pid, rc, starting, tcb,
          timer⟩ := svc
        simp only at hs hp ht
        subst hs hp ht
        cases tcb <;> simp [service_step_table, Pass.brk, svc_set_state_HALTED, svc_set_state_DONE, service_timeout_cancel]
      · convert TableRow.stopping_done hs hp (Or.inl ht) using 1
        obtain ⟨type, state, block, dirty, runlevels, sighup, inetd_cmd, pid, rc, starting, tcb,
          timer⟩ := svc
        simp only at hs hp ht
        subst hs hp ht
        cases tcb <;> simp [service_step_table, Pass.brk, svc_set_state_HALTED, svc_set_state_DONE, service_timeout_cancel]
    · convert TableRow.stopping_stay hs hp using 1
      simp [service_step_table, hs, Pass.brk, svc_set_state_HALTED, svc_set_state_READY, svc_set_state_DONE, svc_set_state_RUNNING, svc_set_state_WAITING, svc_set_state_STOPPING, svc_is_inetd_conn, svc_is_changed, svc_is_daemon, svc_mark_clean, svc_restarting, stopping_of, stopping_events, hp]
  · -- READY
    by_cases hen : service_enabled e svc = true
    · by_cases hc : e.cond_agg = cond_state_t.ON
      · by_cases htd : e.in_teardown = true
        · convert TableRow.ready_teardown hs hen hc htd using 1
          simp [service_step_table, hs, Pass.brk, svc_set_state_HALTED, svc_set_state_READY, svc_set_state_DONE, svc_set_state_RUNNING, svc_set_state_WAITING, svc_set_state_STOPPING, svc_is_inetd_conn, svc_is_changed, svc_is_daemon, svc_mark_clean, svc_restarting, stopping_of, stopping_events, hen, hc, htd]
        · by_cases hr : (service_start e svc).2.1 = 0
          · convert TableRow.ready_started hs hen hc (bool_not_true htd) hr using 1
            simp [service_step_table, hs, Pass.brk, svc_set_state_HALTED, svc_set_state_READY, svc_set_state_DONE, svc_set_state_RUNNING, svc_set_state_WAITING, svc_set_state_STOPPING, svc_is_inetd_conn, svc_is_changed, svc_is_daemon, svc_mark_clean, svc_restarting, stopping_of, stopping_events, hen, hc, htd, hr]
          · have hty := (service_start_frame e svc).2.1
            by_cases ht : svc.type = svc_type_t.INETD_CONN
            · convert TableRow.ready_start_failed_conn hs hen hc (bool_not_true htd) hr ht
                using 1
              simp [service_step_table, hs, Pass.brk, svc_set_state_HALTED, svc_set_state_READY, svc_set_state_DONE, svc_set_state_RUNNING, svc_set_state_WAITING, svc_set_state_STOPPING, svc_is_inetd_conn, svc_is_changed, svc_is_daemon, svc_mark_clean, svc_restarting, stopping_of, stopping_events, hen, hc, htd, hr, ht, hty]
            · convert TableRow.ready_start_failed hs hen hc (bool_not_true htd) hr ht using 1
              simp [service_step_table, hs, Pass.brk, svc_set_state_HALTED, svc_set_state_READY, svc_set_state_DONE, svc_set_state_RUNNING, svc_set_state_WAITING, svc_set_state_STOPPING, svc_is_inetd_conn, svc_is_changed, svc_is_daemon, svc_mark_clean, svc_restarting, stopping_of, stopping_events, hen, hc, htd, hr, ht, hty]
      · convert TableRow.ready_cond hs hen hc using 1
        simp [service_step_table, hs, Pass.brk, svc_set_state_HALTED, svc_set_state_READY, svc_set_state_DONE, svc_set_state_RUNNING, svc_set_state_WAITING, svc_set_state_STOPPING, svc_is_inetd_conn, svc_is_changed, svc_is_daemon, svc_mark_clean, svc_restarting, stopping_of, stopping_events, hen, hc]
    · convert TableRow.ready_halted hs (bool_not_true hen) using 1
      simp [service_step_table, hs, Pass.brk, svc_set_state_HALTED, svc_set_state_READY, svc_set_state_DONE, svc_set_state_RUNNING, svc_set_state_WAITING, svc_set_state_STOPPING, svc_is_inetd_conn, svc_is_changed, svc_is_daemon, svc_mark_clean, svc_restarting, stopping_of, stopping_events, hen]
  · -- WAITING
    by_cases hen : service_enabled e svc = true
    · by_cases hp : svc.pid = 0
      · convert TableRow.waiting_lost hs hen hp using 1
        simp [service_step_table, hs, Pass.brk, svc_set_state_HALTED, svc_set_state_READY, svc_set_state_DONE, svc_set_state_RUNNING, svc_set_state_WAITING, svc_set_state_STOPPING, svc_is_inetd_conn, svc_is_changed, svc_is_daemon, svc_mark_clean, svc_restarting, stopping_of, stopping_events, hen, hp]
      · cases hc : e.cond_agg
        · convert TableRow.waiting_off hs hen hp hc using 1
          simp [service_step_table, hs, Pass.brk, svc_set_state_HALTED, svc_set_state_READY, svc_set_state_DONE, svc_set_state_RUNNING, svc_set_state_WAITING, svc_set_state_STOPPING, svc_is_inetd_conn, svc_is_changed, svc_is_daemon, svc_mark_clean, svc_restarting, stopping_of, stopping_events, hen, hp, hc]
        · convert TableRow.waiting_flux hs hen hp hc using 1
          simp [service_step_table, hs, Pass.brk, svc_set_state_HALTED, svc_set_state_READY, svc_set_state_DONE, svc_set_state_RUNNING, svc_set_state_WAITING, svc_set_state_STOPPING, svc_is_inetd_conn, svc_is_changed, svc_is_daemon, svc_mark_clean, svc_restarting, stopping_of, stopping_events, hen, hp, hc]
        · convert TableRow.waiting_on hs hen hp hc using 1
          simp [service_step_table, hs, Pass.brk, svc_set_state_HALTED, svc_set_state_READY, svc_set_state_DONE, svc_set_state_RUNNING, svc_set_state_WAITING, svc_set_state_STOPPING, svc_is_inetd_conn, svc_is_changed, svc_is_daemon, svc_mark_clean, svc_restarting, stopping_of, stopping_events, hen, hp, hc]
    · convert TableRow.waiting_disabled hs (bool_not_true hen) using 1
      simp [service_step_table, hs, Pass.brk, svc_set_state_HALTED, svc_set_state_READY, svc_set_state_DONE, svc_set_state_RUNNING, svc_set_state_WAITING, svc_set_state_STOPPING, svc_is_inetd_conn, svc_is_changed, svc_is_daemon, svc_mark_clean, svc_restarting, stopping_of, stopping_events, hen]
  · -- RUNNING
    by_cases hen : service_enabled e svc = true
    · by_cases hp : svc.pid = 0 ∧ svc.type = svc_type_t.SERVICE
      · convert TableRow.running_lost_daemon hs hen hp.1 hp.2 using 1
        cases htc : svc.timer_cb <;>
          simp [service_step_table, hs, Pass.brk, svc_set_state_HALTED, svc_set_state_READY, svc_set_state_DONE, svc_set_state_RUNNING, svc_set_state_WAITING, svc_set_state_STOPPING, svc_is_inetd_conn, svc_is_changed, svc_is_daemon, svc_mark_clean, svc_restarting, stopping_of, stopping_events, hen, hp.1, hp.2, htc, service_timeout_after]
      · by_cases hp2 : svc.pid = 0 ∧ svc.type = svc_type_t.INETD_CONN
        · convert TableRow.running_lost_conn hs hen hp2.1 hp2.2 using 1
          simp [service_step_table, hs, Pass.brk, svc_set_state_HALTED, svc_set_state_READY, svc_set_state_DONE, svc_set_state_RUNNING, svc_set_state_WAITING, svc_set_state_STOPPING, svc_is_inetd_conn, svc_is_changed, svc_is_daemon, svc_mark_clean, svc_restarting, stopping_of, stopping_events, hen, hp2.1, hp2.2]
        · have hp3 : ¬ (svc.pid = 0 ∧
              (svc.type = svc_type_t.SERVICE ∨ svc.type = svc_type_t.INETD_CONN)) := by
            rintro ⟨h0, h1 | h1⟩
            · exact hp ⟨h0, h1⟩
            · exact hp2 ⟨h0, h1⟩
          cases hc : e.cond_agg
          · convert TableRow.running_off hs hen hp3 hc using 1
            simp [service_step_table, hs, Pass.brk, svc_set_state_HALTED, svc_set_state_READY, svc_set_state_DONE, svc_set_state_RUNNING, svc_set_state_WAITING, svc_set_state_STOPPING, svc_is_inetd_conn, svc_is_changed, svc_is_daemon, svc_mark_clean, svc_restarting, stopping_of, stopping_events, hen, hp, hp2, hc]
          · convert TableRow.running_flux hs hen hp3 hc using 1
            simp [service_step_table, hs, Pass.brk, svc_set_state_HALTED, svc_set_state_READY, svc_set_state_DONE, svc_set_state_RUNNING, svc_set_state_WAITING, svc_set_state_STOPPING, svc_is_inetd_conn, svc_is_changed, svc_is_daemon, svc_mark_clean, svc_restarting, stopping_of, stopping_events, hen, hp, hp2, hc]
          · by_cases hd : svc.dirty = svc_dirty_t.CLEAN
            · convert TableRow.running_clean hs hen hp3 hc hd using 1
              simp [service_step_table, hs, Pass.brk, svc_set_state_HALTED, svc_set_state_READY, svc_set_state_DONE, svc_set_state_RUNNING, svc_set_state_WAITING, svc_set_state_STOPPING, svc_is_inetd_conn, svc_is_changed, svc_is_daemon, svc_mark_clean, svc_restarting, stopping_of, stopping_events, hen, hp, hp2, hc, hd]
            · by_cases hh : svc.sighup = true
              · by_cases htd : e.in_teardown = true
                · convert TableRow.running_dirty_teardown hs hen hp3 hc hd hh htd using 1
                  simp [service_step_table, hs, Pass.brk, svc_set_state_HALTED, svc_set_state_READY, svc_set_state_DONE, svc_set_state_RUNNING, svc_set_state_WAITING, svc_set_state_STOPPING, svc_is_inetd_conn, svc_is_changed, svc_is_daemon, svc_mark_clean, svc_restarting, stopping_of, stopping_events, hen, hp, hp2, hc, hd, hh, htd]
                · convert TableRow.running_sighup hs hen hp3 hc hd hh (bool_not_true htd)
                    using 1
                  simp [service_step_table, hs, Pass.brk, svc_set_state_HALTED, svc_set_state_READY, svc_set_state_DONE, svc_set_state_RUNNING, svc_set_state_WAITING, svc_set_state_STOPPING, svc_is_inetd_conn, svc_is_changed, svc_is_daemon, svc_mark_clean, svc_restarting, stopping_of, stopping_events, hen, hp, hp2, hc, hd, hh, htd]
              · convert TableRow.running_dirty_stop hs hen hp3 hc hd (bool_not_true hh)
                  using 1
                simp [service_step_table, hs, Pass.brk, svc_set_state_HALTED, svc_set_state_READY, svc_set_state_DONE, svc_set_state_RUNNING, svc_set_state_WAITING, svc_set_state_STOPPING, svc_is_inetd_conn, svc_is_changed, svc_is_daemon, svc_mark_clean, svc_restarting, stopping_of, stopping_events, hen, hp, hp2, hc, hd, hh]
    · convert TableRow.running_disabled hs (bool_not_true hen) using 1
      simp [service_step_table, hs, Pass.brk, svc_set_state_HALTED, svc_set_state_READY, svc_set_state_DONE, svc_set_state_RUNNING, svc_set_state_WAITING, svc_set_state_STOPPING, svc_is_inetd_conn, svc_is_changed, svc_is_daemon, svc_mark_clean, svc_restarting, stopping_of, stopping_events, hen]

/-! ## Termination of the loop of service_step -/

theorem rkRUNNING_clean_le (e : Env) (svc : svc_t) (hd : svc.dirty = svc_dirty_t.CLEAN)
    (hc : e.cond_agg = cond_state_t.ON) : rkRUNNING e svc ≤ 2 := by
  rcases svc with ⟨type, state, block, dirty, runlevels, sighup, inetd_cmd, pid, rc, starting,
    tcb, timer⟩
  simp only at hd
  subst hd
  cases type <;>
    simp [rkRUNNING, rkSTOPPING, rkHALTED, rkDONE, hc, svc_is_changed, svc_is_daemon,
      svc_is_inetd_conn] <;>
    split_ifs <;> simp_all <;> omega

theorem rank_RUNNING_clean_lt (e : Env) (svc : svc_t) (hs : svc.state = svc_state_t.RUNNING)
    (hd : svc.dirty = svc_dirty_t.CLEAN) (hc : e.cond_agg = cond_state_t.ON) :
    service_step_rank e svc < 3 := by
  have := rkRUNNING_clean_le e svc hd hc
  simp only [service_step_rank, hs]
  omega

theorem service_restart_frame (e : Env) (svc : svc_t) :
    (service_restart e svc).1.state = svc.state ∧ (service_restart e svc).1.type = svc.type ∧
    (service_restart e svc).1.dirty = svc.dirty ∧
    (service_restart e svc).1.runlevels = svc.runlevels ∧
    (service_restart e svc).1.restart_counter = svc.restart_counter ∧
    (service_restart e svc).1.timer_cb = svc.timer_cb ∧
    (service_restart e svc).1.timer = svc.timer ∧
    (service_restart e svc).1.sighup = svc.sighup ∧
    (service_restart e svc).1.block = svc.block ∧
    (service_restart e svc).1.inetd_cmd = svc.inetd_cmd := by
  simp only [service_restart]
  split_ifs <;> simp [svc_starting]

theorem rank_READY_go (e : Env) (svc : svc_t) (hs : svc.state = svc_state_t.READY)
    (hen : service_enabled e svc = true) (hc : e.cond_agg = cond_state_t.ON)
    (htd : e.in_teardown = false) : service_step_rank e svc = 3 := by
  simp [service_step_rank, hs, rkREADY, hen, hc, htd]

set_option maxHeartbeats 2000000 in
theorem service_step_rank_decr (e : Env) (svc : svc_t)
    (h : service_step_again svc (service_step_table e svc) = true) :
    service_step_rank e (service_step_table e svc).svc < service_step_rank e svc := by
  have hf := service_start_frame e svc
  have hrow := service_step_table_row e svc
  generalize service_step_table e svc = p at hrow h
  cases hrow
  case ready_start_failed hs hen hc htd hr ht =>
    simp [service_step_again, hf.1, hs] at h
  case ready_start_failed_conn hs hen hc htd hr ht =>
    rw [rank_READY_go e svc hs hen hc htd]
    exact rank_RUNNING_clean_lt e _ rfl rfl hc
  case ready_started hs hen hc htd hr =>
    rw [rank_READY_go e svc hs hen hc htd]
    exact rank_RUNNING_clean_lt e _ rfl rfl hc
  case running_sighup hs hen hp hc hd hh htd =>
    simp [service_step_again, (service_restart_frame e svc).1, hs] at h
  case stopping_halted hs hp ht =>
    rcases ht with ht | ht <;>
      simp [service_step_rank, hs, hp, ht, rkSTOPPING, rkHALTED, service_enabled_eq,
        svc_in_runlevel, svc_is_removed, svc_is_blocked]
  case stopping_done hs hp ht =>
    rcases ht with ht | ht | ht <;>
      simp [service_step_rank, hs, hp, ht, rkSTOPPING, rkDONE, rkHALTED, service_enabled_eq,
        svc_in_runlevel, svc_is_removed, svc_is_blocked, svc_is_inetd_conn, svc_is_changed]
  all_goals
    simp_all [service_step_again, service_step_rank, rkHALTED, rkREADY, rkDONE, rkSTOPPING,
      rkRUNNING, rkWAITING, service_enabled_eq, svc_in_runlevel, svc_is_removed,
      svc_is_blocked, svc_is_changed, svc_is_daemon, svc_is_inetd_conn, svc_mark_clean,
      stopping_of]
  all_goals (first | omega | (split_ifs <;> simp_all <;> omega))

theorem rkHALTED_le (e : Env) (svc : svc_t) : rkHALTED e svc ≤ 4 := by
  simp only [rkHALTED]
  split_ifs <;> omega

theorem rkREADY_le (e : Env) (svc : svc_t) : rkREADY e svc ≤ 3 := by
  simp only [rkREADY]
  split_ifs <;> omega

theorem rkDONE_le (e : Env) (svc : svc_t) : rkDONE e svc ≤ 5 := by
  have := rkHALTED_le e svc
  simp only [rkDONE]
  split_ifs <;> omega

theorem rkSTOPPING_le (e : Env) (svc : svc_t) : rkSTOPPING e svc ≤ 6 := by
  have := rkHALTED_le e svc
  have := rkDONE_le e svc
  simp only [rkSTOPPING]
  split_ifs <;> (try split) <;> omega

theorem rkSTOPPING_alive (e : Env) (svc : svc_t) (hp : svc.pid ≠ 0) : rkSTOPPING e svc = 0 := by
  simp [rkSTOPPING, hp]

theorem rkRUNNING_le (e : Env) (svc : svc_t) : rkRUNNING e svc ≤ 7 := by
  have := rkSTOPPING_le e svc
  have := rkSTOPPING_le e (svc_mark_clean svc)
  have := rkREADY_le e svc
  simp only [rkRUNNING]
  split_ifs <;> (try split) <;> omega

theorem rkRUNNING_alive (e : Env) (svc : svc_t) (hp : svc.pid ≠ 0) : rkRUNNING e svc ≤ 1 := by
  have h1 := rkSTOPPING_alive e svc hp
  have h2 := rkSTOPPING_alive e (svc_mark_clean svc) hp
  simp only [rkRUNNING, h1, h2, hp, false_and, if_false]
  split_ifs <;> (try split) <;> omega

theorem rkWAITING_le (e : Env) (svc : svc_t) : rkWAITING e svc ≤ 7 := by
  have := rkSTOPPING_le e svc
  have := rkREADY_le e svc
  simp only [rkWAITING]
  by_cases h2 : svc.pid = 0
  · simp only [h2, if_true]
    split_ifs <;> omega
  · have := rkRUNNING_alive e svc h2
    simp only [h2, if_false]
    split_ifs <;> (try split) <;> omega

theorem service_step_rank_le (e : Env) (svc : svc_t) : service_step_rank e svc ≤ 7 := by
  have := rkHALTED_le e svc
  have := rkREADY_le e svc
  have := rkDONE_le e svc
  have := rkSTOPPING_le e svc
  have := rkRUNNING_le e svc
  have := rkWAITING_le e svc
  simp only [service_step_rank]
  split <;> omega

/-- Two runs of the loop agree as soon as both have more passes than the rank. -/
theorem service_step_loop_enough (e : Env) :
    ∀ (n m : Nat) (svc : svc_t), service_step_rank e svc < n → service_step_rank e svc < m →
      service_step_loop n e svc = service_step_loop m e svc := by
  intro n
  induction n with
  | zero => intro m svc h; omega
  | succ n ih =>
    intro m svc hn hm
    cases m with
    | zero => omega
    | succ m =>
      simp only [service_step_loop]
      by_cases ha : service_step_again svc (service_step_table e svc) = true
      · have hd := service_step_rank_decr e svc ha
        simp only [ha, if_true]
        rw [ih m _ (by omega) (by omega)]
      · simp [ha]

/-- The bound on the passes of service_step is never reached: more passes
change nothing. -/
theorem service_step_loop_stable (e : Env) (svc : svc_t) (k : Nat) :
    service_step_loop (service_step_fuel + k) e svc = service_step e svc := by
  have h := service_step_rank_le e svc
  exact service_step_loop_enough e _ _ svc (by simp only [service_step_fuel]; omega)
    (by simp only [service_step_fuel]; omega)

/-- Induction along the passes of service_step: `P` holds for the record at
every pass, `G` for every event, and `Q` for the record that is returned. -/
theorem service_step_loop_induct (e : Env) (P Q : svc_t → Prop) (G : Event → Prop)
    (hpass : ∀ svc, P svc →
      (∀ ev ∈ (service_step_table e svc).ev, G ev) ∧
      (service_step_again svc (service_step_table e svc) = true →
        P (service_step_table e svc).svc) ∧
      (service_step_again svc (service_step_table e svc) = false →
        Q (service_step_table e svc).svc)) :
    ∀ (n : Nat) (svc : svc_t), service_step_rank e svc < n → P svc →
      Q (service_step_loop n e svc).1 ∧ ∀ ev ∈ (service_step_loop n e svc).2, G ev := by
  intro n
  induction n with
  | zero => intro svc h; omega
  | succ n ih =>
    intro svc hn hP
    obtain ⟨hG, hA, hS⟩ := hpass svc hP
    simp only [service_step_loop]
    by_cases ha : service_step_again svc (service_step_table e svc) = true
    · have hd := service_step_rank_decr e svc ha
      obtain ⟨h1, h2⟩ := ih _ (by omega) (hA ha)
      simp only [ha, if_true]
      refine ⟨h1, ?_⟩
      intro ev hev
      rcases List.mem_append.mp hev with h | h
      · exact hG ev h
      · exact h2 ev h
    · have ha' : service_step_again svc (service_step_table e svc) = false := by
        simpa using ha
      simp only [ha', Bool.false_eq_true, if_false]
      exact ⟨hS ha', hG⟩

/-- The induction principle for a whole call of service_step. -/
theorem service_step_induct (e : Env) (P Q : svc_t → Prop) (G : Event → Prop)
    (hpass : ∀ svc, P svc →
      (∀ ev ∈ (service_step_table e svc).ev, G ev) ∧
      (service_step_again svc (service_step_table e svc) = true →
        P (service_step_table e svc).svc) ∧
      (service_step_again svc (service_step_table e svc) = false →
        Q (service_step_table e svc).svc))
    (svc : svc_t) (hP : P svc) :
    Q (service_step e svc).1 ∧ ∀ ev ∈ (service_step e svc).2, G ev := by
  have h := service_step_rank_le e svc
  exact service_step_loop_induct e P Q G hpass _ svc
    (by simp only [service_step_fuel]; omega) hP

/-! ## Events of the helpers -/

theorem service_stop_events (e : Env) (svc : svc_t) :
    ∀ ev ∈ (service_stop e svc).2,
      ev = Event.inetd_stop ∨ (ev = Event.kill svc.pid Signal.SIGTERM ∧ 1 < svc.pid) := by
  intro ev
  simp only [service_stop]
  split_ifs with h1 h2 h3
  · simp only [List.mem_singleton]
    exact Or.inl
  · simp
  · simp
  · simp only [List.mem_singleton]
    intro h
    exact Or.inr ⟨h, by omega⟩

theorem service_restart_events (e : Env) (svc : svc_t) :
    ∀ ev ∈ (service_restart e svc).2.2,
      ev = Event.kill svc.pid Signal.SIGHUP ∧ 1 < svc.pid := by
  intro ev
  simp only [service_restart]
  split_ifs with h1 h2 h3
  · simp
  · simp
  · simp
  · simp only [List.mem_singleton]
    intro h
    exact ⟨h, by omega⟩

theorem stopping_events_mem (svc : svc_t) :
    ∀ ev ∈ stopping_events svc,
      ev = Event.timer_stop ∨ ev = Event.timer_init 3000 timer_cb_t.service_kill := by
  intro ev
  simp only [stopping_events]
  split_ifs
  · simp
  · simp only [List.nil_append, List.mem_singleton]
    exact Or.inr

theorem service_stop_no_start (e : Env) (svc : svc_t) :
    ∀ ev ∈ (service_stop e svc).2, ev.starts = false := by
  intro ev hev
  rcases service_stop_events e svc ev hev with h | ⟨h, _⟩ <;> subst h <;> rfl

theorem service_restart_no_start (e : Env) (svc : svc_t) :
    ∀ ev ∈ (service_restart e svc).2.2, ev.starts = false := by
  intro ev hev
  rcases service_restart_events e svc ev hev with ⟨h, _⟩
  subst h
  rfl

theorem stopping_events_no_start (svc : svc_t) :
    ∀ ev ∈ stopping_events svc, ev.starts = false := by
  intro ev hev
  rcases stopping_events_mem svc ev hev with h | h <;> subst h <;> rfl

/-- A pass that cannot start the service (disabled, condition not ON, or
teardown) makes no start attempt, keeps the pid, and cannot start it at the
next pass either. -/
theorem service_step_table_no_start (e : Env) (svc : svc_t)
    (h : service_enabled e svc = false ∨ e.cond_agg ≠ cond_state_t.ON ∨ e.in_teardown = true) :
    (∀ ev ∈ (service_step_table e svc).ev, ev.starts = false) ∧
    (service_enabled e (service_step_table e svc).svc = false ∨
      e.cond_agg ≠ cond_state_t.ON ∨ e.in_teardown = true) ∧
    (service_step_table e svc).svc.pid = svc.pid := by
  have hrow := service_step_table_row e svc
  generalize service_step_table e svc = p at hrow
  have hstop := service_stop_no_start e svc
  have hse := stopping_events_no_start svc
  cases hrow <;>
    simp_all [service_enabled_eq, svc_in_runlevel, svc_is_removed, svc_is_blocked, stopping_of]
  all_goals aesop

/-! ## C1: when service_start is invoked -/

/-- A pass enters service_start only from READY, with the service enabled,
its condition aggregate ON and no teardown in progress. -/
theorem service_step_table_start (e : Env) (svc : svc_t)
    (h : Event.service_start ∈ (service_step_table e svc).ev) :
    svc.state = svc_state_t.READY ∧ service_enabled e svc = true ∧
      e.cond_agg = cond_state_t.ON ∧ e.in_teardown = false := by
  have hrow := service_step_table_row e svc
  generalize service_step_table e svc = p at hrow h
  have hstop := service_stop_no_start e svc Event.service_start
  have hse := stopping_events_no_start svc Event.service_start
  have hre := service_restart_no_start e svc Event.service_start
  have hst : Event.service_start.starts = true := rfl
  cases hrow <;> simp_all

/-- C1: service_start is entered by a pass of service_step only while the
record is READY, enabled, with condition aggregate ON and outside teardown;
a record that is disabled, whose aggregate is not ON, or that is stepped
during teardown is not started by the step (no entry into service_start, no
fork) and keeps its pid. -/
theorem service_start_only_when_ready (e : Env) (svc : svc_t) :
    (Event.service_start ∈ (service_step_table e svc).ev →
      svc.state = svc_state_t.READY ∧ service_enabled e svc = true ∧
        e.cond_agg = cond_state_t.ON ∧ e.in_teardown = false) ∧
    ((service_enabled e svc = false ∨ e.cond_agg ≠ cond_state_t.ON ∨ e.in_teardown = true) →
      Event.service_start ∉ (service_step e svc).2 ∧
        (∀ p, Event.fork p ∉ (service_step e svc).2) ∧
        (service_step e svc).1.pid = svc.pid) := by
  refine ⟨service_step_table_start e svc, fun h => ?_⟩
  have key := service_step_induct e
    (fun s => (service_enabled e s = false ∨ e.cond_agg ≠ cond_state_t.ON ∨
      e.in_teardown = true) ∧ s.pid = svc.pid)
    (fun s => s.pid = svc.pid) (fun ev => ev.starts = false)
    (fun s hs => by
      obtain ⟨h1, h2, h3⟩ := service_step_table_no_start e s hs.1
      exact ⟨h1, fun _ => ⟨h2, h3.trans hs.2⟩, fun _ => h3.trans hs.2⟩)
    svc ⟨h, rfl⟩
  refine ⟨fun hm => ?_, fun p hm => ?_, key.1⟩
  · have := key.2 _ hm
    simp [Event.starts] at this
  · have := key.2 _ hm
    simp [Event.starts] at this

/-- C1 at a concrete record: a disabled READY service stepped with the
condition ON is halted without a start and keeps pid 0. -/
theorem service_start_only_when_ready_witness :
    Event.service_start ∉
      (service_step ⟨2, false, cond_state_t.ON, true, true, false, 0, 100, 0, 0, 0, false⟩
        ⟨svc_type_t.SERVICE, svc_state_t.READY, svc_block_t.MANUAL, svc_dirty_t.CLEAN, 60,
          false, false, 0, 0, false, none, none⟩).2 :=
  ((service_start_only_when_ready _ _).2 (Or.inl (by decide))).1

/-! ## C2: pid and state -/

theorem service_start_pid_cases (e : Env) (svc : svc_t) (h1 : svc.type ≠ svc_type_t.RUN)
    (h2 : svc.type ≠ svc_type_t.INETD) :
    ((service_start e svc).2.1 ≠ 0 ∧ (service_start e svc).1.pid = svc.pid) ∨
    ((service_start e svc).2.1 = 0 ∧ (service_start e svc).1.pid = e.fork_pid) := by
  simp only [service_start]
  split_ifs <;> simp_all [svc_missing, svc_starting, svc_is_inetd, print_result]

theorem service_restart_pid (e : Env) (svc : svc_t) :
    (service_restart e svc).1.pid = svc.pid ∨
      (svc.pid ≤ 1 ∧ (service_restart e svc).1.pid = 0) := by
  simp only [service_restart]
  split_ifs <;> simp_all [svc_starting]

/-- C2, counterexample: a RUN record keeps the invariant before the step,
but is left in RUNNING with pid 0 by it. -/
theorem pid_state_inv_counterexample :
    pid_state_inv { svc_fresh with type := svc_type_t.RUN } ∧
      ¬ pid_state_inv (service_step env_up { svc_fresh with type := svc_type_t.RUN }).1 := by
  decide

theorem pid_state_pass (e : Env) (svc : svc_t) (hf : 1 < e.fork_pid)
    (h : pid_state_pass_inv svc) :
    pid_state_pass_inv (service_step_table e svc).svc ∧
    (service_step_again svc (service_step_table e svc) = false →
      pid_state_inv (service_step_table e svc).svc) := by
  obtain ⟨⟨ht1, ht2⟩, hp, hI⟩ := h
  have hst := service_start_pid_cases e svc ht1 ht2
  have hfr := service_start_frame e svc
  have hrf := service_restart_frame e svc
  have hrp := service_restart_pid e svc
  have hrow := service_step_table_row e svc
  generalize service_step_table e svc = p at hrow
  cases hrow <;>
    simp_all [pid_state_pass_inv, pid_state_inv, svc_keeps_pid, service_step_again, stopping_of]
  all_goals
    first
    | omega
    | (rcases hI with h | ⟨h1, h2⟩ <;> rcases hrp with h3 | ⟨h3, h4⟩ <;>
        (try simp_all) <;> omega)

/-- C2, amended: for the kinds that keep the pid of their child (all but
RUN and INETD), with a pid that is 0 or above 1 and a fork that returns a
pid above 1, service_step preserves pid > 0 <-> state in RUNNING, WAITING,
STOPPING, whether or not the start attempt inside succeeds. -/
theorem pid_state_inv_preserved (e : Env) (svc : svc_t) (hk : svc_keeps_pid svc)
    (hp : svc.pid = 0 ∨ 1 < svc.pid) (hf : 1 < e.fork_pid) (hI : pid_state_inv svc) :
    pid_state_inv (service_step e svc).1 :=
  (service_step_induct e pid_state_pass_inv pid_state_inv (fun _ => True)
    (fun s hs =>
      ⟨fun _ _ => trivial, fun _ => (pid_state_pass e s hf hs).1, (pid_state_pass e s hf hs).2⟩)
    svc ⟨hk, hp, Or.inl hI⟩).1

/-- C2, amended, at a concrete record: a fresh SERVICE is started and ends
RUNNING with the pid of its child. -/
theorem pid_state_inv_preserved_witness :
    pid_state_inv (service_step env_up svc_fresh).1 :=
  pid_state_inv_preserved env_up svc_fresh (by decide) (by decide) (by decide) (by decide)

/-! ## C3: the respawn budget -/

theorem start_succeeds_result (e : Env) (svc : svc_t) (h : start_succeeds e svc) :
    (service_start e svc).2.1 = 0 := by
  obtain ⟨h1, h2, h3, h4⟩ := h
  simp only [service_start, is_norespawn, print_result, svc_is_inetd]
  split_ifs with c1 c2 c3 c4
  · rcases h1 with h1 | h1 <;> simp [h1] at c1
  · simp [h2] at c2
  · simp only [Bool.and_eq_true, decide_eq_true_eq] at c3
    exact h3 c3.1 c3.2
  · have := h4 c4
    show ((e.run_status : Int) % 256) = 0
    omega
  · rfl

/-- C3, counterexample: a RUN record whose command fails is started again
by each of eleven calls of service_step; the counter reaches 11 and the
record is READY and not blocked. -/
theorem respawn_budget_counterexample :
    (service_step_times env_failing 11 { svc_fresh with type := svc_type_t.RUN }).restart_counter
        = 11 ∧
      (service_step_times env_failing 11 { svc_fresh with type := svc_type_t.RUN }).state
        = svc_state_t.READY ∧
      (service_step_times env_failing 11 { svc_fresh with type := svc_type_t.RUN }).block
        = svc_block_t.NONE := by
  decide

/-- A pass over a daemon whose starts succeed leaves the counter alone,
unless it finds a stopped (WAITING) process collected. -/
theorem counter_pass (e : Env) (svc : svc_t) (ht : svc.type = svc_type_t.SERVICE)
    (hok : start_succeeds e svc)
    (hw : ¬ (svc.state = svc_state_t.WAITING ∧ svc.pid = 0)) :
    (service_step_table e svc).svc.type = svc_type_t.SERVICE ∧
    start_succeeds e (service_step_table e svc).svc ∧
    ¬ ((service_step_table e svc).svc.state = svc_state_t.WAITING ∧
        (service_step_table e svc).svc.pid = 0) ∧
    (service_step_table e svc).svc.restart_counter = svc.restart_counter := by
  have hres := start_succeeds_result e svc hok
  have hfr := service_start_frame e svc
  have hrf := service_restart_frame e svc
  have hrow := service_step_table_row e svc
  generalize service_step_table e svc = p at hrow
  cases hrow <;> simp_all [start_succeeds, stopping_of]

/-- A pass over a blocked record starts nothing and keeps the block reason. -/
theorem blocked_pass (e : Env) (svc : svc_t) (hb : svc.block ≠ svc_block_t.NONE) :
    (∀ ev ∈ (service_step_table e svc).ev, ev.starts = false) ∧
    (service_step_table e svc).svc.block = svc.block := by
  have hen := service_enabled_blocked e svc hb
  refine ⟨(service_step_table_no_start e svc (Or.inl hen)).1, ?_⟩
  have hrow := service_step_table_row e svc
  generalize service_step_table e svc = p at hrow
  cases hrow <;> simp_all [stopping_of]

theorem service_step_blocked (e : Env) (svc : svc_t) (hb : svc.block ≠ svc_block_t.NONE) :
    (service_step e svc).1.block = svc.block ∧ ∀ ev ∈ (service_step e svc).2, ev.starts = false :=
  service_step_induct e (fun s => s.block = svc.block) (fun s => s.block = svc.block)
    (fun ev => ev.starts = false)
    (fun s hs =>
      have h := blocked_pass e s (by rw [hs]; exact hb)
      ⟨h.1, fun _ => h.2.trans hs, fun _ => h.2.trans hs⟩)
    svc rfl

/-- Stepping a halted record that is not enabled changes nothing. -/
theorem service_step_halted_disabled (e : Env) (svc : svc_t)
    (hs : svc.state = svc_state_t.HALTED) (hen : service_enabled e svc = false) :
    service_step e svc = (svc, []) := by
  simp [service_step, service_step_fuel, service_step_loop, service_step_table, hs, hen,
    Pass.brk, service_step_again]

theorem service_step_counter (e : Env) (svc : svc_t) (ht : svc.type = svc_type_t.SERVICE)
    (hok : start_succeeds e svc)
    (hw : ¬ (svc.state = svc_state_t.WAITING ∧ svc.pid = 0)) :
    (service_step e svc).1.restart_counter = svc.restart_counter :=
  (service_step_induct e
    (fun s => (s.type = svc_type_t.SERVICE ∧ start_succeeds e s ∧
      ¬ (s.state = svc_state_t.WAITING ∧ s.pid = 0)) ∧ s.restart_counter = svc.restart_counter)
    (fun s => s.restart_counter = svc.restart_counter) (fun _ => True)
    (fun s hs =>
      have h := counter_pass e s hs.1.1 hs.1.2.1 hs.1.2.2
      ⟨fun _ _ => trivial, fun _ => ⟨⟨h.1, h.2.1, h.2.2.1⟩, h.2.2.2.trans hs.2⟩,
        fun _ => h.2.2.2.trans hs.2⟩)
    svc ⟨⟨ht, hok, hw⟩, rfl⟩).1

theorem service_timeout_cancel_frame (e : Env) (svc : svc_t) :
    (service_timeout_cancel e svc).1 =
      { svc with timer_cb := none, timer := if svc.timer_cb.isSome then none else svc.timer } ∧
    (service_timeout_cancel e svc).2.2 =
      (if svc.timer_cb.isSome then [Event.timer_stop] else []) := by
  obtain ⟨type, state, block, dirty, runlevels, sighup, inetd_cmd, pid, rc, starting, tcb,
    timer⟩ := svc
  cases tcb <;> simp [service_timeout_cancel]

theorem service_timeout_after_frame (e : Env) (svc : svc_t) (t : Nat) (cb : timer_cb_t) :
    (service_timeout_after e svc t cb).1 =
      { svc with timer_cb := if svc.timer_cb.isSome then svc.timer_cb else some cb,
                 timer := if svc.timer_cb.isSome then svc.timer else some t } ∧
    (service_timeout_after e svc t cb).2.2 =
      (if svc.timer_cb.isSome then [] else [Event.timer_init t cb]) := by
  obtain ⟨type, state, block, dirty, runlevels, sighup, inetd_cmd, pid, rc, starting, tcb,
    timer⟩ := svc
  cases tcb <;> simp [service_timeout_after]

/-- The three branches of service_retry, with the timer calls resolved. -/
theorem service_retry_eq (e : Env) (svc : svc_t) :
    service_retry e svc =
      if svc.state ≠ svc_state_t.HALTED ∨ svc.block ≠ svc_block_t.RESTARTING then
        ({ (service_timeout_cancel e svc).1 with restart_counter := 0 },
          (service_timeout_cancel e svc).2.2)
      else if svc.restart_counter ≥ (RESPAWN_MAX : Int) then
        ((service_step e
            { svc_crashing (service_timeout_cancel e svc).1 with restart_counter := 0 }).1,
          (service_timeout_cancel e svc).2.2 ++
            (service_step e
              { svc_crashing (service_timeout_cancel e svc).1 with restart_counter := 0 }).2)
      else
        ((service_timeout_after e
            (service_step e (svc_unblock { (service_timeout_cancel e svc).1 with
              restart_counter := svc.restart_counter + 1 })).1
            (if (service_step e (svc_unblock { (service_timeout_cancel e svc).1 with
                  restart_counter := svc.restart_counter + 1 })).1.restart_counter
                ≤ ((RESPAWN_MAX / 2 : Nat) : Int) then 2000 else 5000)
            timer_cb_t.service_retry).1,
          (service_timeout_cancel e svc).2.2 ++
            (service_step e (svc_unblock { (service_timeout_cancel e svc).1 with
              restart_counter := svc.restart_counter + 1 })).2 ++
            (service_timeout_after e
              (service_step e (svc_unblock { (service_timeout_cancel e svc).1 with
                restart_counter := svc.restart_counter + 1 })).1
              (if (service_step e (svc_unblock { (service_timeout_cancel e svc).1 with
                    restart_counter := svc.restart_counter + 1 })).1.restart_counter
                  ≤ ((RESPAWN_MAX / 2 : Nat) : Int) then 2000 else 5000)
              timer_cb_t.service_retry).2.2) := by
  have hc := (service_timeout_cancel_frame e svc).1
  simp only [service_retry, hc]

/-- The retry that finds the budget used up: the record is blocked as
CRASHING with the counter reset, nothing is started and no timer is armed. -/
theorem service_retry_budget_used (e : Env) (svc : svc_t)
    (hs : svc.state = svc_state_t.HALTED) (hb : svc.block = svc_block_t.RESTARTING)
    (hc : (RESPAWN_MAX : Int) ≤ svc.restart_counter) :
    service_retry e svc =
      ({ svc with block := svc_block_t.CRASHING, restart_counter := 0, timer_cb := none,
                  timer := if svc.timer_cb.isSome then none else svc.timer },
        if svc.timer_cb.isSome then [Event.timer_stop] else []) := by
  have hf := service_timeout_cancel_frame e svc
  rw [service_retry_eq, if_neg (by simp [hs, hb]), if_pos hc,
    service_step_halted_disabled e _ (by simp [svc_crashing, hf.1, hs])
      (service_enabled_blocked e _ (by simp [svc_crashing]))]
  simp [hf.1, hf.2, svc_crashing]

/-- The retry of a record that is not HALTED and RESTARTING only clears the
timer and the counter. -/
theorem service_retry_not_crashing (e : Env) (svc : svc_t)
    (h : svc.state ≠ svc_state_t.HALTED ∨ svc.block ≠ svc_block_t.RESTARTING) :
    service_retry e svc =
      ({ svc with restart_counter := 0, timer_cb := none,
                  timer := if svc.timer_cb.isSome then none else svc.timer },
        if svc.timer_cb.isSome then [Event.timer_stop] else []) := by
  have hf := service_timeout_cancel_frame e svc
  rw [service_retry_eq, if_pos h]
  simp [hf.1, hf.2]

/-- C3, amended: the budget of ten is kept along the retry path of a daemon
whose starts do not fail.  service_step leaves restart_counter unchanged
(unless it finds a WAITING process collected), service_retry never leaves it
above 10, the retry that finds the budget used up leaves the record HALTED
and CRASHING with the counter at 0 and starts nothing, and a CRASHING record
is started neither by service_step nor by service_retry. -/
theorem respawn_budget (e : Env) (svc : svc_t) :
    (svc.type = svc_type_t.SERVICE → start_succeeds e svc →
      ¬ (svc.state = svc_state_t.WAITING ∧ svc.pid = 0) →
      (service_step e svc).1.restart_counter = svc.restart_counter) ∧
    (svc.type = svc_type_t.SERVICE → start_succeeds e svc →
      svc.restart_counter ≤ (RESPAWN_MAX : Int) →
      (service_retry e svc).1.restart_counter ≤ (RESPAWN_MAX : Int)) ∧
    (svc.state = svc_state_t.HALTED → svc.block = svc_block_t.RESTARTING →
      (RESPAWN_MAX : Int) ≤ svc.restart_counter →
      (service_retry e svc).1.state = svc_state_t.HALTED ∧
        (service_retry e svc).1.block = svc_block_t.CRASHING ∧
        (service_retry e svc).1.restart_counter = 0 ∧
        ∀ ev ∈ (service_retry e svc).2, ev.starts = false) ∧
    (svc.block = svc_block_t.CRASHING →
      ((service_step e svc).1.block = svc_block_t.CRASHING ∧
        ∀ ev ∈ (service_step e svc).2, ev.starts = false) ∧
      ((service_retry e svc).1.block = svc_block_t.CRASHING ∧
        ∀ ev ∈ (service_retry e svc).2, ev.starts = false)) := by
  refine ⟨service_step_counter e svc, ?_, ?_, ?_⟩
  · intro ht hok hle
    have hf := service_timeout_cancel_frame e svc
    by_cases h1 : svc.state ≠ svc_state_t.HALTED ∨ svc.block ≠ svc_block_t.RESTARTING
    · rw [service_retry_not_crashing e svc h1]
      simp [RESPAWN_MAX]
    · have hs : svc.state = svc_state_t.HALTED := by
        by_contra hn
        exact h1 (Or.inl hn)
      have hb : svc.block = svc_block_t.RESTARTING := by
        by_contra hn
        exact h1 (Or.inr hn)
      by_cases h2 : (RESPAWN_MAX : Int) ≤ svc.restart_counter
      · rw [service_retry_budget_used e svc hs hb h2]
        simp [RESPAWN_MAX]
      · rw [service_retry_eq, if_neg h1, if_neg (by simpa using h2)]
        rw [(service_timeout_after_frame e _ _ _).1]
        have hc := service_step_counter e
          (svc_unblock { (service_timeout_cancel e svc).1 with
            restart_counter := svc.restart_counter + 1 })
          (by simp [svc_unblock, hf.1, ht])
          (by simpa [svc_unblock, hf.1, start_succeeds, ht] using hok)
          (by simp [svc_unblock, hf.1, hs])
        simp only [hc]
        simp only [svc_unblock]
        omega
  · intro hs hb hc
    rw [service_retry_budget_used e svc hs hb hc]
    refine ⟨hs, rfl, rfl, ?_⟩
    intro ev hev
    split_ifs at hev <;> simp_all [Event.starts]
  · intro hb
    refine ⟨?_, ?_⟩
    · have h := service_step_blocked e svc (by simp [hb])
      exact ⟨h.1.trans hb, h.2⟩
    · rw [service_retry_not_crashing e svc (Or.inr (by simp [hb]))]
      refine ⟨hb, ?_⟩
      intro ev hev
      split_ifs at hev <;> simp_all [Event.starts]

/-- C3, amended, at a concrete record: the retry that finds the counter at
10 blocks the service as CRASHING. -/
theorem respawn_budget_witness :
    (service_retry env_up
      { svc_fresh with block := svc_block_t.RESTARTING, restart_counter := 10 }).1.block
      = svc_block_t.CRASHING :=
  ((respawn_budget env_up _).2.2.1 rfl rfl (by decide)).2.1

/-! ## service_step, pass by pass -/

theorem service_step_loop_succ (n : Nat) (e : Env) (svc : svc_t) :
    service_step_loop (n + 1) e svc =
      if service_step_again svc (service_step_table e svc) then
        ((service_step_loop n e (service_step_table e svc).svc).1,
          (service_step_table e svc).ev ++
            (service_step_loop n e (service_step_table e svc).svc).2)
      else ((service_step_table e svc).svc, (service_step_table e svc).ev) := rfl

/-- service_step after a pass that changed the state: the step goes on from
the new record. -/
theorem service_step_again_eq (e : Env) (svc : svc_t)
    (h : service_step_again svc (service_step_table e svc) = true) :
    service_step e svc =
      ((service_step e (service_step_table e svc).svc).1,
        (service_step_table e svc).ev ++ (service_step e (service_step_table e svc).svc).2) := by
  have hd := service_step_rank_decr e svc h
  have hl := service_step_rank_le e svc
  have he := service_step_loop_enough e 7 8 (service_step_table e svc).svc (by omega) (by omega)
  show service_step_loop (7 + 1) e svc = _
  rw [service_step_loop_succ, if_pos h, he]
  rfl

/-- service_step after a pass that kept the state (or returned): the step
ends with the result of that pass. -/
theorem service_step_stop_eq (e : Env) (svc : svc_t)
    (h : service_step_again svc (service_step_table e svc) = false) :
    service_step e svc = ((service_step_table e svc).svc, (service_step_table e svc).ev) := by
  show service_step_loop (7 + 1) e svc = _
  rw [service_step_loop_succ, if_neg (by simp [h])]

theorem service_start_ok (e : Env) (svc : svc_t) (h1 : svc.type ≠ svc_type_t.RUN)
    (h2 : svc.type ≠ svc_type_t.INETD) (hok : start_succeeds e svc) :
    service_start e svc =
      ({ svc with starting := true, pid := e.fork_pid }, 0,
        [Event.service_start, Event.fork e.fork_pid, Event.hook_svc_start e.fork_pid]) := by
  obtain ⟨h3, h4, _, _⟩ := hok
  simp only [service_start, is_norespawn, print_result, svc_is_inetd, svc_starting]
  split_ifs with c1 c2 c3
  · rcases h3 with h3 | h3 <;> simp [h3] at c1
  · simp [h4] at c2
  · simp [h2] at c3
  · rfl

/-- A collected daemon that is still enabled is blocked as RESTARTING and
halted; a retry is scheduled unless a timer is pending. -/
theorem service_monitor_daemon (e : Env) (svc : svc_t) (ht : svc.type = svc_type_t.SERVICE)
    (hs : svc.state = svc_state_t.RUNNING) (hen : service_enabled e svc = true) :
    service_monitor e svc =
      ({ svc with pid := 0, block := svc_block_t.RESTARTING, state := svc_state_t.HALTED,
                  timer_cb := if svc.timer_cb.isSome then svc.timer_cb
                              else some timer_cb_t.service_retry,
                  timer := if svc.timer_cb.isSome then svc.timer else some 1 },
        if svc.timer_cb.isSome then [] else [Event.timer_init 1 timer_cb_t.service_retry]) := by
  obtain ⟨type, state, block, dirty, runlevels, sighup, inetd_cmd, pid, rc, starting, tcb,
    timer⟩ := svc
  simp only at ht hs
  subst ht hs
  have hen0 : service_enabled e ⟨svc_type_t.SERVICE, svc_state_t.RUNNING, block, dirty,
      runlevels, sighup, inetd_cmd, 0, rc, starting, tcb, timer⟩ = true :=
    (service_enabled_congr e _ _ rfl rfl rfl).trans hen
  have htab : service_step_table e ⟨svc_type_t.SERVICE, svc_state_t.RUNNING, block, dirty,
      runlevels, sighup, inetd_cmd, 0, rc, starting, tcb, timer⟩ =
      ⟨⟨svc_type_t.SERVICE, svc_state_t.HALTED, svc_block_t.RESTARTING, dirty,
        runlevels, sighup, inetd_cmd, 0, rc, starting,
        if tcb.isSome then tcb else some timer_cb_t.service_retry,
        if tcb.isSome then timer else some 1⟩,
        if tcb.isSome then [] else [Event.timer_init 1 timer_cb_t.service_retry],
        false⟩ := by
    cases tcb <;>
      simp [service_step_table, hen0, svc_is_daemon, svc_restarting, svc_set_state_HALTED,
        Pass.brk, service_timeout_after]
  have hag : service_step_again ⟨svc_type_t.SERVICE, svc_state_t.RUNNING, block, dirty,
      runlevels, sighup, inetd_cmd, 0, rc, starting, tcb, timer⟩
      (service_step_table e ⟨svc_type_t.SERVICE, svc_state_t.RUNNING, block, dirty,
      runlevels, sighup, inetd_cmd, 0, rc, starting, tcb, timer⟩) = true := by
    simp [htab, service_step_again]
  rw [service_monitor, service_step_again_eq e _ hag, htab]
  simp only
  rw [service_step_halted_disabled e _ rfl (service_enabled_blocked e _ (by simp))]
  simp

/-- A halted daemon that is enabled, with its condition ON, outside
teardown and with a start that succeeds, is started by one service_step and
left RUNNING with the pid of the child. -/
theorem service_step_start (e : Env) (svc : svc_t) (ht : svc.type = svc_type_t.SERVICE)
    (hs : svc.state = svc_state_t.HALTED) (hen : service_enabled e svc = true)
    (hc : e.cond_agg = cond_state_t.ON) (htd : e.in_teardown = false)
    (hok : start_succeeds e svc) (hfp : e.fork_pid ≠ 0) :
    service_step e svc =
      ({ svc with state := svc_state_t.RUNNING, dirty := svc_dirty_t.CLEAN, starting := true,
                  pid := e.fork_pid },
        [Event.service_start, Event.fork e.fork_pid, Event.hook_svc_start e.fork_pid]) := by
  obtain ⟨type, state, block, dirty, runlevels, sighup, inetd_cmd, pid, rc, starting, tcb,
    timer⟩ := svc
  simp only at ht hs
  subst ht hs
  -- first pass: HALTED to READY
  have h1 : service_step_table e ⟨svc_type_t.SERVICE, svc_state_t.HALTED, block, dirty,
      runlevels, sighup, inetd_cmd, pid, rc, starting, tcb, timer⟩ =
      ⟨⟨svc_type_t.SERVICE, svc_state_t.READY, block, dirty, runlevels, sighup, inetd_cmd, pid,
        rc, starting, tcb, timer⟩, [], false⟩ := by
    simp [service_step_table, hen, svc_set_state_READY, Pass.brk]
  -- second pass: READY to RUNNING through service_start
  have hen2 : service_enabled e ⟨svc_type_t.SERVICE, svc_state_t.READY, block, dirty,
      runlevels, sighup, inetd_cmd, pid, rc, starting, tcb, timer⟩ = true :=
    (service_enabled_congr e _ _ rfl rfl rfl).trans hen
  have hst := service_start_ok e ⟨svc_type_t.SERVICE, svc_state_t.READY, block, dirty,
      runlevels, sighup, inetd_cmd, pid, rc, starting, tcb, timer⟩ (by simp) (by simp) hok
  have h2 : service_step_table e ⟨svc_type_t.SERVICE, svc_state_t.READY, block, dirty,
      runlevels, sighup, inetd_cmd, pid, rc, starting, tcb, timer⟩ =
      ⟨⟨svc_type_t.SERVICE, svc_state_t.RUNNING, block, svc_dirty_t.CLEAN, runlevels, sighup,
        inetd_cmd, e.fork_pid, rc, true, tcb, timer⟩,
        [Event.service_start, Event.fork e.fork_pid, Event.hook_svc_start e.fork_pid],
        false⟩ := by
    simp [service_step_table, hen2, hc, htd, hst, svc_set_state_RUNNING, Pass.brk,
      svc_mark_clean, svc_is_inetd_conn]
  -- third pass: RUNNING, nothing to do
  have hen3 : service_enabled e ⟨svc_type_t.SERVICE, svc_state_t.RUNNING, block,
      svc_dirty_t.CLEAN, runlevels, sighup, inetd_cmd, e.fork_pid, rc, true, tcb, timer⟩
      = true :=
    service_enabled_clean e _ ⟨svc_type_t.SERVICE, svc_state_t.HALTED, block, dirty,
      runlevels, sighup, inetd_cmd, pid, rc, starting, tcb, timer⟩ rfl rfl rfl hen
  have h3 : service_step_table e ⟨svc_type_t.SERVICE, svc_state_t.RUNNING, block,
      svc_dirty_t.CLEAN, runlevels, sighup, inetd_cmd, e.fork_pid, rc, true, tcb, timer⟩ =
      ⟨⟨svc_type_t.SERVICE, svc_state_t.RUNNING, block, svc_dirty_t.CLEAN, runlevels, sighup,
        inetd_cmd, e.fork_pid, rc, true, tcb, timer⟩, [], false⟩ := by
    simp [service_step_table, hen3, hc, hfp, svc_is_changed, Pass.brk]
  rw [service_step_again_eq e _ (by simp [h1, service_step_again]), h1]
  simp only
  rw [service_step_again_eq e _ (by simp [h2, service_step_again]), h2]
  simp only
  rw [service_step_stop_eq e _ (by simp [h3, service_step_again]), h3]
  simp

/-- A retry within the budget: the counter is incremented, the service is
unblocked and started, and the next retry is scheduled. -/
theorem service_retry_attempt (e : Env) (svc : svc_t) (ht : svc.type = svc_type_t.SERVICE)
    (hs : svc.state = svc_state_t.HALTED) (hb : svc.block = svc_block_t.RESTARTING)
    (hlt : svc.restart_counter < (RESPAWN_MAX : Int))
    (hen : service_enabled e (svc_unblock svc) = true)
    (hc : e.cond_agg = cond_state_t.ON) (htd : e.in_teardown = false)
    (hok : start_succeeds e svc) (hfp : e.fork_pid ≠ 0) :
    service_retry e svc =
      ({ svc with state := svc_state_t.RUNNING, block := svc_block_t.NONE,
                  dirty := svc_dirty_t.CLEAN, starting := true, pid := e.fork_pid,
                  restart_counter := svc.restart_counter + 1,
                  timer_cb := some timer_cb_t.service_retry,
                  timer := some (if svc.restart_counter + 1 ≤ ((RESPAWN_MAX / 2 : Nat) : Int)
                    then 2000 else 5000) },
        (if svc.timer_cb.isSome then [Event.timer_stop] else []) ++
          [Event.service_start, Event.fork e.fork_pid, Event.hook_svc_start e.fork_pid] ++
          [Event.timer_init (if svc.restart_counter + 1 ≤ ((RESPAWN_MAX / 2 : Nat) : Int)
            then 2000 else 5000) timer_cb_t.service_retry]) := by
  have hf := service_timeout_cancel_frame e svc
  have hstep := service_step_start e
    (svc_unblock { (service_timeout_cancel e svc).1 with
      restart_counter := svc.restart_counter + 1 })
    (by simp [svc_unblock, hf.1, ht]) (by simp [svc_unblock, hf.1, hs])
    ((service_enabled_congr e _ _ (by simp [svc_unblock, hf.1]) (by simp [svc_unblock, hf.1])
      (by simp [svc_unblock, hf.1])).trans hen)
    hc htd (by simpa [svc_unblock, hf.1, start_succeeds, ht] using hok) hfp
  rw [service_retry_eq, if_neg (by simp [hs, hb]), if_neg (by simpa using hlt), hstep]
  simp only [(service_timeout_after_frame e _ _ _).1, (service_timeout_after_frame e _ _ _).2,
    hf.1, hf.2, svc_unblock]
  simp

/-- One round of the crash loop within the budget: exactly one start, and
the service is RUNNING again with the counter one higher. -/
theorem crash_cycle_respawn (e : Env) (k : Nat) (svc : svc_t)
    (h : crash_loop_running e k svc) (hk : k < RESPAWN_MAX)
    (hc : e.cond_agg = cond_state_t.ON) (htd : e.in_teardown = false) (hfp : e.fork_pid ≠ 0) :
    crash_loop_running e (k + 1) (crash_cycle e svc).1 ∧
      (crash_cycle e svc).2.count Event.service_start = 1 := by
  obtain ⟨ht, hs, hen, hok, hcnt⟩ := h
  have hm := service_monitor_daemon e svc ht hs hen
  have hen' := hen
  simp only [service_enabled_eq, svc_in_runlevel, svc_is_removed, svc_is_blocked,
    Bool.and_eq_true, Bool.not_eq_true', decide_eq_true_eq, decide_eq_false_iff_not,
    ne_eq, not_not] at hen'
  simp only [crash_cycle, hm]
  rw [service_retry_attempt e _ (by simp [ht]) rfl rfl
    (by simp only [hcnt, RESPAWN_MAX] at *; omega)
    (by simp [svc_unblock, service_enabled_eq, svc_in_runlevel, svc_is_removed,
      svc_is_blocked, hen'])
    hc htd (by simpa [start_succeeds, ht] using hok) hfp]
  refine ⟨⟨by simp [ht], rfl, ?_, by simpa [start_succeeds, ht] using hok, by simp [hcnt]⟩, ?_⟩
  · simp [service_enabled_eq, svc_in_runlevel, svc_is_removed, svc_is_blocked, hen']
  · split_ifs <;> simp [List.count_cons]

/-- The round that finds the budget used up: the service is given up
without a start. -/
theorem crash_cycle_give_up (e : Env) (k : Nat) (svc : svc_t) (hk : RESPAWN_MAX ≤ k)
    (h : crash_loop_running e k svc) :
    crash_loop_given_up (crash_cycle e svc).1 ∧
      ∀ ev ∈ (crash_cycle e svc).2, ev.starts = false := by
  obtain ⟨ht, hs, hen, hok, hcnt⟩ := h
  have hm := service_monitor_daemon e svc ht hs hen
  simp only [crash_cycle, hm]
  rw [service_retry_budget_used e _ rfl rfl (by simp only [hcnt]; exact_mod_cast hk)]
  refine ⟨⟨rfl, rfl, rfl, rfl⟩, ?_⟩
  intro ev hev
  simp only [List.mem_append] at hev
  rcases hev with hev | hev <;> split_ifs at hev <;> simp_all [Event.starts]

/-- A service that was given up stays so through further rounds. -/
theorem crash_cycle_given_up (e : Env) (svc : svc_t) (h : crash_loop_given_up svc) :
    crash_loop_given_up (crash_cycle e svc).1 ∧
      ∀ ev ∈ (crash_cycle e svc).2, ev.starts = false := by
  obtain ⟨hs, hb, ht, hc⟩ := h
  have hm : service_monitor e svc = ({ svc with pid := 0 }, []) :=
    service_step_halted_disabled e _ hs (service_enabled_blocked e _ (by simp [hb]))
  simp only [crash_cycle, hm]
  rw [service_retry_not_crashing e _ (Or.inr (by simp [hb]))]
  refine ⟨⟨hs, hb, rfl, rfl⟩, ?_⟩
  intro ev hev
  simp [ht] at hev

theorem crash_loop_succ (e : Env) (n : Nat) (svc : svc_t) :
    crash_loop e (n + 1) svc =
      ((crash_loop e n (crash_cycle e svc).1).1,
        (crash_cycle e svc).2 ++ (crash_loop e n (crash_cycle e svc).1).2) := rfl

theorem count_eq_zero_of_no_start (l : List Event) (h : ∀ ev ∈ l, ev.starts = false) :
    l.count Event.service_start = 0 := by
  rw [List.count_eq_zero]
  intro hm
  have := h _ hm
  simp [Event.starts] at this

theorem crash_loop_given_up_stays (e : Env) :
    ∀ (n : Nat) (svc : svc_t), crash_loop_given_up svc →
      crash_loop_given_up (crash_loop e n svc).1 ∧
        (crash_loop e n svc).2.count Event.service_start = 0 := by
  intro n
  induction n with
  | zero => intro svc h; exact ⟨h, rfl⟩
  | succ n ih =>
    intro svc h
    obtain ⟨h1, h2⟩ := crash_cycle_given_up e svc h
    obtain ⟨h3, h4⟩ := ih _ h1
    rw [crash_loop_succ]
    exact ⟨h3, by simp [List.count_append, h4, count_eq_zero_of_no_start _ h2]⟩

/-- From a record that has been respawned `k` times, any number of further
rounds makes at most `RESPAWN_MAX - k` starts. -/
theorem crash_loop_starts (e : Env) (hc : e.cond_agg = cond_state_t.ON)
    (htd : e.in_teardown = false) (hfp : e.fork_pid ≠ 0) :
    ∀ (n k : Nat) (svc : svc_t), crash_loop_running e k svc →
      (crash_loop e n svc).2.count Event.service_start + min k RESPAWN_MAX ≤ RESPAWN_MAX := by
  intro n
  induction n with
  | zero => intro k svc _; simp [crash_loop]
  | succ n ih =>
    intro k svc h
    rw [crash_loop_succ]
    by_cases hlt : k < RESPAWN_MAX
    · obtain ⟨h1, h2⟩ := crash_cycle_respawn e k svc h hlt hc htd hfp
      have := ih (k + 1) _ h1
      simp only [List.count_append, h2]
      omega
    · obtain ⟨h1, h2⟩ := crash_cycle_give_up e k svc (by omega) h
      have := (crash_loop_given_up_stays e n _ h1).2
      simp only [List.count_append, this, count_eq_zero_of_no_start _ h2]
      omega

/-- After `n` rounds within the budget the counter stands at `k + n`. -/
theorem crash_loop_reaches (e : Env) (hc : e.cond_agg = cond_state_t.ON)
    (htd : e.in_teardown = false) (hfp : e.fork_pid ≠ 0) :
    ∀ (n k : Nat) (svc : svc_t), k + n ≤ RESPAWN_MAX → crash_loop_running e k svc →
      crash_loop_running e (k + n) (crash_loop e n svc).1 := by
  intro n
  induction n with
  | zero => intro k svc _ h; exact h
  | succ n ih =>
    intro k svc hk h
    rw [crash_loop_succ]
    have h1 := (crash_cycle_respawn e k svc h (by omega) hc htd hfp).1
    have := ih (k + 1) _ (by omega) h1
    simpa [Nat.add_assoc, Nat.add_comm 1 n] using this

/-! ## C4: the crash loop -/

/-- C4: an enabled daemon whose every start succeeds and whose process is
collected before each retry timer fires is started at most 10 times by the
retry callbacks, however long the loop goes on; the loop does bring the
counter to 10; and the callback that finds the counter at 10 blocks the
service as CRASHING, resets the counter, leaves it HALTED with no timer
armed and starts nothing, after which no service_step, in any environment,
starts it while it is blocked. -/
theorem crash_loop_bounded (e : Env) (k : Nat) (svc : svc_t)
    (hc : e.cond_agg = cond_state_t.ON) (htd : e.in_teardown = false) (hfp : e.fork_pid ≠ 0)
    (h : crash_loop_running e k svc) :
    (∀ n, (crash_loop e n svc).2.count Event.service_start ≤ RESPAWN_MAX) ∧
    (k ≤ RESPAWN_MAX →
      crash_loop_running e RESPAWN_MAX (crash_loop e (RESPAWN_MAX - k) svc).1) ∧
    (∀ s, crash_loop_running e RESPAWN_MAX s →
      crash_loop_given_up (crash_cycle e s).1 ∧
      (∀ ev ∈ (crash_cycle e s).2, ev.starts = false) ∧
      ∀ e' : Env, ∀ ev ∈ (service_step e' (crash_cycle e s).1).2, ev.starts = false) := by
  refine ⟨fun n => ?_, fun hk => ?_, fun s hs => ?_⟩
  · have := crash_loop_starts e hc htd hfp n k svc h
    omega
  · have := crash_loop_reaches e hc htd hfp (RESPAWN_MAX - k) k svc (by omega) h
    rwa [Nat.add_sub_cancel' hk] at this
  · have hgive := crash_cycle_give_up e RESPAWN_MAX s (Nat.le_refl _) hs
    exact ⟨hgive.1, hgive.2,
      fun e' => (service_step_blocked e' _ (by rw [hgive.1.2.1]; simp)).2⟩

/-- C4 at a concrete record: the sample service, respawned in the sample
environment, is started at most ten times in twenty rounds. -/
theorem crash_loop_bounded_witness :
    (crash_loop env_up 20 svc_running).2.count Event.service_start ≤ RESPAWN_MAX :=
  (crash_loop_bounded env_up 0 svc_running rfl rfl (by decide) (by decide)).1 20

/-! ## C5: the retry counter and the retry delay -/

theorem service_start_result_iff (e : Env) (svc : svc_t) :
    (service_start e svc).2.1 = 0 ↔ start_succeeds e svc := by
  refine ⟨fun h => ?_, start_succeeds_result e svc⟩
  simp only [service_start, is_norespawn, print_result, svc_is_inetd] at h
  simp only [start_succeeds]
  split_ifs at h with c1 c2 c3 c4
  · simp at h
  · simp at h
  · simp only [Bool.and_eq_true, decide_eq_true_eq] at c3
    simp only [Bool.and_eq_true, Bool.not_eq_true', not_and, Bool.not_eq_false] at c1
    simp only [Bool.not_eq_true] at c2
    refine ⟨?_, c2, fun _ _ => h, fun hr => ?_⟩
    · cases hf : e.fexist_cmd
      · exact Or.inr (c1 hf)
      · exact Or.inl rfl
    · rw [c3.2] at hr
      cases hr
  · simp only [Bool.and_eq_true, Bool.not_eq_true', not_and, Bool.not_eq_false] at c1
    simp only [Bool.not_eq_true] at c2
    simp only [Bool.and_eq_true, decide_eq_true_eq, not_and] at c3
    simp only at h
    refine ⟨?_, c2, fun hi ht => absurd ht (c3 hi), fun _ => by omega⟩
    cases hf : e.fexist_cmd
    · exact Or.inr (c1 hf)
    · exact Or.inl rfl
  · simp only [Bool.and_eq_true, Bool.not_eq_true', not_and, Bool.not_eq_false] at c1
    simp only [Bool.not_eq_true] at c2
    simp only [Bool.and_eq_true, decide_eq_true_eq, not_and] at c3
    refine ⟨?_, c2, fun hi ht => absurd ht (c3 hi), fun hr => absurd hr (by simpa [svc_starting] using c4)⟩
    cases hf : e.fexist_cmd
    · exact Or.inr (c1 hf)
    · exact Or.inl rfl

theorem service_start_block (e : Env) (svc : svc_t) (h : (service_start e svc).2.1 = 0) :
    (service_start e svc).1.block = svc.block := by
  simp only [service_start, is_norespawn, print_result, svc_is_inetd] at h ⊢
  split_ifs at h ⊢ <;> simp_all [svc_starting]

theorem start_succeeds_congr (e : Env) (a b : svc_t) (h1 : a.type = b.type)
    (h2 : a.inetd_cmd = b.inetd_cmd) : start_succeeds e a ↔ start_succeeds e b := by
  simp [start_succeeds, h1, h2]

theorem service_start_no_arm (e : Env) (svc : svc_t) :
    ∀ ev ∈ (service_start e svc).2.2, ev.arms = false := by
  intro ev hev
  simp only [service_start] at hev
  split_ifs at hev <;> simp at hev <;> aesop

/-- A pass of the service_step that service_retry runs on the unblocked
record `u`. -/
theorem retry_pass (e : Env) (u svc : svc_t) (hu : u.type ≠ svc_type_t.INETD_CONN)
    (hfp : e.fork_pid ≠ 0) (h : retry_pass_inv e u svc) :
    (∀ ev ∈ (service_step_table e svc).ev, ev.arms = false) ∧
    (service_step_again svc (service_step_table e svc) = true →
      retry_pass_inv e u (service_step_table e svc).svc) ∧
    (service_step_again svc (service_step_table e svc) = false →
      (service_step_table e svc).svc.timer_cb = none ∧
      (service_step_table e svc).svc.restart_counter =
        u.restart_counter +
          (if service_enabled e u = true ∧ e.cond_agg = cond_state_t.ON ∧
              e.in_teardown = false ∧ ¬ start_succeeds e u then 1 else 0)) := by
  obtain ⟨ht, hic, htc, hcnt, hst⟩ := h
  have hfr := service_start_frame e svc
  have hsa := service_start_no_arm e svc
  have hiff := service_start_result_iff e svc
  have hcg := start_succeeds_congr e svc u ht hic
  have hbl := service_start_block e svc
  have hpc := service_start_pid_cases e svc
  have hrow := service_step_table_row e svc
  generalize service_step_table e svc = p at hrow
  cases hrow <;>
    simp_all [retry_pass_inv, service_step_again, stopping_of]
  all_goals
    first
    | exact (service_enabled_congr e _ svc rfl rfl rfl).trans (by assumption)
    | exact service_enabled_clean e _ svc rfl rfl rfl (by assumption)

theorem service_step_no_arm_inv (e : Env) (u : svc_t) (hu : u.type ≠ svc_type_t.INETD_CONN)
    (hfp : e.fork_pid ≠ 0) (hs : u.state = svc_state_t.HALTED) (htc : u.timer_cb = none) :
    ((service_step e u).1.timer_cb = none ∧
      (service_step e u).1.restart_counter =
        u.restart_counter +
          (if service_enabled e u = true ∧ e.cond_agg = cond_state_t.ON ∧
              e.in_teardown = false ∧ ¬ start_succeeds e u then 1 else 0)) ∧
    ∀ ev ∈ (service_step e u).2, ev.arms = false :=
  service_step_induct e (retry_pass_inv e u)
    (fun s => s.timer_cb = none ∧
      s.restart_counter =
        u.restart_counter +
          (if service_enabled e u = true ∧ e.cond_agg = cond_state_t.ON ∧
              e.in_teardown = false ∧ ¬ start_succeeds e u then 1 else 0))
    (fun ev => ev.arms = false)
    (fun s h => retry_pass e u s hu hfp h) u ⟨rfl, rfl, htc, rfl, Or.inl ⟨hs, rfl⟩⟩

/-- C5, counterexample: with respawning suspended the start attempt inside
the retry fails; one retry takes the counter from 4 to 6 and arms the timer
with 5000 ms although it is only the fifth attempt. -/
theorem service_retry_counterexample :
    (service_retry env_norespawn
      { svc_fresh with block := svc_block_t.RESTARTING, restart_counter := 4 }).1.restart_counter
        = 6 ∧
    (service_retry env_norespawn
      { svc_fresh with block := svc_block_t.RESTARTING, restart_counter := 4 }).1.timer
        = some 5000 := by
  decide

/-- C5, amended: a retry within the budget (HALTED, RESTARTING, counter
below 10; any kind but INETD_CONN, fork returning a child pid) adds one to
restart_counter, and one more when the start attempt made by its
service_step fails; it then arms exactly one timer, with callback
service_retry and a delay of 2000 ms when the counter is then at most 5
(10/2) and of 5000 ms when it is above. -/
theorem service_retry_counts (e : Env) (svc : svc_t) (hs : svc.state = svc_state_t.HALTED)
    (hb : svc.block = svc_block_t.RESTARTING)
    (hlt : svc.restart_counter < (RESPAWN_MAX : Int))
    (ht : svc.type ≠ svc_type_t.INETD_CONN) (hfp : e.fork_pid ≠ 0) :
    (service_retry e svc).1.restart_counter =
      svc.restart_counter + (if retry_start_fails e svc then 2 else 1) ∧
    (service_retry e svc).1.timer_cb = some timer_cb_t.service_retry ∧
    (service_retry e svc).1.timer =
      some (if (service_retry e svc).1.restart_counter ≤ ((RESPAWN_MAX / 2 : Nat) : Int)
        then 2000 else 5000) ∧
    (service_retry e svc).2.filter Event.arms =
      [Event.timer_init
        (if (service_retry e svc).1.restart_counter ≤ ((RESPAWN_MAX / 2 : Nat) : Int)
          then 2000 else 5000) timer_cb_t.service_retry] := by
  have hf := service_timeout_cancel_frame e svc
  have hfil : ∀ l : List Event, (∀ ev ∈ l, ev.arms = false) → l.filter Event.arms = [] := by
    intro l hl
    rw [List.filter_eq_nil_iff]
    intro ev hev
    simp [hl ev hev]
  rw [service_retry_eq, if_neg (by simp [hs, hb]), if_neg (by simpa using hlt)]
  have hu := service_step_no_arm_inv e
    (svc_unblock { (service_timeout_cancel e svc).1 with
      restart_counter := svc.restart_counter + 1 })
    (by simpa [svc_unblock, hf.1] using ht) hfp (by simp [svc_unblock, hf.1, hs])
    (by simp [svc_unblock, hf.1])
  have hen : service_enabled e (svc_unblock { (service_timeout_cancel e svc).1 with
      restart_counter := svc.restart_counter + 1 }) = service_enabled e (svc_unblock svc) :=
    service_enabled_congr e _ _ (by simp [svc_unblock, hf.1]) (by simp [svc_unblock, hf.1])
      (by simp [svc_unblock])
  have hok : start_succeeds e (svc_unblock { (service_timeout_cancel e svc).1 with
      restart_counter := svc.restart_counter + 1 }) ↔ start_succeeds e svc :=
    start_succeeds_congr e _ _ (by simp [svc_unblock, hf.1]) (by simp [svc_unblock, hf.1])
  have hcu : (svc_unblock { (service_timeout_cancel e svc).1 with
      restart_counter := svc.restart_counter + 1 }).restart_counter
        = svc.restart_counter + 1 := rfl
  obtain ⟨⟨h1, h2⟩, h3⟩ := hu
  simp only [hen, hok, hcu] at h2
  generalize service_step e (svc_unblock { (service_timeout_cancel e svc).1 with
      restart_counter := svc.restart_counter + 1 }) = r at h1 h2 h3 ⊢
  have hta := service_timeout_after_frame e r.1
    (if r.1.restart_counter ≤ ((RESPAWN_MAX / 2 : Nat) : Int) then 2000 else 5000)
    timer_cb_t.service_retry
  simp only [hta.1, hta.2, h1, hf.2, List.filter_append, hfil _ h3, retry_start_fails]
  refine ⟨?_, ?_, ?_, ?_⟩
  · rw [h2]
    split_ifs <;> omega
  · simp
  · simp
  · split_ifs <;> simp_all [Event.arms]

/-- C5, amended, at a concrete record: the fifth retry of the sample
service, whose start succeeds, leaves the counter at 5 and arms 2000 ms. -/
theorem service_retry_counts_witness :
    (service_retry env_up
      { svc_fresh with block := svc_block_t.RESTARTING, restart_counter := 4 }).1.restart_counter
        = 4 + (if retry_start_fails env_up
            { svc_fresh with block := svc_block_t.RESTARTING, restart_counter := 4 }
          then 2 else 1) :=
  (service_retry_counts env_up _ rfl rfl (by decide) (by decide) (by decide)).1

/-! ## C6: kill escalation -/

theorem service_start_events (e : Env) (svc : svc_t) :
    ∀ ev ∈ (service_start e svc).2.2,
      ev = Event.service_start ∨ ev = Event.inetd_start ∨ ev = Event.fork e.fork_pid ∨
        ev = Event.hook_svc_start e.fork_pid ∨ ev = Event.complete e.fork_pid := by
  intro ev hev
  simp only [service_start] at hev
  split_ifs at hev <;> simp at hev <;> aesop

theorem service_stop_no_timers (e : Env) (svc : svc_t) :
    (service_stop e svc).2.filter Event.timers = [] := by
  simp only [service_stop]
  split_ifs <;> rfl

theorem service_stop_no_sigkill (e : Env) (svc : svc_t) :
    ∀ ev ∈ (service_stop e svc).2, ev.sigkill = false := by
  intro ev hev
  rcases service_stop_events e svc ev hev with h | ⟨h, _⟩ <;> subst h <;> rfl

theorem service_restart_no_sigkill (e : Env) (svc : svc_t) :
    ∀ ev ∈ (service_restart e svc).2.2, ev.sigkill = false := by
  intro ev hev
  rcases service_restart_events e svc ev hev with ⟨h, _⟩
  subst h
  rfl

theorem stopping_events_no_sigkill (svc : svc_t) :
    ∀ ev ∈ stopping_events svc, ev.sigkill = false := by
  intro ev hev
  rcases stopping_events_mem svc ev hev with h | h <;> subst h <;> rfl

theorem service_start_no_sigkill (e : Env) (svc : svc_t) :
    ∀ ev ∈ (service_start e svc).2.2, ev.sigkill = false := by
  intro ev hev
  rcases service_start_events e svc ev hev with h | h | h | h | h <;> subst h <;> rfl

/-- No pass of service_step sends SIGKILL. -/
theorem service_step_table_no_sigkill (e : Env) (svc : svc_t) :
    ∀ ev ∈ (service_step_table e svc).ev, ev.sigkill = false := by
  have hrow := service_step_table_row e svc
  generalize service_step_table e svc = p at hrow
  have h1 := service_stop_no_sigkill e svc
  have h2 := service_restart_no_sigkill e svc
  have h3 := stopping_events_no_sigkill svc
  have h4 := service_start_no_sigkill e svc
  have h5 : (Event.kill svc.pid Signal.SIGSTOP).sigkill = false := rfl
  have h6 : (Event.kill svc.pid Signal.SIGCONT).sigkill = false := rfl
  have h7 : Event.timer_stop.sigkill = false := rfl
  have h8 : (Event.timer_init 1 timer_cb_t.service_retry).sigkill = false := rfl
  have h9 : Event.parent_step.sigkill = false := rfl
  have h10 : Event.unregister.sigkill = false := rfl
  cases hrow <;> simp only [List.mem_append, List.mem_singleton, List.not_mem_nil] <;>
    (try split_ifs) <;> aesop

theorem stopping_events_timers (svc : svc_t) :
    (stopping_events svc).filter Event.timers = stopping_events svc := by
  simp only [stopping_events]
  split_ifs <;> rfl

/-- Every pass that takes a record into STOPPING cancels the pending timer,
if any, and arms the 3000 ms kill timer, and nothing else arms that timer. -/
theorem service_step_table_stopping (e : Env) (svc : svc_t) :
    (svc.state ≠ svc_state_t.STOPPING →
      (service_step_table e svc).svc.state = svc_state_t.STOPPING →
      (service_step_table e svc).svc.timer_cb = some timer_cb_t.service_kill ∧
      (service_step_table e svc).svc.timer = some 3000 ∧
      (service_step_table e svc).ev.filter Event.timers = stopping_events svc) ∧
    (svc.timer_cb ≠ some timer_cb_t.service_kill →
      (service_step_table e svc).svc.timer_cb = some timer_cb_t.service_kill →
      svc.state ≠ svc_state_t.STOPPING ∧
        (service_step_table e svc).svc.state = svc_state_t.STOPPING) := by
  have hrow := service_step_table_row e svc
  generalize service_step_table e svc = p at hrow
  have hfr := service_start_frame e svc
  have hrf := service_restart_frame e svc
  cases hrow <;>
    simp_all [stopping_of, List.filter_append, service_stop_no_timers, stopping_events_timers]
  all_goals
    first
    | rfl
    | (split_ifs <;> simp_all)
    | simp [List.filter_cons, Event.timers, List.filter_append, service_stop_no_timers,
        stopping_events_timers]

/-- The kill callback: one SIGKILL to the pid of the record, and no timer
left. -/
theorem service_kill_eq (e : Env) (svc : svc_t) :
    service_kill e svc =
      ({ svc with timer_cb := none, timer := if svc.timer_cb.isSome then none else svc.timer },
        (if svc.timer_cb.isSome then [Event.timer_stop] else []) ++
          [Event.kill svc.pid Signal.SIGKILL]) := by
  have hf := service_timeout_cancel_frame e svc
  simp [service_kill, hf.1, hf.2]

/-- C6: every entry into STOPPING cancels the pending timer and arms exactly
one 3000 ms timer with callback service_kill, and only an entry into
STOPPING registers that callback; when it fires, service_kill sends exactly
one SIGKILL, to the pid of the record, and leaves no timer armed; when the
pid is collected first, the pass that sees pid 0 in STOPPING stops the
timer, and no SIGKILL is sent by any service_step. -/
theorem kill_escalation (e : Env) (svc : svc_t) :
    ((svc_set_state e svc svc_state_t.STOPPING).1.timer_cb = some timer_cb_t.service_kill ∧
      (svc_set_state e svc svc_state_t.STOPPING).1.timer = some 3000 ∧
      (svc_set_state e svc svc_state_t.STOPPING).2 =
        (if svc.timer_cb.isSome then [Event.timer_stop] else []) ++
          [Event.timer_init 3000 timer_cb_t.service_kill]) ∧
    (svc.state ≠ svc_state_t.STOPPING →
      (service_step_table e svc).svc.state = svc_state_t.STOPPING →
      (service_step_table e svc).svc.timer_cb = some timer_cb_t.service_kill ∧
      (service_step_table e svc).svc.timer = some 3000 ∧
      (service_step_table e svc).ev.filter Event.timers =
        (if svc.timer_cb.isSome then [Event.timer_stop] else []) ++
          [Event.timer_init 3000 timer_cb_t.service_kill]) ∧
    (svc.timer_cb ≠ some timer_cb_t.service_kill →
      (service_step_table e svc).svc.timer_cb = some timer_cb_t.service_kill →
      svc.state ≠ svc_state_t.STOPPING ∧
        (service_step_table e svc).svc.state = svc_state_t.STOPPING) ∧
    ((service_kill e svc).2.filter Event.sigkill = [Event.kill svc.pid Signal.SIGKILL] ∧
      (service_kill e svc).1.timer_cb = none ∧
      (svc.timer_cb = some timer_cb_t.service_kill → (service_kill e svc).1.timer = none) ∧
      (service_kill e svc).1.state = svc.state ∧ (service_kill e svc).1.pid = svc.pid) ∧
    (svc.state = svc_state_t.STOPPING → svc.pid = 0 →
      svc.timer_cb = some timer_cb_t.service_kill →
      (service_step_table e svc).svc.timer_cb = none ∧
      (service_step_table e svc).svc.timer = none ∧
      (service_step_table e svc).ev = [Event.timer_stop]) ∧
    (∀ ev ∈ (service_step e svc).2, ev.sigkill = false) := by
  have hst := service_step_table_stopping e svc
  refine ⟨?_, hst.1, hst.2, ?_, ?_, ?_⟩
  · rw [svc_set_state_STOPPING]
    exact ⟨rfl, rfl, rfl⟩
  · rw [service_kill_eq]
    refine ⟨?_, rfl, fun h => by simp [h], rfl, rfl⟩
    split_ifs <;> simp [List.filter_cons, Event.sigkill]
  · intro hs hp ht
    have hrow := service_step_table_row e svc
    generalize service_step_table e svc = p at hrow
    cases hrow <;> simp_all
  · exact (service_step_induct e (fun _ => True) (fun _ => True) (fun ev => ev.sigkill = false)
      (fun s _ => ⟨service_step_table_no_sigkill e s, fun _ => trivial, fun _ => trivial⟩)
      svc trivial).2

/-! ## C7: idempotence -/

/-- C7, counterexample: with respawning suspended every step makes a start
attempt that fails; a second service_step raises restart_counter again. -/
theorem service_step_idempotent_counterexample :
    (service_step env_norespawn svc_fresh).1.restart_counter = 1 ∧
    (service_step env_norespawn (service_step env_norespawn svc_fresh).1).1.restart_counter
      = 2 := by
  decide

/-- A clean, enabled RUNNING record with its condition ON is left alone. -/
theorem service_step_table_running_clean (e : Env) (q : svc_t)
    (hs : q.state = svc_state_t.RUNNING) (hen : service_enabled e q = true)
    (hpd : ¬ (q.pid = 0 ∧ q.type = svc_type_t.SERVICE))
    (hpc : ¬ (q.pid = 0 ∧ q.type = svc_type_t.INETD_CONN))
    (hc : e.cond_agg = cond_state_t.ON) (hd : q.dirty = svc_dirty_t.CLEAN) :
    service_step_table e q = ⟨q, [], false⟩ := by
  simp [service_step_table, hs, hen, hc, hd, svc_is_changed, Pass.brk, svc_is_daemon,
    svc_is_inetd_conn, hpd, hpc]

theorem idempotence_pass (e : Env) (svc : svc_t) (h : idempotence_pass_inv e svc) :
    idempotence_pass_inv e (service_step_table e svc).svc ∧
    (service_step_again svc (service_step_table e svc) = false →
      service_step_settled e (service_step_table e svc).svc) := by
  obtain ⟨hok, hpid⟩ := h
  have hres := start_succeeds_result e svc hok
  have hfr := service_start_frame e svc
  have hrf := service_restart_frame e svc
  have hrp := service_restart_pid e svc
  have hrow := service_step_table_row e svc
  generalize hp : service_step_table e svc = p at hrow
  cases hrow
  case stopping_sysv hs hp0 ht =>
    refine ⟨⟨by simpa [start_succeeds] using hok, Or.inl hp0⟩, fun _ => ?_⟩
    simp [service_step_settled, service_step_again, service_step_table, hs, hp0, ht,
      service_timeout_cancel, Pass.brk]
  case running_sighup hs hen hp0 hc hd hh htd =>
    refine ⟨⟨by simpa [start_succeeds, hrf.2.1, hrf.2.2.2.2.2.2.2.2.2] using hok,
      Or.inr (Or.inr rfl)⟩, fun _ => ?_⟩
    have hen' : service_enabled e
        { (service_restart e svc).1 with dirty := svc_dirty_t.CLEAN } = true :=
      service_enabled_clean e _ svc hrf.2.2.2.1 rfl hrf.2.2.2.2.2.2.2.2.1 hen
    have hpid' : ¬ ((service_restart e svc).1.pid = 0 ∧
        (svc.type = svc_type_t.SERVICE ∨ svc.type = svc_type_t.INETD_CONN)) := by
      rintro ⟨h0, hty⟩
      rcases hrp with h1 | ⟨h1, _⟩
      · exact hp0 ⟨h1 ▸ h0, hty⟩
      · rcases hpid with h2 | h2 | h2
        · exact hp0 ⟨h2, hty⟩
        · omega
        · exact hd h2
    have hpd : ¬ ((service_restart e svc).1.pid = 0 ∧ svc.type = svc_type_t.SERVICE) :=
      fun h => hpid' ⟨h.1, Or.inl h.2⟩
    have hpc : ¬ ((service_restart e svc).1.pid = 0 ∧ svc.type = svc_type_t.INETD_CONN) :=
      fun h => hpid' ⟨h.1, Or.inr h.2⟩
    have htab := service_step_table_running_clean e
      { (service_restart e svc).1 with dirty := svc_dirty_t.CLEAN }
      (hrf.1.trans hs) hen' (by simpa [hrf.2.1] using hpd) (by simpa [hrf.2.1] using hpc) hc rfl
    simp [service_step_settled, service_step_again, htab]
  all_goals
    simp_all [idempotence_pass_inv, service_step_settled, service_step_again, start_succeeds,
      stopping_of]

/-- The record returned by a service_step that makes no failing start
attempt, from a record with a valid pid, is settled. -/
theorem service_step_settled_result (e : Env) (svc : svc_t) (hok : start_succeeds e svc)
    (hp : svc.pid = 0 ∨ 1 < svc.pid) : service_step_settled e (service_step e svc).1 :=
  (service_step_induct e (idempotence_pass_inv e) (service_step_settled e) (fun _ => True)
    (fun s hs =>
      ⟨fun _ _ => trivial, fun _ => (idempotence_pass e s hs).1, (idempotence_pass e s hs).2⟩)
    svc ⟨hok, hp.elim Or.inl (fun h => Or.inr (Or.inl h))⟩).1

/-- C7, amended: for a record whose pid is 0 or above 1, in an environment
held fixed in which no start attempt on the record fails, a second
service_step leaves the state and restart_counter as the first one left
them. -/
theorem service_step_idempotent (e : Env) (svc : svc_t) (hok : start_succeeds e svc)
    (hp : svc.pid = 0 ∨ 1 < svc.pid) :
    (service_step e (service_step e svc).1).1.state = (service_step e svc).1.state ∧
    (service_step e (service_step e svc).1).1.restart_counter =
      (service_step e svc).1.restart_counter := by
  obtain ⟨h1, h2, h3⟩ := service_step_settled_result e svc hok hp
  rw [service_step_stop_eq e _ h1]
  exact ⟨h2, h3⟩

/-- C7, amended, at a concrete record: stepping the fresh service twice in
the sample environment leaves it as one step does. -/
theorem service_step_idempotent_witness :
    (service_step env_up (service_step env_up svc_fresh).1).1.state
      = (service_step env_up svc_fresh).1.state :=
  (service_step_idempotent env_up svc_fresh (by decide) (by decide)).1

/-! ## sm_step: passes, termination -/

theorem sm_step_loop_succ {R : Type} (x : Ext R) (cfg : sm_cfg) (n : Nat) (w : World R) :
    sm_step_loop x cfg (n + 1) w =
      if (sm_step_table x cfg w).sm.state ≠ w.sm.state then
        sm_step_loop x cfg n (sm_step_table x cfg w)
      else sm_step_table x cfg w := rfl

/-- Every pass that changes the state lowers the rank. -/
theorem sm_step_rank_decr {R : Type} (x : Ext R) (cfg : sm_cfg) (w : World R)
    (h : (sm_step_table x cfg w).sm.state ≠ w.sm.state) :
    sm_step_rank (sm_step_table x cfg w).sm (sm_step_table x cfg w).runlevel
      < sm_step_rank w.sm w.runlevel := by
  obtain ⟨⟨state, newlevel, reload, teardown⟩, runlevel, prevlevel, bootstrap, reg, trace⟩ := w
  cases state <;>
    simp only [sm_step_table, World.call, World.set_state, World.set_teardown] at h ⊢ <;>
    (try split_ifs at h ⊢) <;>
    simp only [sm_step_rank, ne_eq, not_true_eq_false] at h ⊢ <;>
    (try split_ifs) <;> (try omega) <;> simp_all

theorem sm_step_rank_le (sm : sm_t) (runlevel : Int) : sm_step_rank sm runlevel ≤ 11 := by
  unfold sm_step_rank
  cases sm.state <;> simp only <;> split_ifs <;> omega

/-- Once the passes granted exceed the rank, more passes change nothing. -/
theorem sm_step_loop_enough {R : Type} (x : Ext R) (cfg : sm_cfg) :
    ∀ (n m : Nat) (w : World R), sm_step_rank w.sm w.runlevel < n →
      sm_step_rank w.sm w.runlevel < m → sm_step_loop x cfg n w = sm_step_loop x cfg m w := by
  intro n
  induction n with
  | zero => intro m w h; omega
  | succ n ih =>
    intro m w hn hm
    cases m with
    | zero => omega
    | succ m =>
      rw [sm_step_loop_succ, sm_step_loop_succ]
      split_ifs with hc
      · have hd := sm_step_rank_decr x cfg w hc
        exact ih m _ (by omega) (by omega)
      · rfl

/-- The loop of sm_step, unfolded once, without the bound on the passes. -/
theorem sm_step_unfold {R : Type} (x : Ext R) (cfg : sm_cfg) (w : World R) :
    sm_step x cfg w =
      if (sm_step_table x cfg w).sm.state ≠ w.sm.state then
        sm_step x cfg (sm_step_table x cfg w)
      else sm_step_table x cfg w := by
  show sm_step_loop x cfg (11 + 1) w = _
  rw [sm_step_loop_succ]
  split_ifs with hc
  · have hd := sm_step_rank_decr x cfg w hc
    have hl := sm_step_rank_le w.sm w.runlevel
    exact sm_step_loop_enough x cfg 11 sm_step_fuel _ (by omega) (by unfold sm_step_fuel; omega)
  · rfl

/-- The world that sm_step returns is stable: one more pass would leave the
state where it is. -/
theorem sm_step_loop_stable {R : Type} (x : Ext R) (cfg : sm_cfg) :
    ∀ (n : Nat) (w : World R), sm_step_rank w.sm w.runlevel < n →
      ∃ v : World R, sm_step_loop x cfg n w = sm_step_table x cfg v ∧
        (sm_step_table x cfg v).sm.state = v.sm.state := by
  intro n
  induction n with
  | zero => intro w h; omega
  | succ n ih =>
    intro w hn
    rw [sm_step_loop_succ]
    split_ifs with hc
    · have hd := sm_step_rank_decr x cfg w hc
      exact ih _ (by omega)
    · exact ⟨w, rfl, not_not.mp hc⟩

/-- A property kept by every pass is kept by sm_step. -/
theorem sm_step_loop_induct {R : Type} (x : Ext R) (cfg : sm_cfg) (P : World R → Prop)
    (hP : ∀ w, P w → P (sm_step_table x cfg w)) :
    ∀ (n : Nat) (w : World R), P w → P (sm_step_loop x cfg n w) := by
  intro n
  induction n with
  | zero => intro w h; exact h
  | succ n ih =>
    intro w h
    rw [sm_step_loop_succ]
    split_ifs with hc
    · exact ih _ (hP w h)
    · exact hP w h

theorem sm_step_induct {R : Type} (x : Ext R) (cfg : sm_cfg) (P : World R → Prop)
    (hP : ∀ w, P w → P (sm_step_table x cfg w)) (w : World R) (h : P w) :
    P (sm_step x cfg w) :=
  sm_step_loop_induct x cfg P hP sm_step_fuel w h

/-- The calls of one pass see the globals as they were at entry, except in
RUNLEVEL_CHANGE, where every call sees the new runlevel together with the
old one as previous level. -/
theorem sm_step_table_trace {R : Type} (x : Ext R) (cfg : sm_cfg) (w : World R) :
    ∃ calls : List Seen, (sm_step_table x cfg w).trace = w.trace ++ calls ∧
      ∀ s ∈ calls,
        if w.sm.state = sm_state_t.RUNLEVEL_CHANGE then
          s.globals.runlevel = w.sm.newlevel ∧ s.globals.prevlevel = w.runlevel
        else s.globals.runlevel = w.runlevel ∧ s.globals.prevlevel = w.prevlevel := by
  obtain ⟨⟨state, newlevel, reload, teardown⟩, runlevel, prevlevel, bootstrap, reg, trace⟩ := w
  cases state <;>
    simp only [sm_step_table, World.call, World.set_state, World.set_teardown, reduceCtorEq,
      if_false, if_true] <;>
    (try split_ifs) <;>
    (try simp only [List.append_assoc]) <;>
    first
      | exact ⟨_, rfl, by simp⟩
      | exact ⟨[], by simp, by simp⟩

/-- Outside RUNLEVEL_CHANGE a pass leaves runlevel and prevlevel alone. -/
theorem sm_step_table_levels {R : Type} (x : Ext R) (cfg : sm_cfg) (w : World R)
    (h : w.sm.state ≠ sm_state_t.RUNLEVEL_CHANGE) :
    (sm_step_table x cfg w).runlevel = w.runlevel ∧
      (sm_step_table x cfg w).prevlevel = w.prevlevel := by
  obtain ⟨⟨state, newlevel, reload, teardown⟩, runlevel, prevlevel, bootstrap, reg, trace⟩ := w
  cases state <;>
    simp only [sm_step_table, World.call, World.set_state, World.set_teardown] <;>
    (try split_ifs) <;> simp_all

/-- With no level in 0..9 requested, a pass leaves the request alone and does
not enter RUNLEVEL_CHANGE. -/
theorem sm_step_table_no_request {R : Type} (x : Ext R) (cfg : sm_cfg) (w : World R)
    (hn : ¬ (0 ≤ w.sm.newlevel ∧ w.sm.newlevel ≤ 9))
    (h : w.sm.state ≠ sm_state_t.RUNLEVEL_CHANGE) :
    (sm_step_table x cfg w).sm.newlevel = w.sm.newlevel ∧
      (sm_step_table x cfg w).sm.state ≠ sm_state_t.RUNLEVEL_CHANGE := by
  obtain ⟨⟨state, newlevel, reload, teardown⟩, runlevel, prevlevel, bootstrap, reg, trace⟩ := w
  simp only at hn h
  cases state <;>
    simp only [sm_step_table, World.call, World.set_state, World.set_teardown] <;>
    (try split_ifs) <;> simp_all

/-! ## C8: a runlevel request in RUNNING -/

/-- RUNNING, a level other than the current one requested: the services are
stepped and the machine enters RUNLEVEL_CHANGE. -/
theorem sm_step_table_running_change {R : Type} (x : Ext R) (cfg : sm_cfg) (w : World R)
    (hs : w.sm.state = sm_state_t.RUNNING) (h0 : 0 ≤ w.sm.newlevel) (h9 : w.sm.newlevel ≤ 9)
    (hne : w.sm.newlevel ≠ w.runlevel) :
    sm_step_table x cfg w =
      World.set_state sm_state_t.RUNLEVEL_CHANGE
        (World.call x (Call.service_step_all svc_mask_t.ANY) w) := by
  obtain ⟨⟨state, newlevel, reload, teardown⟩, runlevel, prevlevel, bootstrap, reg, trace⟩ := w
  simp only at hs h0 h9 hne
  subst hs
  have hne2 : ¬ runlevel = newlevel := fun h => hne h.symm
  simp [sm_step_table, World.call, World.set_state, h0, h9, hne2]

/-- RUNNING, the current level requested: the services are stepped and the
request is dropped. -/
theorem sm_step_table_running_same {R : Type} (x : Ext R) (cfg : sm_cfg) (w : World R)
    (hs : w.sm.state = sm_state_t.RUNNING) (h0 : 0 ≤ w.sm.newlevel) (h9 : w.sm.newlevel ≤ 9)
    (heq : w.sm.newlevel = w.runlevel) :
    sm_step_table x cfg w =
      { World.call x (Call.service_step_all svc_mask_t.ANY) w with
        sm := { w.sm with newlevel := -1 } } := by
  obtain ⟨⟨state, newlevel, reload, teardown⟩, runlevel, prevlevel, bootstrap, reg, trace⟩ := w
  simp only at hs h0 h9 heq
  subst hs
  have hc : 0 ≤ newlevel ∧ newlevel ≤ 9 := ⟨h0, h9⟩
  simp only [sm_step_table, World.call]
  rw [if_pos hc, if_pos heq.symm]

/-- The pass in RUNLEVEL_CHANGE: the levels are switched, the teardown flag
is set, the switch is announced and the machine waits. -/
theorem sm_step_table_change {R : Type} (x : Ext R) (cfg : sm_cfg) (w : World R)
    (hs : w.sm.state = sm_state_t.RUNLEVEL_CHANGE) :
    (sm_step_table x cfg w).prevlevel = w.runlevel ∧
      (sm_step_table x cfg w).runlevel = w.sm.newlevel ∧
      (sm_step_table x cfg w).sm.newlevel = -1 ∧
      (sm_step_table x cfg w).sm.state = sm_state_t.RUNLEVEL_WAIT ∧
      (sm_step_table x cfg w).sm.in_teardown = true ∧
      (sm_step_table x cfg w).sm.reload = w.sm.reload := by
  obtain ⟨⟨state, newlevel, reload, teardown⟩, runlevel, prevlevel, bootstrap, reg, trace⟩ := w
  simp only at hs
  subst hs
  simp only [sm_step_table, World.call, World.set_state, World.set_teardown]
  split_ifs <;> simp

/-- The calls of the pass in RUNLEVEL_CHANGE include runlevel_set with the
old and the new level. -/
theorem sm_step_table_change_calls {R : Type} (x : Ext R) (cfg : sm_cfg) (w : World R)
    (hs : w.sm.state = sm_state_t.RUNLEVEL_CHANGE) :
    ∃ calls : List Seen, (sm_step_table x cfg w).trace = w.trace ++ calls ∧
      (∃ s ∈ calls, s.call = Call.runlevel_set w.runlevel w.sm.newlevel) ∧
      ∀ s ∈ calls, s.globals.runlevel = w.sm.newlevel ∧ s.globals.prevlevel = w.runlevel := by
  obtain ⟨⟨state, newlevel, reload, teardown⟩, runlevel, prevlevel, bootstrap, reg, trace⟩ := w
  simp only at hs
  subst hs
  simp only [sm_step_table, World.call, World.set_state, World.set_teardown]
  split_ifs <;>
    simp only [List.append_assoc] <;>
    exact ⟨_, rfl, by simp, by simp⟩

theorem levels_settled_pass {R : Type} (x : Ext R) (cfg : sm_cfg) (base : List Seen)
    (mark : Call) (cur prev : Int) (v : World R) (h : levels_settled base mark cur prev v) :
    levels_settled base mark cur prev (sm_step_table x cfg v) := by
  obtain ⟨hn, hs, hc, hp, calls, ht, ⟨m, hm, hmc⟩, hall⟩ := h
  obtain ⟨h1, h2⟩ := sm_step_table_no_request x cfg v (by rw [hn]; omega) hs
  obtain ⟨h3, h4⟩ := sm_step_table_levels x cfg v hs
  obtain ⟨more, h5, h6⟩ := sm_step_table_trace x cfg v
  simp only [hs, if_false] at h6
  refine ⟨by rw [h1, hn], h2, by rw [h3, hc], by rw [h4, hp], calls ++ more, ?_,
    ⟨m, List.mem_append_left _ hm, hmc⟩, ?_⟩
  · rw [h5, ht, List.append_assoc]
  · intro s hsm
    rcases List.mem_append.mp hsm with h | h
    · exact hall s h
    · have := h6 s h
      rw [hc, hp] at this
      exact this

/-- C8: in RUNNING with a level L in 0..9 requested.  If L differs from the
current runlevel, sm_step returns with prevlevel the old runlevel, runlevel L
and newlevel -1, and after the first stepping of the services (made in
RUNNING, before the switch) every call made sees runlevel L together with
prevlevel the old runlevel, so nothing runs between the two assignments.  If
L is the current runlevel, sm_step steps the services once, sets newlevel to
-1 and changes nothing else. -/
theorem sm_step_runlevel_request {R : Type} (x : Ext R) (cfg : sm_cfg) (w : World R)
    (hs : w.sm.state = sm_state_t.RUNNING) (h0 : 0 ≤ w.sm.newlevel) (h9 : w.sm.newlevel ≤ 9) :
    (w.sm.newlevel ≠ w.runlevel →
      (sm_step x cfg w).prevlevel = w.runlevel ∧
      (sm_step x cfg w).runlevel = w.sm.newlevel ∧
      (sm_step x cfg w).sm.newlevel = -1 ∧
      ∃ calls : List Seen,
        (sm_step x cfg w).trace =
          w.trace ++
            ⟨Call.service_step_all svc_mask_t.ANY,
              ⟨w.runlevel, w.prevlevel, w.sm.in_teardown⟩⟩ :: calls ∧
        (∃ s ∈ calls, s.call = Call.runlevel_set w.runlevel w.sm.newlevel) ∧
        ∀ s ∈ calls, s.globals.runlevel = w.sm.newlevel ∧ s.globals.prevlevel = w.runlevel) ∧
    (w.sm.newlevel = w.runlevel →
      sm_step x cfg w =
        { World.call x (Call.service_step_all svc_mask_t.ANY) w with
          sm := { w.sm with newlevel := -1 } }) := by
  constructor
  · intro hne
    have e1 := sm_step_table_running_change x cfg w hs h0 h9 hne
    rw [sm_step_unfold, e1, if_pos (by simp [World.set_state, hs])]
    have hs1 : (World.set_state sm_state_t.RUNLEVEL_CHANGE
        (World.call x (Call.service_step_all svc_mask_t.ANY) w)).sm.state
          = sm_state_t.RUNLEVEL_CHANGE := rfl
    obtain ⟨c1, c2, c3, c4, -, -⟩ := sm_step_table_change x cfg _ hs1
    obtain ⟨calls, t1, t2, t3⟩ := sm_step_table_change_calls x cfg _ hs1
    rw [sm_step_unfold, if_pos (by rw [c4, hs1]; decide)]
    have key := sm_step_induct x cfg
      (levels_settled
        (w.trace ++ [⟨Call.service_step_all svc_mask_t.ANY,
          ⟨w.runlevel, w.prevlevel, w.sm.in_teardown⟩⟩])
        (Call.runlevel_set w.runlevel w.sm.newlevel) w.sm.newlevel w.runlevel)
      (levels_settled_pass x cfg _ _ _ _) _
      ⟨c3, by rw [c4]; decide, c2, c1, calls, t1, t2, t3⟩
    obtain ⟨k1, -, k3, k4, cs, k5, k6, k7⟩ := key
    refine ⟨k4, k3, k1, cs, ?_, k6, k7⟩
    rw [k5, List.append_assoc]
    rfl
  · intro heq
    have e1 := sm_step_table_running_same x cfg w hs h0 h9 heq
    rw [sm_step_unfold, e1, if_neg (by simp [World.call])]

/-- C8 at a concrete world: runlevel 2, level 3 requested. -/
theorem sm_step_runlevel_request_witness :
    (sm_step ext_quiet cfg_plain (world_at sm_state_t.RUNNING 3 false)).prevlevel = 2 ∧
      (sm_step ext_quiet cfg_plain (world_at sm_state_t.RUNNING 3 false)).runlevel = 3 ∧
      (sm_step ext_quiet cfg_plain (world_at sm_state_t.RUNNING 3 false)).sm.newlevel = -1 :=
  have h := (sm_step_runlevel_request ext_quiet cfg_plain (world_at sm_state_t.RUNNING 3 false)
    rfl (by decide) (by decide)).1 (by decide)
  ⟨h.1, h.2.1, h.2.2.1⟩

/-! ## C9: a change of runlevel runs to RUNNING -/

theorem sm_step_loop_induct_stable {R : Type} (x : Ext R) (cfg : sm_cfg) (P : World R → Prop)
    (hP : ∀ w, P w → P (sm_step_table x cfg w)) :
    ∀ (n : Nat) (w : World R), sm_step_rank w.sm w.runlevel < n → P w →
      ∃ v : World R, P v ∧ sm_step_loop x cfg n w = sm_step_table x cfg v ∧
        (sm_step_table x cfg v).sm.state = v.sm.state := by
  intro n
  induction n with
  | zero => intro w h; omega
  | succ n ih =>
    intro w hn h
    rw [sm_step_loop_succ]
    split_ifs with hc
    · have hd := sm_step_rank_decr x cfg w hc
      exact ih _ (by omega) (hP w h)
    · exact ⟨w, h, rfl, not_not.mp hc⟩

/-- What sm_step returns is the result of a pass that left the state alone,
made on a world that has every property kept by the passes. -/
theorem sm_step_induct_stable {R : Type} (x : Ext R) (cfg : sm_cfg) (P : World R → Prop)
    (hP : ∀ w, P w → P (sm_step_table x cfg w)) (w : World R) (h : P w) :
    ∃ v : World R, P v ∧ sm_step x cfg w = sm_step_table x cfg v ∧
      (sm_step_table x cfg v).sm.state = v.sm.state :=
  sm_step_loop_induct_stable x cfg P hP sm_step_fuel w
    (by have := sm_step_rank_le w.sm w.runlevel; unfold sm_step_fuel; omega) h

theorem sm_step_nth_succ {R : Type} (x : Ext R) (cfg : sm_cfg) :
    ∀ (k : Nat) (w : World R),
      sm_step_nth x cfg (k + 1) w = sm_step_table x cfg (sm_step_nth x cfg k w) := by
  intro k
  induction k with
  | zero => intro w; rfl
  | succ k ih => intro w; exact ih (sm_step_table x cfg w)

set_option maxHeartbeats 1000000 in
theorem change_inv_pass {R : Type} (x : Ext R) (cfg : sm_cfg) (hooks : Bool) (L : Int)
    (base : List Seen) (v : World R) (h : change_inv hooks L base v) :
    change_inv hooks L base (sm_step_table x cfg v) := by
  obtain ⟨⟨state, newlevel, reload, teardown⟩, runlevel, prevlevel, bootstrap, reg, trace⟩ := v
  obtain ⟨hn, hL, h0, h6, hst, htd, calls, ht, hsd, hhook, hclean⟩ := h
  simp only at hn hL h0 h6 hst htd ht hhook hclean
  subst hn ht hL
  unfold change_inv
  refine ⟨?_, ?_, h0, h6, ?_, ?_, ?_⟩
  · cases state <;> first
      | exact absurd hst (by decide)
      | (simp only [sm_step_table, World.call, World.set_state, World.set_teardown] <;>
         (try split_ifs) <;> (try simp_all))
  · cases state <;> first
      | exact absurd hst (by decide)
      | (simp only [sm_step_table, World.call, World.set_state, World.set_teardown] <;>
         (try split_ifs) <;> (try simp_all))
  · cases state <;> first
      | exact absurd hst (by decide)
      | (simp only [sm_step_table, World.call, World.set_state, World.set_teardown] <;>
         (try split_ifs) <;> (try simp_all [sm_state_t.after_change]))
  · cases state <;> first
      | exact absurd hst (by decide)
      | (simp only [sm_step_table, World.call, World.set_state, World.set_teardown] <;>
         (try split_ifs) <;> (try simp_all [sm_state_t.teardown_over]))
  · cases state <;> first
      | exact absurd hst (by decide)
      | (simp only [sm_step_table, World.call, World.set_state, World.set_teardown] <;>
         (try split_ifs) <;> (try simp only [List.append_assoc]) <;>
           exact ⟨_, rfl, by simp_all, by simp_all, by simp_all⟩)

/-- The pass in RUNLEVEL_CHANGE towards a level other than 0 and 6
establishes the property; the runlevel-change hooks are not among its calls. -/
theorem change_inv_init {R : Type} (x : Ext R) (cfg : sm_cfg) (w : World R)
    (hs : w.sm.state = sm_state_t.RUNLEVEL_CHANGE)
    (h0 : w.sm.newlevel ≠ 0) (h6 : w.sm.newlevel ≠ 6) :
    change_inv true w.sm.newlevel w.trace (sm_step_table x cfg w) ∧
      ∃ calls : List Seen, (sm_step_table x cfg w).trace = w.trace ++ calls ∧
        Call.plugin_run_hooks hook_t.HOOK_RUNLEVEL_CHANGE ∉ calls.map Seen.call := by
  obtain ⟨⟨state, newlevel, reload, teardown⟩, runlevel, prevlevel, bootstrap, reg, trace⟩ := w
  simp only at hs h0 h6
  subst hs
  have hc : ¬ (newlevel = 0 ∨ newlevel = 6) := by omega
  unfold change_inv
  refine ⟨⟨?_, ?_, ?_, ?_, ?_, ?_, ?_⟩, ?_⟩
  all_goals
    simp only [sm_step_table, World.call, World.set_state, World.set_teardown, if_neg hc]
  all_goals (try split_ifs)
  all_goals (try simp only [List.append_assoc])
  all_goals first
    | exact h0
    | exact h6
    | rfl
    | exact ⟨_, rfl, by simp, by simp, by simp⟩
    | exact ⟨_, rfl, by simp⟩
    | simp [sm_state_t.teardown_over]

/-- When the query that a pass makes returns NULL, the only state past
RUNLEVEL_CHANGE that the pass leaves alone, no level being requested, is
RUNNING. -/
theorem change_inv_stable {R : Type} (x : Ext R) (cfg : sm_cfg) (hooks : Bool) (L : Int)
    (base : List Seen) (v : World R) (h : change_inv hooks L base v)
    (hq : sm_quiet_at x v)
    (hst : (sm_step_table x cfg v).sm.state = v.sm.state) :
    v.sm.state = sm_state_t.RUNNING := by
  obtain ⟨⟨state, newlevel, reload, teardown⟩, runlevel, prevlevel, bootstrap, reg, trace⟩ := v
  obtain ⟨-, -, -, -, hac, -⟩ := h
  obtain ⟨hq1, hq2⟩ := hq
  simp only at hac hq1 hq2
  cases state
  case RUNNING => rfl
  case RUNLEVEL_WAIT =>
    have hstop := hq1 (Or.inl rfl)
    simp [sm_step_table, World.call, World.set_state, World.set_teardown, hstop] at hst
  case RELOAD_WAIT =>
    have hstop := hq1 (Or.inr rfl)
    simp [sm_step_table, World.call, World.set_state, World.set_teardown, hstop] at hst
  case RUNLEVEL_CLEAN =>
    have hclean := hq2 (Or.inl rfl)
    simp [sm_step_table, World.call, World.set_state, World.set_teardown, hclean] at hst
  case RELOAD_CLEAN =>
    have hclean := hq2 (Or.inr rfl)
    simp [sm_step_table, World.call, World.set_state, World.set_teardown, hclean] at hst
  case RELOAD_CHANGE =>
    simp [sm_step_table, World.call, World.set_state, World.set_teardown] at hst
  all_goals exact absurd hac (by decide)

/-- A property kept by every pass holds after any number of passes. -/
theorem sm_step_nth_induct {R : Type} (x : Ext R) (cfg : sm_cfg) (P : World R → Prop)
    (hP : ∀ w, P w → P (sm_step_table x cfg w)) :
    ∀ (k : Nat) (w : World R), P w → P (sm_step_nth x cfg k w) := by
  intro k
  induction k with
  | zero => intro w h; exact h
  | succ k ih => intro w h; exact ih _ (hP w h)

theorem sm_step_loop_fixpoint {R : Type} (x : Ext R) (cfg : sm_cfg) :
    ∀ (n : Nat) (w : World R), sm_step_rank w.sm w.runlevel < n →
      ∃ k, k ≤ sm_step_rank w.sm w.runlevel ∧
        sm_step_loop x cfg n w = sm_step_table x cfg (sm_step_nth x cfg k w) ∧
        (sm_step_table x cfg (sm_step_nth x cfg k w)).sm.state
          = (sm_step_nth x cfg k w).sm.state := by
  intro n
  induction n with
  | zero => intro w h; omega
  | succ n ih =>
    intro w hn
    rw [sm_step_loop_succ]
    split_ifs with hc
    · have hd := sm_step_rank_decr x cfg w hc
      obtain ⟨k, hk, e, hst⟩ := ih (sm_step_table x cfg w) (by omega)
      exact ⟨k + 1, by omega, e, hst⟩
    · exact ⟨0, Nat.zero_le _, rfl, not_not.mp hc⟩

/-- What sm_step returns is the result of its last pass, the pass number
k + 1 with k at most 11, and that pass leaves the state alone. -/
theorem sm_step_fixpoint {R : Type} (x : Ext R) (cfg : sm_cfg) (w : World R) :
    ∃ k, k < sm_step_fuel ∧
      sm_step x cfg w = sm_step_table x cfg (sm_step_nth x cfg k w) ∧
      (sm_step_table x cfg (sm_step_nth x cfg k w)).sm.state
        = (sm_step_nth x cfg k w).sm.state := by
  have hl := sm_step_rank_le w.sm w.runlevel
  obtain ⟨k, hk, e, hst⟩ := sm_step_loop_fixpoint x cfg sm_step_fuel w
    (by unfold sm_step_fuel; omega)
  exact ⟨k, by unfold sm_step_fuel; omega, e, hst⟩

/-- A pass in RUNLEVEL_WAIT or RUNLEVEL_CLEAN whose query reports a service
changes nothing, and sm_step returns the world as it found it. -/
theorem sm_step_waits {R : Type} (x : Ext R) (cfg : sm_cfg) (w : World R)
    (h : (w.sm.state = sm_state_t.RUNLEVEL_WAIT ∧ (x.svc_stop_completed w.reg).isSome = true) ∨
      (w.sm.state = sm_state_t.RUNLEVEL_CLEAN ∧
        (x.svc_clean_completed w.reg).isSome = true)) :
    sm_step x cfg w = w := by
  have e : sm_step_table x cfg w = w := by
    obtain ⟨⟨state, newlevel, reload, teardown⟩, runlevel, prevlevel, bootstrap, reg, trace⟩ := w
    simp only at h
    rcases h with ⟨h1, h2⟩ | ⟨h1, h2⟩ <;> subst h1 <;> simp [sm_step_table, h2]
  rw [sm_step_unfold, e, if_neg (by simp)]

/-- Along a change of runlevel with no further level requested, if every
query that the call makes returns NULL, sm_step returns in RUNNING.  The
property holds from the pass number `j` on. -/
theorem sm_step_change_done {R : Type} (x : Ext R) (cfg : sm_cfg) (hooks : Bool) (L : Int)
    (base : List Seen) (w : World R) (j : Nat)
    (hfirst : ∀ i, i < j →
      (sm_step_table x cfg (sm_step_nth x cfg i w)).sm.state ≠ (sm_step_nth x cfg i w).sm.state)
    (hinv : change_inv hooks L base (sm_step_nth x cfg j w))
    (hquiet : ∀ n, n < sm_step_fuel → sm_quiet_at x (sm_step_nth x cfg n w)) :
    (sm_step x cfg w).sm.state = sm_state_t.RUNNING ∧
      change_inv hooks L base (sm_step x cfg w) := by
  obtain ⟨k, hk, e, hst⟩ := sm_step_fixpoint x cfg w
  have hjk : j ≤ k := by
    by_contra hlt
    exact hfirst k (by omega) hst
  obtain ⟨d, hd⟩ : ∃ d, k = j + d := ⟨k - j, by omega⟩
  have hsplit : ∀ (d : Nat) (u : World R),
      sm_step_nth x cfg (j + d) u = sm_step_nth x cfg d (sm_step_nth x cfg j u) := by
    intro d
    induction d with
    | zero => intro u; rfl
    | succ d ih =>
      intro u
      rw [show j + (d + 1) = (j + d) + 1 by omega, sm_step_nth_succ, ih, ← sm_step_nth_succ]
  have hv : change_inv hooks L base (sm_step_nth x cfg k w) := by
    rw [hd, hsplit]
    exact sm_step_nth_induct x cfg _ (change_inv_pass x cfg hooks L base) d _ hinv
  have hrun := change_inv_stable x cfg hooks L base _ hv (hquiet k hk) hst
  rw [e]
  exact ⟨by rw [hst, hrun], change_inv_pass x cfg hooks L base _ hv⟩

/-- C9: a change of runlevel towards a level L other than 0 and 6, taken up
by sm_step in RUNLEVEL_CHANGE, or in a later call in RUNLEVEL_WAIT or
RUNLEVEL_CLEAN with no further level requested.  If every query that the
call makes returns NULL (svc_stop_completed in the waiting states,
svc_clean_completed in the cleaning states, each asked of the registry as it
is at that pass), the one call of sm_step runs through the remaining states
and returns in RUNNING with the teardown flag clear and runlevel L, having
removed the stale services and not called do_shutdown, and having run the
runlevel-change hooks unless it started behind them, in RUNLEVEL_CLEAN.
While a stopping service is reported, sm_step returns in RUNLEVEL_WAIT: right
after the pass in RUNLEVEL_CHANGE, with the teardown flag set and without the
runlevel-change hooks among its calls, and unchanged when it is called in
RUNLEVEL_WAIT; called in RUNLEVEL_CLEAN while a service waits for its cleanup
it returns unchanged as well. -/
theorem sm_step_runlevel_change {R : Type} (x : Ext R) (cfg : sm_cfg) (w : World R) (L : Int)
    (hL0 : L ≠ 0) (hL6 : L ≠ 6)
    (hentry : (w.sm.state = sm_state_t.RUNLEVEL_CHANGE ∧ w.sm.newlevel = L) ∨
      (w.sm.state = sm_state_t.RUNLEVEL_WAIT ∧ w.sm.newlevel = -1 ∧ w.runlevel = L) ∨
      (w.sm.state = sm_state_t.RUNLEVEL_CLEAN ∧ w.sm.newlevel = -1 ∧ w.runlevel = L ∧
        w.sm.in_teardown = false)) :
    ((∀ n, n < sm_step_fuel → sm_quiet_at x (sm_step_nth x cfg n w)) →
      (sm_step x cfg w).sm.state = sm_state_t.RUNNING ∧
      (sm_step x cfg w).sm.in_teardown = false ∧
      (sm_step x cfg w).runlevel = L ∧
      ∃ calls : List Seen, (sm_step x cfg w).trace = w.trace ++ calls ∧
        (w.sm.state ≠ sm_state_t.RUNLEVEL_CLEAN →
          Call.plugin_run_hooks hook_t.HOOK_RUNLEVEL_CHANGE ∈ calls.map Seen.call) ∧
        Call.svc_clean_dynamic ∈ calls.map Seen.call ∧
        Call.do_shutdown ∉ calls.map Seen.call) ∧
    (w.sm.state = sm_state_t.RUNLEVEL_CHANGE →
      (x.svc_stop_completed (sm_step_table x cfg w).reg).isSome = true →
      sm_step x cfg w = sm_step_table x cfg w ∧
      (sm_step x cfg w).sm.state = sm_state_t.RUNLEVEL_WAIT ∧
      (sm_step x cfg w).sm.in_teardown = true ∧
      ∃ calls : List Seen, (sm_step x cfg w).trace = w.trace ++ calls ∧
        Call.plugin_run_hooks hook_t.HOOK_RUNLEVEL_CHANGE ∉ calls.map Seen.call) ∧
    (w.sm.state = sm_state_t.RUNLEVEL_WAIT →
      (x.svc_stop_completed w.reg).isSome = true → sm_step x cfg w = w) ∧
    (w.sm.state = sm_state_t.RUNLEVEL_CLEAN →
      (x.svc_clean_completed w.reg).isSome = true → sm_step x cfg w = w) := by
  refine ⟨fun hquiet => ?_, fun hs hsome => ?_, fun hs hsome => sm_step_waits x cfg w
    (Or.inl ⟨hs, hsome⟩), fun hs hsome => sm_step_waits x cfg w (Or.inr ⟨hs, hsome⟩)⟩
  · have fin : ∀ (hooks : Bool) (j : Nat),
        (∀ i, i < j → (sm_step_table x cfg (sm_step_nth x cfg i w)).sm.state
          ≠ (sm_step_nth x cfg i w).sm.state) →
        change_inv hooks L w.trace (sm_step_nth x cfg j w) →
        (hooks = false → w.sm.state = sm_state_t.RUNLEVEL_CLEAN) →
        (sm_step x cfg w).sm.state = sm_state_t.RUNNING ∧
        (sm_step x cfg w).sm.in_teardown = false ∧
        (sm_step x cfg w).runlevel = L ∧
        ∃ calls : List Seen, (sm_step x cfg w).trace = w.trace ++ calls ∧
          (w.sm.state ≠ sm_state_t.RUNLEVEL_CLEAN →
            Call.plugin_run_hooks hook_t.HOOK_RUNLEVEL_CHANGE ∈ calls.map Seen.call) ∧
          Call.svc_clean_dynamic ∈ calls.map Seen.call ∧
          Call.do_shutdown ∉ calls.map Seen.call := by
      intro hooks j hfirst hinv hh
      obtain ⟨hrun, -, hL, -, -, -, htd, calls, ht, hsd, hhook, hcl⟩ :=
        sm_step_change_done x cfg hooks L w.trace w j hfirst hinv hquiet
      rw [hrun] at htd hhook hcl
      refine ⟨hrun, htd rfl, hL, calls, ht, fun hne => ?_, hcl (by decide) (by decide), hsd⟩
      cases hooks with
      | true => exact hhook rfl (by decide)
      | false => exact absurd (hh rfl) hne
    rcases hentry with ⟨hs, hn⟩ | ⟨hs, hn, hr⟩ | ⟨hs, hn, hr, htd⟩
    · obtain ⟨-, -, -, c4, -, -⟩ := sm_step_table_change x cfg w hs
      obtain ⟨hinv, -⟩ := change_inv_init x cfg w hs (by rw [hn]; exact hL0)
        (by rw [hn]; exact hL6)
      rw [hn] at hinv
      refine fin true 1 (fun i hi => ?_) hinv (fun h => absurd h (by decide))
      have hi0 : i = 0 := by omega
      subst hi0
      show (sm_step_table x cfg w).sm.state ≠ w.sm.state
      rw [c4, hs]
      decide
    · have hw : change_inv true L w.trace w := by
        refine ⟨hn, hr, hL0, hL6, by rw [hs]; rfl, fun h => ?_, [], by simp, by simp,
          fun _ h => absurd hs h, fun h => absurd hs h⟩
        rw [hs] at h
        exact absurd h (by decide)
      exact fin true 0 (fun i hi => absurd hi (by omega)) hw (fun h => absurd h (by decide))
    · have hw : change_inv false L w.trace w :=
        ⟨hn, hr, hL0, hL6, by rw [hs]; rfl, fun _ => htd, [], by simp, by simp,
          fun h => absurd h (by decide), fun _ h => absurd hs h⟩
      exact fin false 0 (fun i hi => absurd hi (by omega)) hw (fun _ => hs)
  · obtain ⟨-, -, -, c4, c5, -⟩ := sm_step_table_change x cfg w hs
    have hn0 : w.sm.newlevel ≠ 0 ∧ w.sm.newlevel ≠ 6 := by
      rcases hentry with ⟨-, hn⟩ | ⟨h1, -⟩ | ⟨h1, -⟩
      · rw [hn]; exact ⟨hL0, hL6⟩
      · rw [hs] at h1; exact absurd h1 (by decide)
      · rw [hs] at h1; exact absurd h1 (by decide)
    obtain ⟨-, hquiet⟩ := change_inv_init x cfg w hs hn0.1 hn0.2
    have e1 : sm_step x cfg w = sm_step x cfg (sm_step_table x cfg w) := by
      rw [sm_step_unfold, if_pos (by rw [c4, hs]; decide)]
    have e3 : sm_step x cfg w = sm_step_table x cfg w := by
      rw [e1]
      exact sm_step_waits x cfg _ (Or.inl ⟨c4, hsome⟩)
    rw [e3]
    exact ⟨rfl, c4, c5, hquiet⟩

/-- C9 at concrete worlds, with modules that count the services still
stopping.  From RUNLEVEL_CHANGE towards level 3 with one service left, which
finishes when the services are stepped, sm_step returns in RUNNING with the
teardown flag clear; with two services left it returns in RUNLEVEL_WAIT, and
called there again while one is still stopping it returns unchanged. -/
theorem sm_step_runlevel_change_witness :
    (sm_step ext_counting cfg_plain (world_counting sm_state_t.RUNLEVEL_CHANGE 3 1)).sm.state
        = sm_state_t.RUNNING ∧
      (sm_step ext_counting cfg_plain
        (world_counting sm_state_t.RUNLEVEL_CHANGE 3 1)).sm.in_teardown = false ∧
      (sm_step ext_counting cfg_plain (world_counting sm_state_t.RUNLEVEL_CHANGE 3 2)).sm.state
        = sm_state_t.RUNLEVEL_WAIT ∧
      sm_step ext_counting cfg_plain (world_counting sm_state_t.RUNLEVEL_WAIT (-1) 1)
        = world_counting sm_state_t.RUNLEVEL_WAIT (-1) 1 :=
  have h := (sm_step_runlevel_change ext_counting cfg_plain
    (world_counting sm_state_t.RUNLEVEL_CHANGE 3 1) 3 (by decide) (by decide)
    (Or.inl ⟨rfl, rfl⟩)).1 (by decide)
  have f := (sm_step_runlevel_change ext_counting cfg_plain
    (world_counting sm_state_t.RUNLEVEL_CHANGE 3 2) 3 (by decide) (by decide)
    (Or.inl ⟨rfl, rfl⟩)).2.1 rfl rfl
  have g := (sm_step_runlevel_change ext_counting cfg_plain
    (world_counting sm_state_t.RUNLEVEL_WAIT (-1) 1) 2 (by decide) (by decide)
    (Or.inr (Or.inl ⟨rfl, rfl, rfl⟩))).2.2.1 rfl rfl
  ⟨h.1, h.2.1, f.2.1, g⟩

/-! ## C10: a reload request in RUNNING -/

/-- C10 fails when the level requested is the current runlevel: in runlevel
2 with level 2 requested and the reload flag set, sm_step steps the services,
drops the request and returns in RUNNING; the reload flag is still set, the
teardown flag is clear and neither conf_reload nor cond_reload was called. -/
theorem sm_step_reload_counterexample :
    (world_at sm_state_t.RUNNING 2 true).sm.state = sm_state_t.RUNNING ∧
      (world_at sm_state_t.RUNNING 2 true).sm.reload = true ∧
      (world_at sm_state_t.RUNNING 2 true).sm.newlevel
        = (world_at sm_state_t.RUNNING 2 true).runlevel ∧
      (sm_step ext_quiet cfg_plain (world_at sm_state_t.RUNNING 2 true)).sm.reload = true ∧
      (sm_step ext_quiet cfg_plain (world_at sm_state_t.RUNNING 2 true)).sm.state
        = sm_state_t.RUNNING ∧
      (sm_step ext_quiet cfg_plain (world_at sm_state_t.RUNNING 2 true)).sm.in_teardown
        = false ∧
      (sm_step ext_quiet cfg_plain (world_at sm_state_t.RUNNING 2 true)).trace.map Seen.call
        = [Call.service_step_all svc_mask_t.ANY] := by
  decide

/-- RUNNING, no level in 0..9 requested, the reload flag set: the services
are stepped, the flag is cleared and the machine enters RELOAD_CHANGE. -/
theorem sm_step_table_running_reload {R : Type} (x : Ext R) (cfg : sm_cfg) (w : World R)
    (hs : w.sm.state = sm_state_t.RUNNING) (hr : w.sm.reload = true)
    (hn : ¬ (0 ≤ w.sm.newlevel ∧ w.sm.newlevel ≤ 9)) :
    sm_step_table x cfg w =
      World.set_state sm_state_t.RELOAD_CHANGE
        { World.call x (Call.service_step_all svc_mask_t.ANY) w with
          sm := { w.sm with reload := false } } := by
  obtain ⟨⟨state, newlevel, reload, teardown⟩, runlevel, prevlevel, bootstrap, reg, trace⟩ := w
  simp only at hs hr hn
  subst hs hr
  simp only [sm_step_table, World.call, World.set_state]
  rw [if_neg hn, if_pos trivial]

/-- The pass in RELOAD_CHANGE, call by call. -/
theorem sm_step_table_reload_change {R : Type} (x : Ext R) (cfg : sm_cfg) (w : World R)
    (hs : w.sm.state = sm_state_t.RELOAD_CHANGE) :
    sm_step_table x cfg w =
      World.set_state sm_state_t.RELOAD_WAIT
        (World.call x (Call.service_step_all svc_mask_t.ANY)
          (World.call x Call.cond_reload
            (World.set_teardown true (World.call x Call.conf_reload w)))) := by
  obtain ⟨⟨state, newlevel, reload, teardown⟩, runlevel, prevlevel, bootstrap, reg, trace⟩ := w
  simp only at hs
  subst hs
  rfl

theorem reload_inv_pass {R : Type} (x : Ext R) (cfg : sm_cfg) (base : List Seen)
    (cur prev : Int) (v : World R) (h : reload_inv base cur prev v) :
    reload_inv base cur prev (sm_step_table x cfg v) := by
  obtain ⟨hn, hr, hst, hc, hp, calls, ht⟩ := h
  have hs : v.sm.state ≠ sm_state_t.RUNLEVEL_CHANGE := by
    intro h; rw [h] at hst; exact absurd hst (by decide)
  obtain ⟨h1, -⟩ := sm_step_table_no_request x cfg v hn hs
  obtain ⟨h3, h4⟩ := sm_step_table_levels x cfg v hs
  obtain ⟨more, h5, -⟩ := sm_step_table_trace x cfg v
  refine ⟨by rw [h1]; exact hn, ?_, ?_, by rw [h3, hc], by rw [h4, hp], calls ++ more,
    by rw [h5, ht, List.append_assoc]⟩
  · obtain ⟨⟨state, newlevel, reload, teardown⟩, runlevel, prevlevel, bootstrap, reg, trace⟩
      := v
    simp only at hn hr hst
    subst hr
    cases state <;> first
      | exact absurd hst (by decide)
      | (simp only [sm_step_table, World.call, World.set_state, World.set_teardown] <;>
         (try split_ifs) <;> (try simp_all))
  · obtain ⟨⟨state, newlevel, reload, teardown⟩, runlevel, prevlevel, bootstrap, reg, trace⟩
      := v
    simp only at hn hr hst
    subst hr
    cases state <;> first
      | exact absurd hst (by decide)
      | (simp only [sm_step_table, World.call, World.set_state, World.set_teardown] <;>
         (try split_ifs) <;> (try simp_all [sm_state_t.after_reload]))

/-- C10, amended: in RUNNING with the reload flag set and no level in 0..9
requested (newlevel is -1), one call of sm_step steps the services, then
calls conf_reload, sets the teardown flag, calls cond_reload and steps the
services again, in this order; it returns with the reload flag clear, with
runlevel and prevlevel unchanged, in RELOAD_WAIT, RELOAD_CLEAN or RUNNING.
If a stopping service is reported after the pass in RELOAD_CHANGE, it returns
right after that pass, in RELOAD_WAIT with the teardown flag set. -/
theorem sm_step_reload {R : Type} (x : Ext R) (cfg : sm_cfg) (w : World R)
    (hs : w.sm.state = sm_state_t.RUNNING) (hr : w.sm.reload = true)
    (hn : ¬ (0 ≤ w.sm.newlevel ∧ w.sm.newlevel ≤ 9)) :
    (sm_step x cfg w).sm.reload = false ∧
      (sm_step x cfg w).runlevel = w.runlevel ∧
      (sm_step x cfg w).prevlevel = w.prevlevel ∧
      (sm_step x cfg w).sm.state.after_reload = true ∧
      (∃ calls : List Seen, (sm_step x cfg w).trace =
        w.trace ++
          [⟨Call.service_step_all svc_mask_t.ANY, ⟨w.runlevel, w.prevlevel, w.sm.in_teardown⟩⟩,
           ⟨Call.conf_reload, ⟨w.runlevel, w.prevlevel, w.sm.in_teardown⟩⟩,
           ⟨Call.cond_reload, ⟨w.runlevel, w.prevlevel, true⟩⟩,
           ⟨Call.service_step_all svc_mask_t.ANY, ⟨w.runlevel, w.prevlevel, true⟩⟩] ++ calls) ∧
      ((x.svc_stop_completed (sm_step_table x cfg (sm_step_table x cfg w)).reg).isSome = true →
        sm_step x cfg w = sm_step_table x cfg (sm_step_table x cfg w) ∧
        (sm_step x cfg w).sm.state = sm_state_t.RELOAD_WAIT ∧
        (sm_step x cfg w).sm.in_teardown = true) := by
  have e1 := sm_step_table_running_reload x cfg w hs hr hn
  have e2 := sm_step_table_reload_change x cfg (sm_step_table x cfg w) (by rw [e1]; rfl)
  have u1 : sm_step x cfg w = sm_step x cfg (sm_step_table x cfg w) := by
    rw [sm_step_unfold, if_pos (by rw [e1, hs]; simp [World.set_state])]
  have u2 : sm_step x cfg w = sm_step x cfg (sm_step_table x cfg (sm_step_table x cfg w)) := by
    rw [u1, sm_step_unfold, if_pos (by rw [e2]; rw [e1]; simp [World.set_state])]
  have hinv : reload_inv
      (w.trace ++
        [⟨Call.service_step_all svc_mask_t.ANY, ⟨w.runlevel, w.prevlevel, w.sm.in_teardown⟩⟩,
         ⟨Call.conf_reload, ⟨w.runlevel, w.prevlevel, w.sm.in_teardown⟩⟩,
         ⟨Call.cond_reload, ⟨w.runlevel, w.prevlevel, true⟩⟩,
         ⟨Call.service_step_all svc_mask_t.ANY, ⟨w.runlevel, w.prevlevel, true⟩⟩])
      w.runlevel w.prevlevel (sm_step_table x cfg (sm_step_table x cfg w)) := by
    rw [e2, e1]
    exact ⟨hn, rfl, rfl, rfl, rfl, [], by simp [World.call, World.set_state, World.set_teardown]⟩
  obtain ⟨-, k2, k3, k4, k5, k6⟩ := sm_step_induct x cfg _ (reload_inv_pass x cfg _ _ _) _ hinv
  rw [← u2] at k2 k3 k4 k5 k6
  refine ⟨k2, k4, k5, k3, k6, ?_⟩
  intro hsome
  have e3 : sm_step_table x cfg (sm_step_table x cfg (sm_step_table x cfg w))
      = sm_step_table x cfg (sm_step_table x cfg w) := by
    have hw : (sm_step_table x cfg (sm_step_table x cfg w)).sm.state = sm_state_t.RELOAD_WAIT := by
      rw [e2]; rfl
    generalize sm_step_table x cfg (sm_step_table x cfg w) = u at hw hsome
    obtain ⟨⟨state, newlevel, reload, teardown⟩, runlevel, prevlevel, bootstrap, reg, trace⟩ := u
    simp only at hw hsome
    subst hw
    simp [sm_step_table, hsome]
  have u3 : sm_step x cfg w = sm_step_table x cfg (sm_step_table x cfg w) := by
    rw [u2, sm_step_unfold, e3, if_neg (by simp)]
  rw [u3]
  refine ⟨rfl, ?_, ?_⟩ <;> rw [e2] <;> rfl

/-- C10 at a concrete world: runlevel 2, no level requested, the reload flag
set. -/
theorem sm_step_reload_witness :
    (sm_step ext_quiet cfg_plain (world_at sm_state_t.RUNNING (-1) true)).sm.reload = false ∧
      (sm_step ext_quiet cfg_plain (world_at sm_state_t.RUNNING (-1) true)).runlevel = 2 ∧
      (sm_step ext_quiet cfg_plain (world_at sm_state_t.RUNNING (-1) true)).prevlevel = 10 :=
  have h := sm_step_reload ext_quiet cfg_plain (world_at sm_state_t.RUNNING (-1) true)
    rfl rfl (by decide)
  ⟨h.1, h.2.1, h.2.2.1⟩

/-! ## C11: the one-shot condition of the bootstrap -/

/-- The trace of sm_step extends the trace it is given. -/
theorem sm_step_trace_extends {R : Type} (x : Ext R) (cfg : sm_cfg) (w : World R) :
    ∃ calls : List Seen, (sm_step x cfg w).trace = w.trace ++ calls := by
  refine sm_step_induct x cfg (fun v => ∃ calls : List Seen, v.trace = w.trace ++ calls)
    ?_ w ⟨[], by simp⟩
  intro v ⟨calls, hv⟩
  obtain ⟨more, hm, -⟩ := sm_step_table_trace x cfg v
  exact ⟨calls ++ more, by rw [hm, hv, List.append_assoc]⟩

/-- C11 fails: in BOOTSTRAP_WAIT with no target runlevel set, sm_step stays
in BOOTSTRAP_WAIT and yet has asserted the one-shot condition. -/
theorem sm_step_bootstrap_wait_counterexample :
    (world_at sm_state_t.BOOTSTRAP_WAIT (-1) false).sm.state = sm_state_t.BOOTSTRAP_WAIT ∧
      (sm_step ext_quiet cfg_plain (world_at sm_state_t.BOOTSTRAP_WAIT (-1) false)).sm.state
        = sm_state_t.BOOTSTRAP_WAIT ∧
      (sm_step ext_quiet cfg_plain (world_at sm_state_t.BOOTSTRAP_WAIT (-1) false)).trace.map
          Seen.call
        = [Call.service_step_all svc_mask_t.ANY, Call.cond_set_oneshot_bootstrap] := by
  decide

/-- The pass in BOOTSTRAP_WAIT with no target runlevel. -/
theorem sm_step_table_bootstrap_stay {R : Type} (x : Ext R) (cfg : sm_cfg) (w : World R)
    (hs : w.sm.state = sm_state_t.BOOTSTRAP_WAIT) (hn : w.sm.newlevel = -1) :
    sm_step_table x cfg w =
      World.call x Call.cond_set_oneshot_bootstrap
        (World.call x (Call.service_step_all svc_mask_t.ANY) w) := by
  obtain ⟨⟨state, newlevel, reload, teardown⟩, runlevel, prevlevel, bootstrap, reg, trace⟩ := w
  simp only at hs hn
  subst hs hn
  simp [sm_step_table, World.call]

/-- The pass in BOOTSTRAP_WAIT with a target runlevel set. -/
theorem sm_step_table_bootstrap_leave {R : Type} (x : Ext R) (cfg : sm_cfg) (w : World R)
    (hs : w.sm.state = sm_state_t.BOOTSTRAP_WAIT) (hn : w.sm.newlevel ≠ -1) :
    sm_step_table x cfg w =
      World.set_state sm_state_t.RUNNING
        (World.call x (Call.service_step_all svc_mask_t.RESPAWN)
          { World.call x Call.enable_progress_off
              (World.call x (Call.service_step_all svc_mask_t.ANY)
                (World.call x (Call.plugin_run_hooks hook_t.HOOK_SYSTEM_UP)
                  (World.call x Call.cond_set_oneshot_bootstrap
                    (World.call x (Call.service_step_all svc_mask_t.ANY) w)))) with
            bootstrap := false }) := by
  obtain ⟨⟨state, newlevel, reload, teardown⟩, runlevel, prevlevel, bootstrap, reg, trace⟩ := w
  simp only at hs hn
  subst hs
  simp only [sm_step_table, World.call]
  rw [if_neg hn]

/-- Once the bootstrap is over a pass does not return to it. -/
theorem sm_step_table_booted {R : Type} (x : Ext R) (cfg : sm_cfg) (w : World R)
    (h1 : w.sm.state ≠ sm_state_t.BOOTSTRAP) (h2 : w.sm.state ≠ sm_state_t.BOOTSTRAP_WAIT) :
    (sm_step_table x cfg w).sm.state ≠ sm_state_t.BOOTSTRAP ∧
      (sm_step_table x cfg w).sm.state ≠ sm_state_t.BOOTSTRAP_WAIT ∧
      (sm_step_table x cfg w).bootstrap = w.bootstrap := by
  obtain ⟨⟨state, newlevel, reload, teardown⟩, runlevel, prevlevel, bootstrap, reg, trace⟩ := w
  simp only at h1 h2
  cases state <;> first
    | exact absurd rfl h1
    | exact absurd rfl h2
    | (simp only [sm_step_table, World.call, World.set_state, World.set_teardown] <;>
       (try split_ifs) <;> simp)

/-- C11, amended: in BOOTSTRAP_WAIT every call of sm_step first steps all
services and then asserts the one-shot condition int/bootstrap.  With no
target runlevel set these are its only calls and it returns in
BOOTSTRAP_WAIT; with a target runlevel set it goes on to the system-up hooks,
steps all services, disables the progress output, clears `bootstrap`, steps
the respawn services and leaves for RUNNING. -/
theorem sm_step_bootstrap_wait {R : Type} (x : Ext R) (cfg : sm_cfg) (w : World R)
    (hs : w.sm.state = sm_state_t.BOOTSTRAP_WAIT) :
    (w.sm.newlevel = -1 →
      sm_step x cfg w =
        World.call x Call.cond_set_oneshot_bootstrap
          (World.call x (Call.service_step_all svc_mask_t.ANY) w) ∧
      (sm_step x cfg w).sm.state = sm_state_t.BOOTSTRAP_WAIT) ∧
    (w.sm.newlevel ≠ -1 →
      (sm_step x cfg w).sm.state ≠ sm_state_t.BOOTSTRAP_WAIT ∧
      (sm_step x cfg w).bootstrap = false ∧
      ∃ calls : List Seen, ((sm_step x cfg w).trace.map Seen.call) =
        w.trace.map Seen.call ++
          [Call.service_step_all svc_mask_t.ANY, Call.cond_set_oneshot_bootstrap,
           Call.plugin_run_hooks hook_t.HOOK_SYSTEM_UP, Call.service_step_all svc_mask_t.ANY,
           Call.enable_progress_off, Call.service_step_all svc_mask_t.RESPAWN] ++
          calls.map Seen.call) := by
  constructor
  · intro hn
    have e1 := sm_step_table_bootstrap_stay x cfg w hs hn
    have e2 : sm_step x cfg w = sm_step_table x cfg w := by
      rw [sm_step_unfold, if_neg (by rw [e1]; simp [World.call])]
    rw [e2, e1]
    exact ⟨rfl, hs⟩
  · intro hn
    have e1 := sm_step_table_bootstrap_leave x cfg w hs hn
    have e2 : sm_step x cfg w = sm_step x cfg (sm_step_table x cfg w) := by
      rw [sm_step_unfold, if_pos (by rw [e1, hs]; simp [World.set_state])]
    have key := sm_step_induct x cfg
      (fun v => v.sm.state ≠ sm_state_t.BOOTSTRAP ∧ v.sm.state ≠ sm_state_t.BOOTSTRAP_WAIT ∧
        v.bootstrap = false ∧
        ∃ calls : List Seen, v.trace = (sm_step_table x cfg w).trace ++ calls)
      (fun v ⟨a1, a2, a3, calls, a4⟩ => by
        obtain ⟨b1, b2, b3⟩ := sm_step_table_booted x cfg v a1 a2
        obtain ⟨more, hm, -⟩ := sm_step_table_trace x cfg v
        exact ⟨b1, b2, by rw [b3, a3], calls ++ more, by rw [hm, a4, List.append_assoc]⟩)
      (sm_step_table x cfg w)
      ⟨by rw [e1]; simp [World.set_state], by rw [e1]; simp [World.set_state],
        by rw [e1]; rfl, [], by simp⟩
    obtain ⟨-, k2, k3, calls, k4⟩ := key
    rw [e2]
    refine ⟨k2, k3, calls, ?_⟩
    rw [k4, e1]
    simp [World.call, World.set_state]

/-- C11 at a concrete world: BOOTSTRAP_WAIT with level 2 requested. -/
theorem sm_step_bootstrap_wait_witness :
    (sm_step ext_quiet cfg_plain (world_at sm_state_t.BOOTSTRAP_WAIT 2 false)).sm.state
        ≠ sm_state_t.BOOTSTRAP_WAIT ∧
      (sm_step ext_quiet cfg_plain (world_at sm_state_t.BOOTSTRAP_WAIT 2 false)).bootstrap
        = false :=
  have h := (sm_step_bootstrap_wait ext_quiet cfg_plain
    (world_at sm_state_t.BOOTSTRAP_WAIT 2 false) rfl).2 (by decide)
  ⟨h.1, h.2.1⟩

/-! ## C12: the bootstrap watchdog -/

theorem pass_running_disabled (e : Env) (svc : svc_t) (hs : svc.state = svc_state_t.RUNNING)
    (hen : service_enabled e svc = false) :
    service_step_table e svc =
      ⟨stopping_of svc, (service_stop e svc).2 ++ stopping_events svc, false⟩ := by
  have hrow := service_step_table_row e svc
  generalize service_step_table e svc = p at hrow ⊢
  cases hrow <;> simp_all

theorem pass_stopping_stay (e : Env) (svc : svc_t) (hs : svc.state = svc_state_t.STOPPING)
    (hp : svc.pid ≠ 0) : service_step_table e svc = ⟨svc, [], false⟩ := by
  have hrow := service_step_table_row e svc
  generalize service_step_table e svc = p at hrow ⊢
  cases hrow <;> simp_all

/-- A pass that takes a record with a pid into STOPPING ends the step. -/
theorem service_step_into_stopping (e : Env) (svc : svc_t) (ev : List Event)
    (hs : svc.state ≠ svc_state_t.STOPPING) (hp : svc.pid ≠ 0)
    (h : service_step_table e svc = ⟨stopping_of svc, ev, false⟩) :
    service_step e svc = (stopping_of svc, ev) := by
  have h2 := pass_stopping_stay e (stopping_of svc) rfl hp
  have ha : service_step_again svc (service_step_table e svc) = true := by
    rw [h]
    simp only [service_step_again, stopping_of, Bool.not_false, Bool.true_and,
      decide_eq_true_eq]
    exact fun hc => hs hc.symm
  have hb : service_step_again (stopping_of svc) (service_step_table e (stopping_of svc))
      = false := by
    rw [h2]; simp [service_step_again]
  rw [service_step_again_eq e svc ha, h, service_step_stop_eq e (stopping_of svc) hb, h2]
  simp

/-! ## C13: a running service that is no longer enabled -/

/-- C13 fails for the kinds other than SERVICE: a task RUNNING with pid 100
that is not enabled is taken to STOPPING with the kill timer armed, but no
SIGTERM is sent. -/
theorem service_step_running_disabled_counterexample :
    task_stopped_by_hand.state = svc_state_t.RUNNING ∧ 1 < task_stopped_by_hand.pid ∧
      service_enabled env_up task_stopped_by_hand = false ∧
      (service_step env_up task_stopped_by_hand).1.state = svc_state_t.STOPPING ∧
      Event.kill task_stopped_by_hand.pid Signal.SIGTERM
        ∉ (service_step env_up task_stopped_by_hand).2 := by
  decide

/-- C13, amended: for every record in RUNNING with a live pid (> 1) that is
not enabled, service_step arms the 3 s kill timer (stopping a pending timer
first) and returns with the record in STOPPING, nothing else in the record
changed; a record of kind SERVICE is sent SIGTERM before that, a record of
any other kind is sent no signal. -/
theorem service_step_running_disabled (e : Env) (svc : svc_t)
    (hs : svc.state = svc_state_t.RUNNING) (hp : 1 < svc.pid)
    (hen : service_enabled e svc = false) :
    (service_step e svc).1 =
      { svc with state := svc_state_t.STOPPING, timer_cb := some timer_cb_t.service_kill,
                 timer := some 3000 } ∧
    (svc.type = svc_type_t.SERVICE →
      (service_step e svc).2 =
        [Event.kill svc.pid Signal.SIGTERM] ++
          (if svc.timer_cb.isSome then [Event.timer_stop] else []) ++
          [Event.timer_init 3000 timer_cb_t.service_kill]) ∧
    (svc.type ≠ svc_type_t.SERVICE →
      ∀ p s, Event.kill p s ∉ (service_step e svc).2) := by
  have h1 := pass_running_disabled e svc hs hen
  have h2 := service_step_into_stopping e svc _ (by rw [hs]; decide) (by omega) h1
  rw [h2]
  refine ⟨rfl, ?_, ?_⟩
  · intro ht
    have : ¬ svc.pid ≤ 1 := by omega
    simp [service_stop, svc_is_inetd, ht, this, stopping_events]
  · intro ht p s hmem
    simp only [List.mem_append] at hmem
    rcases hmem with h | h
    · rcases service_stop_events e svc _ h with h' | ⟨h', -⟩
      · exact absurd h' (by simp)
      · simp only [service_stop] at h
        split_ifs at h <;> simp_all
    · rcases stopping_events_mem svc _ h with h' | h' <;> exact absurd h' (by simp)

/-- C13 at a concrete record: the running service, blocked by the operator. -/
theorem service_step_running_disabled_witness :
    (service_step env_up svc_stopped_by_hand).2 =
      [Event.kill 100 Signal.SIGTERM, Event.timer_init 3000 timer_cb_t.service_kill] :=
  (service_step_running_disabled env_up svc_stopped_by_hand rfl (by decide) (by decide)).2.1 rfl

/-! ## C14: a daemon that is found dead -/

theorem pass_running_lost_daemon (e : Env) (svc : svc_t)
    (hs : svc.state = svc_state_t.RUNNING) (hen : service_enabled e svc = true)
    (hp : svc.pid = 0) (ht : svc.type = svc_type_t.SERVICE) :
    service_step_table e svc =
      ⟨{ svc with block := svc_block_t.RESTARTING, state := svc_state_t.HALTED,
                  timer_cb := if svc.timer_cb.isSome then svc.timer_cb
                              else some timer_cb_t.service_retry,
                  timer := if svc.timer_cb.isSome then svc.timer else some 1 },
        if svc.timer_cb.isSome then [] else [Event.timer_init 1 timer_cb_t.service_retry],
        false⟩ := by
  have hrow := service_step_table_row e svc
  generalize service_step_table e svc = p at hrow ⊢
  cases hrow <;> simp_all

/-- The whole step on an enabled daemon found dead in RUNNING. -/
theorem service_step_lost_daemon (e : Env) (svc : svc_t)
    (hs : svc.state = svc_state_t.RUNNING) (hen : service_enabled e svc = true)
    (hp : svc.pid = 0) (ht : svc.type = svc_type_t.SERVICE) :
    service_step e svc =
      ({ svc with block := svc_block_t.RESTARTING, state := svc_state_t.HALTED,
                  timer_cb := if svc.timer_cb.isSome then svc.timer_cb
                              else some timer_cb_t.service_retry,
                  timer := if svc.timer_cb.isSome then svc.timer else some 1 },
        if svc.timer_cb.isSome then [] else [Event.timer_init 1 timer_cb_t.service_retry]) := by
  have h1 := pass_running_lost_daemon e svc hs hen hp ht
  have ha : service_step_again svc (service_step_table e svc) = true := by
    rw [h1]; simp [service_step_again, hs]
  rw [service_step_again_eq e svc ha, h1]
  simp only
  rw [service_step_halted_disabled e _ rfl (service_enabled_blocked e _ (by simp))]
  simp

/-- C14 fails when a timer is already registered: the running service found
dead while the 2 s timer of an earlier retry is pending goes to HALTED with
block RESTARTING, but no 1 ms timer is armed; the pending timer stays. -/
theorem service_step_lost_daemon_counterexample :
    svc_lost_retrying.type = svc_type_t.SERVICE ∧
      svc_lost_retrying.state = svc_state_t.RUNNING ∧ svc_lost_retrying.pid = 0 ∧
      service_enabled env_up svc_lost_retrying = true ∧
      Event.timer_init 1 timer_cb_t.service_retry ∉ (service_step env_up svc_lost_retrying).2 ∧
      (service_step env_up svc_lost_retrying).1.timer = some 2000 := by
  decide

/-- C14, amended: for every enabled daemon (kind SERVICE) in RUNNING whose
pid is 0, service_step sets the block reason to RESTARTING, starts no process
and returns with the record in HALTED; if no timer is registered on the
record it schedules service_retry to run in 1 ms, and if one is registered
it arms nothing and leaves that timer as it is. -/
theorem service_step_lost_daemon_retry (e : Env) (svc : svc_t)
    (hs : svc.state = svc_state_t.RUNNING) (hen : service_enabled e svc = true)
    (hp : svc.pid = 0) (ht : svc.type = svc_type_t.SERVICE) :
    (service_step e svc).1.state = svc_state_t.HALTED ∧
    (service_step e svc).1.block = svc_block_t.RESTARTING ∧
    (service_step e svc).1.pid = 0 ∧
    (service_step e svc).1.restart_counter = svc.restart_counter ∧
    (∀ ev ∈ (service_step e svc).2, ev.starts = false) ∧
    (svc.timer_cb = none →
      (service_step e svc).2 = [Event.timer_init 1 timer_cb_t.service_retry] ∧
      (service_step e svc).1.timer_cb = some timer_cb_t.service_retry ∧
      (service_step e svc).1.timer = some 1) ∧
    (svc.timer_cb ≠ none →
      (service_step e svc).2 = [] ∧
      (service_step e svc).1.timer_cb = svc.timer_cb ∧
      (service_step e svc).1.timer = svc.timer) := by
  rw [service_step_lost_daemon e svc hs hen hp ht]
  refine ⟨rfl, rfl, hp, rfl, ?_, ?_, ?_⟩
  · intro ev hev
    split_ifs at hev
    · simp at hev
    · simp only [List.mem_singleton] at hev
      subst hev
      rfl
  · intro hn
    simp [hn]
  · intro hn
    have : svc.timer_cb.isSome = true := by
      cases h : svc.timer_cb
      · exact absurd h hn
      · rfl
    simp [this]

/-- C14 at a concrete record: the running service found dead, no timer
pending. -/
theorem service_step_lost_daemon_retry_witness :
    (service_step env_up svc_lost).1.state = svc_state_t.HALTED ∧
      (service_step env_up svc_lost).1.block = svc_block_t.RESTARTING ∧
      (service_step env_up svc_lost).2 = [Event.timer_init 1 timer_cb_t.service_retry] :=
  have h := service_step_lost_daemon_retry env_up svc_lost rfl (by decide) rfl rfl
  ⟨h.1, h.2.1, (h.2.2.2.2.2.1 rfl).1⟩

/-! ## C15: a one-shot record found with pid 0 in RUNNING -/

theorem pass_running_lost_conn (e : Env) (svc : svc_t)
    (hs : svc.state = svc_state_t.RUNNING) (hen : service_enabled e svc = true)
    (hp : svc.pid = 0) (ht : svc.type = svc_type_t.INETD_CONN) :
    service_step_table e svc = ⟨stopping_of svc, stopping_events svc, false⟩ := by
  have hrow := service_step_table_row e svc
  generalize service_step_table e svc = p at hrow ⊢
  cases hrow <;> simp_all

theorem pass_running_off (e : Env) (svc : svc_t)
    (hs : svc.state = svc_state_t.RUNNING) (hen : service_enabled e svc = true)
    (hp : ¬ (svc.pid = 0 ∧ (svc.type = svc_type_t.SERVICE ∨ svc.type = svc_type_t.INETD_CONN)))
    (hc : e.cond_agg = cond_state_t.OFF) :
    service_step_table e svc =
      ⟨stopping_of svc, (service_stop e svc).2 ++ stopping_events svc, false⟩ := by
  have hrow := service_step_table_row e svc
  generalize service_step_table e svc = p at hrow ⊢
  cases hrow <;> simp_all

theorem pass_stopping_done (e : Env) (svc : svc_t)
    (hs : svc.state = svc_state_t.STOPPING) (hp : svc.pid = 0)
    (ht : svc.type = svc_type_t.INETD_CONN ∨ svc.type = svc_type_t.TASK ∨
      svc.type = svc_type_t.RUN) :
    service_step_table e svc =
      ⟨{ svc with state := svc_state_t.DONE, timer_cb := none,
                  timer := if svc.timer_cb.isSome then none else svc.timer },
        if svc.timer_cb.isSome then [Event.timer_stop] else [], false⟩ := by
  have hrow := service_step_table_row e svc
  generalize service_step_table e svc = p at hrow ⊢
  cases hrow <;> first
    | (simp_all; done)
    | (rcases ht with h | h | h <;> simp_all)

theorem pass_done_unregister (e : Env) (svc : svc_t)
    (hs : svc.state = svc_state_t.DONE) (hi : e.inetd_enabled = true)
    (ht : svc.type = svc_type_t.INETD_CONN) :
    service_step_table e svc =
      ⟨svc, (if e.parent_busy then [Event.parent_step] else []) ++ [Event.unregister], true⟩ := by
  have hrow := service_step_table_row e svc
  generalize service_step_table e svc = p at hrow ⊢
  cases hrow <;> simp_all

theorem pass_done_stay (e : Env) (svc : svc_t)
    (hs : svc.state = svc_state_t.DONE)
    (hi : ¬ (e.inetd_enabled = true ∧ svc.type = svc_type_t.INETD_CONN))
    (hd : svc.dirty = svc_dirty_t.CLEAN) :
    service_step_table e svc = ⟨svc, [], false⟩ := by
  have hrow := service_step_table_row e svc
  generalize service_step_table e svc = p at hrow ⊢
  cases hrow <;> simp_all

/-- C15 fails for tasks: a task that has finished (pid 0) while enabled,
clean and with its condition aggregate ON is left in RUNNING by
service_step. -/
theorem service_step_oneshot_counterexample :
    task_finished.type = svc_type_t.TASK ∧ task_finished.state = svc_state_t.RUNNING ∧
      task_finished.pid = 0 ∧ service_enabled env_up task_finished = true ∧
      (service_step env_up task_finished).1.state = svc_state_t.RUNNING := by
  decide

/-- C15, amended: an enabled inetd connection in RUNNING whose pid is 0 is
moved through STOPPING to DONE, where its record is unregistered, with no
signal sent.  An enabled, clean TASK or RUN record in RUNNING whose pid is 0
is left as it is while its condition aggregate is ON, and is moved through
STOPPING to DONE, with no signal sent, when the aggregate is OFF. -/
theorem service_step_oneshot (e : Env) (svc : svc_t)
    (hs : svc.state = svc_state_t.RUNNING) (hen : service_enabled e svc = true)
    (hp : svc.pid = 0) :
    (svc.type = svc_type_t.INETD_CONN → e.inetd_enabled = true →
      (service_step e svc).1 =
        { svc with state := svc_state_t.DONE, timer_cb := none, timer := none } ∧
      Event.unregister ∈ (service_step e svc).2 ∧
      ∀ p s, Event.kill p s ∉ (service_step e svc).2) ∧
    (svc.type = svc_type_t.TASK ∨ svc.type = svc_type_t.RUN →
      svc.dirty = svc_dirty_t.CLEAN →
      (e.cond_agg = cond_state_t.ON → service_step e svc = (svc, [])) ∧
      (e.cond_agg = cond_state_t.OFF →
        (service_step e svc).1 =
          { svc with state := svc_state_t.DONE, timer_cb := none, timer := none } ∧
        ∀ p s, Event.kill p s ∉ (service_step e svc).2)) := by
  have hstop : ∀ ev, service_step_table e svc = ⟨stopping_of svc, ev, false⟩ →
      (svc.type = svc_type_t.INETD_CONN ∨ svc.type = svc_type_t.TASK ∨
        svc.type = svc_type_t.RUN) →
      ∀ r : svc_t,
        r = { svc with state := svc_state_t.DONE, timer_cb := none, timer := none } →
        service_step e svc =
          ((service_step e r).1, ev ++ [Event.timer_stop] ++ (service_step e r).2) := by
    intro ev h1 ht r hr
    subst hr
    have h2 := pass_stopping_done e (stopping_of svc) rfl hp ht
    have ha : service_step_again svc (service_step_table e svc) = true := by
      rw [h1]; simp [service_step_again, stopping_of, hs]
    have hb : service_step_again (stopping_of svc) (service_step_table e (stopping_of svc))
        = true := by
      rw [h2]; simp [service_step_again, stopping_of]
    rw [service_step_again_eq e svc ha, h1, service_step_again_eq e (stopping_of svc) hb, h2]
    simp [stopping_of]
  refine ⟨fun ht hi => ?_, fun ht hd => ⟨fun hc => ?_, fun hc => ?_⟩⟩
  · have h1 := pass_running_lost_conn e svc hs hen hp ht
    have h3 := pass_done_unregister e
      { svc with state := svc_state_t.DONE, timer_cb := none, timer := none } rfl hi ht
    rw [hstop _ h1 (Or.inl ht) _ rfl, service_step_stop_eq e _ (by rw [h3]; simp [service_step_again]),
      h3]
    refine ⟨rfl, by simp, ?_⟩
    intro p s hmem
    simp only [stopping_events, List.mem_append, List.mem_singleton, List.mem_cons] at hmem
    split_ifs at hmem <;> simp at hmem
  · have hrow := service_step_table_running_clean e svc hs hen
      (by rintro ⟨-, h⟩; rcases ht with h2 | h2 <;> rw [h2] at h <;> exact absurd h (by decide))
      (by rintro ⟨-, h⟩; rcases ht with h2 | h2 <;> rw [h2] at h <;> exact absurd h (by decide))
      hc hd
    rw [service_step_stop_eq e svc (by rw [hrow]; simp [service_step_again]), hrow]
  · have h1 := pass_running_off e svc hs hen
      (by rintro ⟨-, h | h⟩ <;> rcases ht with h2 | h2 <;> rw [h2] at h <;>
        exact absurd h (by decide)) hc
    have h3 := pass_done_stay e
      { svc with state := svc_state_t.DONE, timer_cb := none, timer := none } rfl
      (by rintro ⟨-, h⟩; rcases ht with h2 | h2 <;> simp only [h2] at h <;>
        exact absurd h (by decide)) hd
    rw [hstop _ h1 (Or.inr ht) _ rfl, service_step_stop_eq e _ (by rw [h3]; simp [service_step_again]),
      h3]
    refine ⟨rfl, ?_⟩
    intro p s hmem
    have hst : (service_stop e svc).2 = [] ∨ (service_stop e svc).2 = [Event.inetd_stop] := by
      simp only [service_stop]
      split_ifs <;> simp_all
    simp only [stopping_events, List.mem_append, List.mem_singleton, List.mem_cons] at hmem
    rcases hst with h | h <;> rw [h] at hmem <;> split_ifs at hmem <;> simp at hmem

/-- C15 at a concrete record: the finished task is left alone while its
condition is ON and taken to DONE when the condition is OFF. -/
theorem service_step_oneshot_witness :
    service_step env_up task_finished = (task_finished, []) ∧
      (service_step env_off task_finished).1.state = svc_state_t.DONE :=
  ⟨((service_step_oneshot env_up task_finished rfl (by decide) rfl).2 (Or.inl rfl) rfl).1 rfl,
    congrArg svc_t.state
      (((service_step_oneshot env_off task_finished rfl (by decide) rfl).2
        (Or.inl rfl) rfl).2 rfl).1⟩

/-! ## C16: a start attempt that fails -/

theorem pass_ready_start_failed (e : Env) (svc : svc_t)
    (hs : svc.state = svc_state_t.READY) (hen : service_enabled e svc = true)
    (hc : e.cond_agg = cond_state_t.ON) (htd : e.in_teardown = false)
    (hr : (service_start e svc).2.1 ≠ 0) (ht : svc.type ≠ svc_type_t.INETD_CONN) :
    service_step_table e svc =
      ⟨{ (service_start e svc).1 with
          restart_counter := (service_start e svc).1.restart_counter + 1 },
        (service_start e svc).2.2, false⟩ := by
  have hrow := service_step_table_row e svc
  generalize service_step_table e svc = p at hrow ⊢
  cases hrow <;> simp_all

/-- The whole step on a READY record whose start attempt fails: the one
pass that makes the attempt and counts it. -/
theorem service_step_ready_failed (e : Env) (svc : svc_t)
    (hs : svc.state = svc_state_t.READY) (hen : service_enabled e svc = true)
    (hc : e.cond_agg = cond_state_t.ON) (htd : e.in_teardown = false)
    (hr : (service_start e svc).2.1 ≠ 0) (ht : svc.type ≠ svc_type_t.INETD_CONN) :
    service_step e svc =
      ({ (service_start e svc).1 with
          restart_counter := (service_start e svc).1.restart_counter + 1 },
        (service_start e svc).2.2) := by
  have h1 := pass_ready_start_failed e svc hs hen hc htd hr ht
  obtain ⟨f1, -⟩ := service_start_frame e svc
  have hb : service_step_again svc (service_step_table e svc) = false := by
    rw [h1]; simp [service_step_again, f1]
  rw [service_step_stop_eq e svc hb, h1]

/-- A READY record that is not enabled is halted by the step, with no
event. -/
theorem service_step_ready_disabled (e : Env) (svc : svc_t)
    (hs : svc.state = svc_state_t.READY) (hen : service_enabled e svc = false) :
    service_step e svc = ({ svc with state := svc_state_t.HALTED }, []) := by
  have h1 : service_step_table e svc = ⟨{ svc with state := svc_state_t.HALTED }, [], false⟩ := by
    simp [service_step_table, hs, hen, Pass.brk, svc_set_state]
  have hen2 : service_enabled e { svc with state := svc_state_t.HALTED } = false := by
    rw [← hen]
    exact service_enabled_congr e _ _ rfl rfl rfl
  rw [service_step_again_eq e svc (by rw [h1]; simp [service_step_again, hs]), h1,
    service_step_halted_disabled e _ rfl hen2]
  rfl

/-- Where a failed start leaves the block reason: MISSING when the command
does not exist, and as it was otherwise. -/
theorem service_start_block_failed (e : Env) (svc : svc_t) :
    (e.fexist_cmd = false ∧ svc.inetd_cmd = false →
      (service_start e svc).1.block = svc_block_t.MISSING) ∧
    (¬ (e.fexist_cmd = false ∧ svc.inetd_cmd = false) →
      (service_start e svc).1.block = svc.block) := by
  simp only [service_start]
  constructor
  · rintro ⟨h1, h2⟩
    simp [h1, h2, svc_missing]
  · intro h
    split_ifs with c1 <;> simp_all [svc_missing, svc_starting]

/-- C16 fails: with respawning suspended the start attempt on the READY
sample service fails; service_step counts it and returns with the record
still in READY, not HALTED, and with no timer registered. -/
theorem service_step_start_failed_counterexample :
    svc_ready.state = svc_state_t.READY ∧ service_enabled env_norespawn svc_ready = true ∧
      env_norespawn.cond_agg = cond_state_t.ON ∧ env_norespawn.in_teardown = false ∧
      (service_start env_norespawn svc_ready).2.1 ≠ 0 ∧
      (service_step env_norespawn svc_ready).1.restart_counter = 1 ∧
      (service_step env_norespawn svc_ready).1.state = svc_state_t.READY ∧
      (service_step env_norespawn svc_ready).1.timer_cb = none := by
  decide

/-- C16, amended: for every enabled record of a kind other than INETD_CONN
in READY with condition aggregate ON outside teardown whose start attempt
fails, with restart_counter below INT_MAX, service_step runs the one
attempt, increments restart_counter by exactly one and returns with the
record still in READY; it arms no timer and leaves the timer fields alone.
What follows is left to the next service_step, not to a timer: when the
command is missing the failed attempt has blocked the record as MISSING, and
the next service_step halts it with no start and no other event; in every
other case the next service_step in the same environment finds the record as
before, makes one start attempt again, which fails again, and leaves the
record in READY, the counter one higher still while it is below INT_MAX. -/
theorem service_step_start_failed (e : Env) (svc : svc_t)
    (hs : svc.state = svc_state_t.READY) (hen : service_enabled e svc = true)
    (hc : e.cond_agg = cond_state_t.ON) (htd : e.in_teardown = false)
    (hr : (service_start e svc).2.1 ≠ 0) (ht : svc.type ≠ svc_type_t.INETD_CONN)
    (hmax : svc.restart_counter < INT_MAX) :
    (service_step e svc).1.restart_counter = svc.restart_counter + 1 ∧
    (service_step e svc).1.restart_counter ≤ INT_MAX ∧
    (service_step e svc).1.state = svc_state_t.READY ∧
    (service_step e svc).1.timer_cb = svc.timer_cb ∧
    (service_step e svc).1.timer = svc.timer ∧
    (service_step e svc).2 = (service_start e svc).2.2 ∧
    (service_step e svc).2.count Event.service_start = 1 ∧
    (∀ ev ∈ (service_step e svc).2, ev.arms = false) ∧
    (e.fexist_cmd = false ∧ svc.inetd_cmd = false →
      (service_step e svc).1.block = svc_block_t.MISSING ∧
      service_step e (service_step e svc).1 =
        ({ (service_step e svc).1 with state := svc_state_t.HALTED }, [])) ∧
    (¬ (e.fexist_cmd = false ∧ svc.inetd_cmd = false) →
      (service_step e svc).1.block = svc.block ∧
      (service_step e (service_step e svc).1).2.count Event.service_start = 1 ∧
      (service_start e (service_step e svc).1).2.1 ≠ 0 ∧
      (service_step e (service_step e svc).1).1.state = svc_state_t.READY ∧
      (svc.restart_counter + 1 < INT_MAX →
        (service_step e (service_step e svc).1).1.restart_counter =
          svc.restart_counter + 2)) := by
  have h1 := service_step_ready_failed e svc hs hen hc htd hr ht
  obtain ⟨f1, f2, f3, f4, f5, f6, f7, -, f9⟩ := service_start_frame e svc
  obtain ⟨b1, b2⟩ := service_start_block_failed e svc
  have hcount : ∀ r : svc_t, (service_start e r).2.2.count Event.service_start = 1 := by
    intro r
    simp only [service_start]
    split_ifs <;> simp
  obtain ⟨s1, hs1⟩ : ∃ s1 : svc_t, s1 = { (service_start e svc).1 with
      restart_counter := (service_start e svc).1.restart_counter + 1 } := ⟨_, rfl⟩
  rw [← hs1] at h1
  have p1 : s1.state = svc_state_t.READY := by rw [hs1]; exact f1.trans hs
  have p2 : s1.type = svc.type := by rw [hs1]; exact f2
  have p3 : s1.dirty = svc.dirty := by rw [hs1]; exact f3
  have p4 : s1.runlevels = svc.runlevels := by rw [hs1]; exact f4
  have p5 : s1.restart_counter = svc.restart_counter + 1 := by rw [hs1]; simp [f5]
  have p6 : s1.timer_cb = svc.timer_cb := by rw [hs1]; exact f6
  have p7 : s1.timer = svc.timer := by rw [hs1]; exact f7
  have p9 : s1.inetd_cmd = svc.inetd_cmd := by rw [hs1]; exact f9
  have pb : s1.block = (service_start e svc).1.block := by rw [hs1]
  rw [h1]
  refine ⟨p5, by rw [p5]; omega, p1, p6, p7, rfl, hcount svc, service_start_no_arm e svc, ?_, ?_⟩
  · intro hm
    refine ⟨pb.trans (b1 hm), ?_⟩
    exact service_step_ready_disabled e s1 p1
      (service_enabled_blocked e s1 (by rw [pb, b1 hm]; decide))
  · intro hm
    have hen2 : service_enabled e s1 = true := by
      rw [← hen]
      exact service_enabled_congr e _ _ p4 p3 (pb.trans (b2 hm))
    have hr2 : (service_start e s1).2.1 ≠ 0 := by
      intro h0
      apply hr
      rw [service_start_result_iff] at h0 ⊢
      exact (start_succeeds_congr e _ _ p2 p9).mp h0
    have h2 := service_step_ready_failed e s1 p1 hen2 hc htd hr2 (by rw [p2]; exact ht)
    obtain ⟨g1, -, -, -, g5, -⟩ := service_start_frame e s1
    rw [h2]
    refine ⟨pb.trans (b2 hm), hcount s1, hr2, g1.trans p1, fun _ => ?_⟩
    show (service_start e s1).1.restart_counter + 1 = svc.restart_counter + 2
    rw [g5, p5]
    omega

/-- C16, amended, at concrete records: the READY sample service with
respawning suspended is counted and stays READY, and so it is at the next
step; with its command missing it is halted by the next step. -/
theorem service_step_start_failed_witness :
    (service_step env_norespawn svc_ready).1.restart_counter = 1 ∧
      (service_step env_norespawn svc_ready).1.state = svc_state_t.READY ∧
      (service_step env_norespawn (service_step env_norespawn svc_ready).1).1.restart_counter
        = 2 ∧
      (service_step env_missing (service_step env_missing svc_ready).1).1.state
        = svc_state_t.HALTED :=
  have h := service_step_start_failed env_norespawn svc_ready rfl (by decide) rfl rfl
    (by decide) (by decide) (by decide)
  have g := service_step_start_failed env_missing svc_ready rfl (by decide) rfl rfl
    (by decide) (by decide) (by decide)
  ⟨h.1, h.2.2.1, (h.2.2.2.2.2.2.2.2.2 (by decide)).2.2.2.2 (by decide),
    by rw [(g.2.2.2.2.2.2.2.2.1 (by decide)).2]⟩

/-! ## C17: a condition that goes through FLUX to OFF -/

theorem pass_running_flux (e : Env) (svc : svc_t)
    (hs : svc.state = svc_state_t.RUNNING) (hen : service_enabled e svc = true)
    (hp : svc.pid ≠ 0) (hc : e.cond_agg = cond_state_t.FLUX) :
    service_step_table e svc =
      ⟨{ svc with state := svc_state_t.WAITING }, [Event.kill svc.pid Signal.SIGSTOP], false⟩ := by
  have hrow := service_step_table_row e svc
  generalize service_step_table e svc = p at hrow ⊢
  cases hrow <;> simp_all

theorem pass_waiting_flux (e : Env) (svc : svc_t)
    (hs : svc.state = svc_state_t.WAITING) (hen : service_enabled e svc = true)
    (hp : svc.pid ≠ 0) (hc : e.cond_agg = cond_state_t.FLUX) :
    service_step_table e svc = ⟨svc, [], false⟩ := by
  have hrow := service_step_table_row e svc
  generalize service_step_table e svc = p at hrow ⊢
  cases hrow <;> simp_all

theorem pass_waiting_off (e : Env) (svc : svc_t)
    (hs : svc.state = svc_state_t.WAITING) (hen : service_enabled e svc = true)
    (hp : svc.pid ≠ 0) (hc : e.cond_agg = cond_state_t.OFF) :
    service_step_table e svc =
      ⟨stopping_of svc,
        [Event.kill svc.pid Signal.SIGCONT] ++ (service_stop e svc).2 ++ stopping_events svc,
        false⟩ := by
  have hrow := service_step_table_row e svc
  generalize service_step_table e svc = p at hrow ⊢
  cases hrow <;> simp_all

theorem pass_stopping_halted (e : Env) (svc : svc_t)
    (hs : svc.state = svc_state_t.STOPPING) (hp : svc.pid = 0)
    (ht : svc.type = svc_type_t.SERVICE) :
    service_step_table e svc =
      ⟨{ svc with state := svc_state_t.HALTED, timer_cb := none,
                  timer := if svc.timer_cb.isSome then none else svc.timer },
        if svc.timer_cb.isSome then [Event.timer_stop] else [], false⟩ := by
  have hrow := service_step_table_row e svc
  generalize service_step_table e svc = p at hrow ⊢
  cases hrow <;> simp_all

theorem pass_halted_ready (e : Env) (svc : svc_t)
    (hs : svc.state = svc_state_t.HALTED) (hen : service_enabled e svc = true) :
    service_step_table e svc = ⟨{ svc with state := svc_state_t.READY }, [], false⟩ := by
  have hrow := service_step_table_row e svc
  generalize service_step_table e svc = p at hrow ⊢
  cases hrow <;> simp_all

theorem pass_ready_cond (e : Env) (svc : svc_t)
    (hs : svc.state = svc_state_t.READY) (hen : service_enabled e svc = true)
    (hc : e.cond_agg ≠ cond_state_t.ON) :
    service_step_table e svc = ⟨svc, [], false⟩ := by
  have hrow := service_step_table_row e svc
  generalize service_step_table e svc = p at hrow ⊢
  cases hrow <;> simp_all

/-- A halted record that is enabled while its condition is not ON is made
READY and waits there. -/
theorem service_step_halted_waits (e : Env) (svc : svc_t)
    (hs : svc.state = svc_state_t.HALTED) (hen : service_enabled e svc = true)
    (hc : e.cond_agg ≠ cond_state_t.ON) :
    service_step e svc = ({ svc with state := svc_state_t.READY }, []) := by
  have h1 := pass_halted_ready e svc hs hen
  have h2 := pass_ready_cond e { svc with state := svc_state_t.READY } rfl
    (by rw [← hen]; exact service_enabled_congr e _ _ rfl rfl rfl) hc
  have ha : service_step_again svc (service_step_table e svc) = true := by
    rw [h1]; simp [service_step_again, hs]
  rw [service_step_again_eq e svc ha, h1, service_step_stop_eq e _
    (by rw [h2]; simp [service_step_again]), h2]
  simp

/-- C17 fails in its last part: the sample service is stopped by FLUX, sent
SIGCONT and SIGTERM on OFF, and once its pid is collected, the service being
still enabled, the step passes HALTED and returns in READY. -/
theorem service_step_cond_flux_counterexample :
    (service_step env_flux svc_running).1.state = svc_state_t.WAITING ∧
      (service_step env_off (service_step env_flux svc_running).1).1.state
        = svc_state_t.STOPPING ∧
      service_enabled env_off
        (service_step env_off (service_step env_flux svc_running).1).1 = true ∧
      (service_monitor env_off
        (service_step env_off (service_step env_flux svc_running).1).1).1.state
        = svc_state_t.READY := by
  decide

/-- C17, amended: for an enabled SERVICE in RUNNING with a live pid, a
service_step taken while the aggregate is FLUX sends only SIGSTOP and returns
in WAITING; a following service_step taken while the aggregate is OFF sends
SIGCONT and then SIGTERM, arms the kill timer and returns in STOPPING; the
service_step taken once the pid has been collected stops that timer, sends
nothing, and returns in READY if the service is still enabled and its
aggregate is not ON, and in HALTED if the service is no longer enabled. -/
theorem service_step_cond_flux (e1 e2 e3 : Env) (svc : svc_t)
    (ht : svc.type = svc_type_t.SERVICE) (hs : svc.state = svc_state_t.RUNNING)
    (hp : 1 < svc.pid)
    (hen1 : service_enabled e1 svc = true) (hc1 : e1.cond_agg = cond_state_t.FLUX)
    (hen2 : service_enabled e2 svc = true) (hc2 : e2.cond_agg = cond_state_t.OFF) :
    service_step e1 svc =
      ({ svc with state := svc_state_t.WAITING }, [Event.kill svc.pid Signal.SIGSTOP]) ∧
    service_step e2 (service_step e1 svc).1 =
      ({ svc with state := svc_state_t.STOPPING, timer_cb := some timer_cb_t.service_kill,
                  timer := some 3000 },
        [Event.kill svc.pid Signal.SIGCONT, Event.kill svc.pid Signal.SIGTERM] ++
          (if svc.timer_cb.isSome then [Event.timer_stop] else []) ++
          [Event.timer_init 3000 timer_cb_t.service_kill]) ∧
    (service_enabled e3 svc = true → e3.cond_agg ≠ cond_state_t.ON →
      service_monitor e3 (service_step e2 (service_step e1 svc).1).1 =
        ({ svc with state := svc_state_t.READY, pid := 0, timer_cb := none, timer := none },
          [Event.timer_stop])) ∧
    (service_enabled e3 svc = false →
      service_monitor e3 (service_step e2 (service_step e1 svc).1).1 =
        ({ svc with state := svc_state_t.HALTED, pid := 0, timer_cb := none, timer := none },
          [Event.timer_stop])) := by
  have hp0 : svc.pid ≠ 0 := by omega
  have s1 : service_step e1 svc =
      ({ svc with state := svc_state_t.WAITING }, [Event.kill svc.pid Signal.SIGSTOP]) := by
    have h1 := pass_running_flux e1 svc hs hen1 hp0 hc1
    have h2 := pass_waiting_flux e1 { svc with state := svc_state_t.WAITING } rfl
      (by rw [← hen1]; exact service_enabled_congr e1 _ _ rfl rfl rfl) hp0 hc1
    have ha : service_step_again svc (service_step_table e1 svc) = true := by
      rw [h1]; simp [service_step_again, hs]
    rw [service_step_again_eq e1 svc ha, h1, service_step_stop_eq e1 _
      (by rw [h2]; simp [service_step_again]), h2]
    simp
  have s2 : service_step e2 { svc with state := svc_state_t.WAITING } =
      (stopping_of svc,
        [Event.kill svc.pid Signal.SIGCONT, Event.kill svc.pid Signal.SIGTERM] ++
          (if svc.timer_cb.isSome then [Event.timer_stop] else []) ++
          [Event.timer_init 3000 timer_cb_t.service_kill]) := by
    have h1 := pass_waiting_off e2 { svc with state := svc_state_t.WAITING } rfl
      (by rw [← hen2]; exact service_enabled_congr e2 _ _ rfl rfl rfl) hp0 hc2
    have h2 := service_step_into_stopping e2 { svc with state := svc_state_t.WAITING } _
      (by simp) hp0 h1
    rw [h2]
    have : ¬ svc.pid ≤ 1 := by omega
    simp [stopping_of, service_stop, svc_is_inetd, ht, this, stopping_events]
  have s3 : service_step_table e3 { stopping_of svc with pid := 0 } =
      ⟨{ svc with state := svc_state_t.HALTED, pid := 0, timer_cb := none, timer := none },
        [Event.timer_stop], false⟩ := by
    rw [pass_stopping_halted e3 { stopping_of svc with pid := 0 } rfl rfl ht]
    simp [stopping_of]
  have ha3 : service_step_again { stopping_of svc with pid := 0 }
      (service_step_table e3 { stopping_of svc with pid := 0 }) = true := by
    rw [s3]; simp [service_step_again, stopping_of]
  refine ⟨s1, ?_, ?_, ?_⟩
  · rw [s1, s2]; rfl
  · intro hen3 hc3
    rw [s1, s2]
    show service_step e3 { stopping_of svc with pid := 0 } = _
    rw [service_step_again_eq e3 _ ha3, s3, service_step_halted_waits e3 _ rfl
      (by rw [← hen3]; exact service_enabled_congr e3 _ _ rfl rfl rfl) hc3]
    simp
  · intro hen3
    rw [s1, s2]
    show service_step e3 { stopping_of svc with pid := 0 } = _
    rw [service_step_again_eq e3 _ ha3, s3, service_step_halted_disabled e3 _ rfl
      (by rw [← hen3]; exact service_enabled_congr e3 _ _ rfl rfl rfl)]
    simp

/-- C17 at a concrete record: the sample service with its condition going
through FLUX to OFF. -/
theorem service_step_cond_flux_witness :
    service_step env_flux svc_running =
      ({ svc_running with state := svc_state_t.WAITING }, [Event.kill 100 Signal.SIGSTOP]) :=
  (service_step_cond_flux env_flux env_off env_off svc_running rfl rfl (by decide) (by decide)
    rfl (by decide) rfl).1

/-! ## C18: forwarding SIGHUP -/

theorem service_stop_no_sighup (e : Env) (svc : svc_t) :
    ∀ ev ∈ (service_stop e svc).2, ev.sighup = false := by
  intro ev hev
  rcases service_stop_events e svc ev hev with h | ⟨h, _⟩ <;> subst h <;> rfl

theorem stopping_events_no_sighup (svc : svc_t) :
    ∀ ev ∈ stopping_events svc, ev.sighup = false := by
  intro ev hev
  rcases stopping_events_mem svc ev hev with h | h <;> subst h <;> rfl

theorem service_start_no_sighup (e : Env) (svc : svc_t) :
    ∀ ev ∈ (service_start e svc).2.2, ev.sighup = false := by
  intro ev hev
  rcases service_start_events e svc ev hev with h | h | h | h | h <;> subst h <;> rfl

set_option maxHeartbeats 1000000 in
/-- A pass sends SIGHUP only from the row of RUNNING for a changed record
with sighup set, and to the pid of the record. -/
theorem sighup_pass_events (e : Env) (svc : svc_t) :
    ∀ ev ∈ (service_step_table e svc).ev, ev.sighup = true →
      svc.state = svc_state_t.RUNNING ∧ service_enabled e svc = true ∧
        e.cond_agg = cond_state_t.ON ∧ svc.dirty ≠ svc_dirty_t.CLEAN ∧ svc.sighup = true ∧
        e.in_teardown = false ∧ ev = Event.kill svc.pid Signal.SIGHUP ∧ 1 < svc.pid := by
  have hrow := service_step_table_row e svc
  generalize service_step_table e svc = p at hrow
  have h1 := service_stop_no_sighup e svc
  have h2 := service_restart_events e svc
  have h3 := stopping_events_no_sighup svc
  have h4 := service_start_no_sighup e svc
  have h5 : (Event.kill svc.pid Signal.SIGSTOP).sighup = false := rfl
  have h6 : (Event.kill svc.pid Signal.SIGCONT).sighup = false := rfl
  have h7 : Event.timer_stop.sighup = false := rfl
  have h8 : (Event.timer_init 1 timer_cb_t.service_retry).sighup = false := rfl
  have h9 : Event.parent_step.sighup = false := rfl
  have h10 : Event.unregister.sighup = false := rfl
  cases hrow
  case running_sighup hs hen hp hc hd hh htd =>
    intro ev hev _
    obtain ⟨a, b⟩ := h2 ev hev
    exact ⟨hs, hen, hc, hd, hh, htd, a, b⟩
  all_goals
    clear h2
    simp only [List.mem_append, List.mem_singleton, List.not_mem_nil]
    (try split_ifs) <;> aesop

/-- A pass does not make a record due for SIGHUP that was not due before,
and leaves the pid of a record that is due alone. -/
theorem sighup_pass_due (e : Env) (svc : svc_t)
    (h : sighup_due e (service_step_table e svc).svc) :
    sighup_due e svc ∧ (service_step_table e svc).svc.pid = svc.pid := by
  have hfr := service_start_frame e svc
  have hrf := service_restart_frame e svc
  have hrow := service_step_table_row e svc
  generalize service_step_table e svc = p at hrow h
  cases hrow <;> simp_all [sighup_due, stopping_of]

/-- C18 fails for a record that is not RUNNING when service_step is called:
the changed sample service, WAITING with its condition back ON, is resumed
with SIGCONT and sent SIGHUP by one and the same call. -/
theorem sighup_only_when_changed_counterexample :
    svc_stopped_changed.state = svc_state_t.WAITING ∧
      (service_step env_up svc_stopped_changed).2 =
        [Event.kill 100 Signal.SIGCONT, Event.kill 100 Signal.SIGHUP] ∧
      (service_step env_up svc_stopped_changed).1.state = svc_state_t.RUNNING := by
  decide

/-- A SIGHUP sent anywhere in a call of service_step goes to the pid that
the record had on entry, and the record was due for it on entry. -/
theorem sighup_step_due (e : Env) (svc : svc_t) :
    ∀ ev ∈ (service_step e svc).2, ev.sighup = true →
      sighup_due e svc ∧ ev = Event.kill svc.pid Signal.SIGHUP := by
  have key := service_step_induct e
    (fun r => sighup_due e r → sighup_due e svc ∧ r.pid = svc.pid) (fun _ => True)
    (fun ev => ev.sighup = true → sighup_due e svc ∧ ev = Event.kill svc.pid Signal.SIGHUP)
    (fun r hP => by
      refine ⟨fun ev hev hs => ?_, fun _ hdue => ?_, fun _ => trivial⟩
      · obtain ⟨a1, a2, a3, a4, a5, a6, a7, -⟩ := sighup_pass_events e r ev hev hs
        obtain ⟨b1, b2⟩ := hP ⟨Or.inl a1, a2, a3, a4, a5, a6⟩
        exact ⟨b1, by rw [a7, b2]⟩
      · obtain ⟨c1, c2⟩ := sighup_pass_due e r hdue
        obtain ⟨b1, b2⟩ := hP c1
        exact ⟨b1, by rw [c2, b2]⟩)
    svc (fun h => ⟨h, rfl⟩)
  exact key.2

/-- The pass that takes a WAITING record to RUNNING resumes it with SIGCONT
and does nothing else. -/
theorem pass_waiting_resumed (e : Env) (svc : svc_t) (hs : svc.state = svc_state_t.WAITING)
    (h : (service_step_table e svc).svc.state = svc_state_t.RUNNING) :
    (service_step_table e svc).ev = [Event.kill svc.pid Signal.SIGCONT] := by
  have hrow := service_step_table_row e svc
  generalize service_step_table e svc = p at hrow h ⊢
  cases hrow <;> simp_all [stopping_of]

/-- A WAITING record that is sent SIGHUP by a call of service_step has been
resumed with SIGCONT first, by the same call. -/
theorem sighup_after_sigcont (e : Env) (svc : svc_t) (hs : svc.state = svc_state_t.WAITING) :
    ∀ ev ∈ (service_step e svc).2, ev.sighup = true →
      ∃ rest, (service_step e svc).2 = Event.kill svc.pid Signal.SIGCONT :: rest := by
  intro ev hev hsig
  have hnot : ∀ ev ∈ (service_step_table e svc).ev, ev.sighup = true → False := by
    intro ev1 h1 h2
    obtain ⟨a1, -⟩ := sighup_pass_events e svc ev1 h1 h2
    rw [hs] at a1
    exact absurd a1 (by decide)
  cases hag : service_step_again svc (service_step_table e svc) with
  | false =>
    rw [service_step_stop_eq e svc hag] at hev
    exact absurd (hnot ev hev hsig) id
  | true =>
    rw [service_step_again_eq e svc hag] at hev ⊢
    rcases List.mem_append.mp hev with h | h
    · exact absurd (hnot ev h hsig) id
    · obtain ⟨⟨d1, -⟩, -⟩ := sighup_step_due e _ ev h hsig
      have hne : (service_step_table e svc).svc.state ≠ svc.state := by
        simp only [service_step_again, Bool.and_eq_true, decide_eq_true_eq] at hag
        exact hag.2
      have hrun : (service_step_table e svc).svc.state = svc_state_t.RUNNING := by
        rcases d1 with d1 | d1
        · exact d1
        · exact absurd (d1.trans hs.symm) hne
      rw [pass_waiting_resumed e svc hs hrun]
      exact ⟨_, rfl⟩

/-- C18, amended: service_step sends SIGHUP only from the RUNNING case of
its table: at the pass that sends it the record is RUNNING, enabled, marked
changed and has sighup set, while the condition aggregate is ON, and the
signal goes to the pid of that record.  The record given to the call is then
enabled, changed and has sighup set, with the aggregate ON, and is RUNNING
or else WAITING, and in that case the same call has first resumed it with
SIGCONT.  In particular an enabled RUNNING service with sighup set,
aggregate ON, a live pid and a CLEAN marker is sent no signal and is left
exactly as it was. -/
theorem sighup_only_when_changed (e : Env) (svc : svc_t) :
    (∀ ev ∈ (service_step_table e svc).ev, ev.sighup = true →
      svc.state = svc_state_t.RUNNING ∧ service_enabled e svc = true ∧
        e.cond_agg = cond_state_t.ON ∧ svc.dirty ≠ svc_dirty_t.CLEAN ∧ svc.sighup = true ∧
        ev = Event.kill svc.pid Signal.SIGHUP) ∧
    (∀ ev ∈ (service_step e svc).2, ev.sighup = true →
      (svc.state = svc_state_t.RUNNING ∨ svc.state = svc_state_t.WAITING) ∧
        service_enabled e svc = true ∧ e.cond_agg = cond_state_t.ON ∧
        svc.dirty ≠ svc_dirty_t.CLEAN ∧ svc.sighup = true ∧
        ev = Event.kill svc.pid Signal.SIGHUP ∧
        (svc.state = svc_state_t.WAITING →
          ∃ rest, (service_step e svc).2 = Event.kill svc.pid Signal.SIGCONT :: rest)) ∧
    (svc.state = svc_state_t.RUNNING → service_enabled e svc = true → svc.sighup = true →
      e.cond_agg = cond_state_t.ON → 1 < svc.pid → svc.dirty = svc_dirty_t.CLEAN →
      service_step e svc = (svc, [])) := by
  refine ⟨?_, ?_, ?_⟩
  · intro ev hev hs
    obtain ⟨a1, a2, a3, a4, a5, -, a7, -⟩ := sighup_pass_events e svc ev hev hs
    exact ⟨a1, a2, a3, a4, a5, a7⟩
  · intro ev hev hs
    obtain ⟨⟨d1, d2, d3, d4, d5, -⟩, d7⟩ := sighup_step_due e svc ev hev hs
    exact ⟨d1, d2, d3, d4, d5, d7, fun hw => sighup_after_sigcont e svc hw ev hev hs⟩
  · intro hs hen _ hc hp hd
    have hrow := service_step_table_running_clean e svc hs hen
      (by rintro ⟨h, -⟩; omega) (by rintro ⟨h, -⟩; omega) hc hd
    rw [service_step_stop_eq e svc (by rw [hrow]; simp [service_step_again]), hrow]

/-- C18, amended, at concrete records: the changed sample service is sent
SIGHUP, the clean one is left as it was. -/
theorem sighup_only_when_changed_witness :
    Event.kill 100 Signal.SIGHUP ∈ (service_step env_up svc_changed).2 ∧
      service_step env_up svc_running = (svc_running, []) :=
  ⟨by decide,
    (sighup_only_when_changed env_up svc_running).2.2 rfl (by decide) rfl rfl (by decide) rfl⟩

/-! ## C19: one timer per service -/

/-- C19: a record has one timer slot.  service_timeout_after on a record
with a callback registered returns -EBUSY, arms nothing and leaves the
record as it is; on a record without one it registers the callback and arms
the timer.  service_timeout_cancel leaves no callback registered; on a record
without a callback, so also when called a second time, it returns 0, stops
nothing and leaves the record as it is. -/
theorem service_timer_single (e : Env) (svc : svc_t) (timeout : Nat) (cb : timer_cb_t) :
    (svc.timer_cb ≠ none → service_timeout_after e svc timeout cb = (svc, -EBUSY, [])) ∧
    (svc.timer_cb = none →
      (service_timeout_after e svc timeout cb).1 =
        { svc with timer_cb := some cb, timer := some timeout } ∧
      (service_timeout_after e svc timeout cb).2.2 = [Event.timer_init timeout cb]) ∧
    (service_timeout_cancel e svc).1.timer_cb = none ∧
    (svc.timer_cb ≠ none → (service_timeout_cancel e svc).2.2 = [Event.timer_stop]) ∧
    (svc.timer_cb = none → service_timeout_cancel e svc = (svc, 0, [])) ∧
    service_timeout_cancel e (service_timeout_cancel e svc).1 =
      ((service_timeout_cancel e svc).1, 0, []) := by
  cases h : svc.timer_cb <;> simp [service_timeout_after, service_timeout_cancel, h]

/-- C19 at a concrete record: arming the kill timer on the record whose
retry timer is pending. -/
theorem service_timer_single_witness :
    service_timeout_after env_up svc_lost_retrying 3000 timer_cb_t.service_kill
      = (svc_lost_retrying, -16, []) :=
  (service_timer_single env_up svc_lost_retrying 3000 timer_cb_t.service_kill).1 (by decide)

/-! ## C20: the counter and the block reason RESTARTING -/

theorem service_start_block_cases (e : Env) (svc : svc_t) :
    (service_start e svc).1.block = svc.block ∨
      (service_start e svc).1.block = svc_block_t.MISSING := by
  simp only [service_start]
  split_ifs <;> simp [svc_missing, svc_starting]

/-- A pass never lowers the counter and never sets the block reason
CRASHING. -/
theorem counter_block_pass (e : Env) (svc : svc_t) :
    svc.restart_counter ≤ (service_step_table e svc).svc.restart_counter ∧
    (svc.block ≠ svc_block_t.CRASHING →
      (service_step_table e svc).svc.block ≠ svc_block_t.CRASHING) := by
  have hfr := service_start_frame e svc
  have hsb := service_start_block_cases e svc
  have hrf := service_restart_frame e svc
  have hrow := service_step_table_row e svc
  generalize service_step_table e svc = p at hrow
  cases hrow <;> simp_all [stopping_of] <;> (try omega) <;>
    (rcases hsb with h | h <;> simp_all)

/-- A whole service_step never lowers the counter and never sets the block
reason CRASHING. -/
theorem service_step_counter_block (e : Env) (svc : svc_t) :
    svc.restart_counter ≤ (service_step e svc).1.restart_counter ∧
    (svc.block ≠ svc_block_t.CRASHING → (service_step e svc).1.block ≠ svc_block_t.CRASHING) := by
  have key := service_step_induct e
    (fun r => svc.restart_counter ≤ r.restart_counter ∧
      (svc.block ≠ svc_block_t.CRASHING → r.block ≠ svc_block_t.CRASHING))
    (fun r => svc.restart_counter ≤ r.restart_counter ∧
      (svc.block ≠ svc_block_t.CRASHING → r.block ≠ svc_block_t.CRASHING))
    (fun _ => True)
    (fun r hP => by
      obtain ⟨a1, a2⟩ := counter_block_pass e r
      exact ⟨fun _ _ => trivial, fun _ => ⟨le_trans hP.1 a1, fun h => a2 (hP.2 h)⟩,
        fun _ => ⟨le_trans hP.1 a1, fun h => a2 (hP.2 h)⟩⟩)
    svc ⟨le_refl _, fun h => h⟩
  exact key.1

/-- C20 fails: the retry of the halted sample service, blocked as
RESTARTING with the counter at 0, unblocks it and starts it; the block reason
is NONE on return and restart_counter is 1. -/
theorem restart_counter_reset_counterexample :
    svc_crashed.block = svc_block_t.RESTARTING ∧
      (service_retry env_up svc_crashed).1.block = svc_block_t.NONE ∧
      (service_retry env_up svc_crashed).1.restart_counter = 1 := by
  decide

/-- C20, amended: service_step never changes a block reason of RESTARTING.
When service_retry changes it to CRASHING, the respawn budget being used up,
restart_counter is 0 on return; when service_retry changes it to any other
value, by unblocking the record for one more start attempt, restart_counter
is not reset but raised by at least one. -/
theorem restart_counter_reset (e : Env) (svc : svc_t)
    (hb : svc.block = svc_block_t.RESTARTING) :
    (service_step e svc).1.block = svc_block_t.RESTARTING ∧
    ((service_retry e svc).1.block = svc_block_t.CRASHING →
      (service_retry e svc).1.restart_counter = 0) ∧
    ((service_retry e svc).1.block ≠ svc_block_t.RESTARTING →
      (service_retry e svc).1.block ≠ svc_block_t.CRASHING →
      svc.restart_counter + 1 ≤ (service_retry e svc).1.restart_counter) := by
  refine ⟨?_, ?_⟩
  · rw [(service_step_blocked e svc (by rw [hb]; decide)).1, hb]
  by_cases hs : svc.state = svc_state_t.HALTED
  · by_cases hc : (RESPAWN_MAX : Int) ≤ svc.restart_counter
    · rw [service_retry_budget_used e svc hs hb hc]
      exact ⟨fun _ => rfl, fun _ h => absurd rfl h⟩
    · have hu : (svc_unblock { (service_timeout_cancel e svc).1 with
          restart_counter := svc.restart_counter + 1 }).block ≠ svc_block_t.CRASHING := by
        simp [svc_unblock]
      obtain ⟨k1, k2⟩ := service_step_counter_block e
        (svc_unblock { (service_timeout_cancel e svc).1 with
          restart_counter := svc.restart_counter + 1 })
      have k3 := k2 hu
      rw [service_retry_eq, if_neg (by simp [hs, hb]), if_neg (by simpa using hc)]
      simp only [service_timeout_after_frame]
      exact ⟨fun h => absurd h k3, fun _ _ => k1⟩
  · rw [service_retry_not_crashing e svc (Or.inl hs)]
    exact ⟨fun h => by simp [hb] at h, fun h => absurd hb h⟩

/-- C20 at a concrete record: the retry of the halted sample service raises
the counter from 0 to 1. -/
theorem restart_counter_reset_witness :
    (service_step env_up svc_crashed).1.block = svc_block_t.RESTARTING ∧
      1 ≤ (service_retry env_up svc_crashed).1.restart_counter :=
  have h := restart_counter_reset env_up svc_crashed rfl
  ⟨h.1, h.2.2 (by decide) (by decide)⟩

/-! ## C23: service_step terminates -/

theorem service_step_reaches_fixpoint (e : Env) :
    ∀ (m : Nat) (svc : svc_t), service_step_rank e svc ≤ m →
      ∃ n, n ≤ m ∧
        (∀ i, i < n →
          service_step_again (service_step_nth e i svc)
            (service_step_table e (service_step_nth e i svc)) = true) ∧
        service_step_again (service_step_nth e n svc)
          (service_step_table e (service_step_nth e n svc)) = false ∧
        ∀ fuel, m < fuel →
          (service_step_loop fuel e svc).1
            = (service_step_table e (service_step_nth e n svc)).svc := by
  intro m
  induction m with
  | zero =>
    intro svc hr
    have hstop : service_step_again svc (service_step_table e svc) = false := by
      by_contra hc
      have := service_step_rank_decr e svc (by simpa using hc)
      omega
    refine ⟨0, le_refl 0, fun i hi => absurd hi (by omega), hstop, ?_⟩
    intro fuel hf
    obtain ⟨k, rfl⟩ : ∃ k, fuel = k + 1 := ⟨fuel - 1, by omega⟩
    rw [service_step_loop_succ, hstop]
    rfl
  | succ m ih =>
    intro svc hr
    by_cases hc : service_step_again svc (service_step_table e svc) = true
    · have hd := service_step_rank_decr e svc hc
      obtain ⟨n, hn, hall, hstop, hres⟩ := ih (service_step_table e svc).svc (by omega)
      refine ⟨n + 1, by omega, ?_, hstop, ?_⟩
      · intro i hi
        cases i with
        | zero => exact hc
        | succ j => exact hall j (by omega)
      · intro fuel hf
        obtain ⟨k, rfl⟩ : ∃ k, fuel = k + 1 := ⟨fuel - 1, by omega⟩
        rw [service_step_loop_succ, hc]
        exact hres k (by omega)
    · have hstop : service_step_again svc (service_step_table e svc) = false := by
        simpa using hc
      refine ⟨0, by omega, fun i hi => absurd hi (by omega), hstop, ?_⟩
      intro fuel hf
      obtain ⟨k, rfl⟩ : ∃ k, fuel = k + 1 := ⟨fuel - 1, by omega⟩
      rw [service_step_loop_succ, hstop]
      rfl

/-- C23: service_step terminates.  For every record and every environment
the passes through the table go on only while the state changed; after at
most seven re-entries a pass leaves the state as it found it (or returns
from the DONE case), and the record of that pass is what service_step
returns.  More passes than the eight granted change nothing. -/
theorem service_step_terminates (e : Env) (svc : svc_t) :
    ∃ n, n ≤ 7 ∧
      (∀ i, i < n →
        service_step_again (service_step_nth e i svc)
          (service_step_table e (service_step_nth e i svc)) = true) ∧
      service_step_again (service_step_nth e n svc)
        (service_step_table e (service_step_nth e n svc)) = false ∧
      (service_step e svc).1 = (service_step_table e (service_step_nth e n svc)).svc ∧
      ∀ k, service_step_loop (service_step_fuel + k) e svc = service_step e svc := by
  obtain ⟨n, hn, hall, hstop, hres⟩ :=
    service_step_reaches_fixpoint e 7 svc (service_step_rank_le e svc)
  exact ⟨n, hn, hall, hstop, hres service_step_fuel (by unfold service_step_fuel; omega),
    service_step_loop_stable e svc⟩

/-! ## C25: the teardown flag and the waiting states -/

theorem sm_teardown_inv_pass {R : Type} (x : Ext R) (cfg : sm_cfg) (w : World R)
    (h : sm_teardown_inv w.sm) : sm_teardown_inv (sm_step_table x cfg w).sm := by
  obtain ⟨⟨state, newlevel, reload, teardown⟩, runlevel, prevlevel, bootstrap, reg, trace⟩ := w
  simp only [sm_teardown_inv] at h
  cases state <;>
    simp only [sm_step_table, World.call, World.set_state, World.set_teardown,
      sm_teardown_inv] <;>
    (try split_ifs) <;> simp_all

/-- sm_step never returns in a state that it always leaves. -/
theorem sm_step_rests {R : Type} (x : Ext R) (cfg : sm_cfg) (w : World R) :
    (sm_step x cfg w).sm.state ≠ sm_state_t.BOOTSTRAP ∧
      (sm_step x cfg w).sm.state ≠ sm_state_t.RUNLEVEL_CHANGE ∧
      (sm_step x cfg w).sm.state ≠ sm_state_t.RELOAD_CHANGE := by
  obtain ⟨v, -, hv, hst⟩ := sm_step_induct_stable x cfg (fun _ => True) (fun _ _ => trivial) w
    trivial
  rw [hv, hst]
  obtain ⟨⟨state, newlevel, reload, teardown⟩, runlevel, prevlevel, bootstrap, reg, trace⟩ := v
  cases state <;>
    simp [sm_step_table, World.call, World.set_state, World.set_teardown] at hst ⊢

/-- C25: in every world reached from sm_init the teardown flag is set if
and only if the state is RUNLEVEL_WAIT or RELOAD_WAIT, and so it is at every
return of sm_step; sm_step returns in BOOTSTRAP_WAIT, RUNNING, RUNLEVEL_WAIT,
RUNLEVEL_CLEAN, RELOAD_WAIT or RELOAD_CLEAN, and when it returns in RUNNING,
BOOTSTRAP_WAIT, RUNLEVEL_CLEAN or RELOAD_CLEAN the flag is clear. -/
theorem sm_teardown_only_waiting {R : Type} (x : Ext R) (cfg : sm_cfg) (w : World R)
    (h : sm_reachable x cfg w) :
    sm_teardown_inv w.sm ∧ sm_teardown_inv (sm_step x cfg w).sm ∧
    (sm_step x cfg w).sm.state ≠ sm_state_t.BOOTSTRAP ∧
    (sm_step x cfg w).sm.state ≠ sm_state_t.RUNLEVEL_CHANGE ∧
    (sm_step x cfg w).sm.state ≠ sm_state_t.RELOAD_CHANGE ∧
    ((sm_step x cfg w).sm.state = sm_state_t.RUNNING ∨
        (sm_step x cfg w).sm.state = sm_state_t.BOOTSTRAP_WAIT ∨
        (sm_step x cfg w).sm.state = sm_state_t.RUNLEVEL_CLEAN ∨
        (sm_step x cfg w).sm.state = sm_state_t.RELOAD_CLEAN →
      (sm_step x cfg w).sm.in_teardown = false) := by
  have hstep : ∀ v : World R, sm_teardown_inv v.sm → sm_teardown_inv (sm_step x cfg v).sm :=
    fun v hv => sm_step_induct x cfg (fun u => sm_teardown_inv u.sm)
      (sm_teardown_inv_pass x cfg) v hv
  have hinv : sm_teardown_inv w.sm := by
    induction h with
    | init w => simp [sm_init, World.call, sm_teardown_inv]
    | step w _ ih => exact hstep w ih
    | set_runlevel w l _ ih => simpa [sm_set_runlevel, World.call, sm_teardown_inv] using ih
    | set_reload w _ ih => simpa [sm_set_reload, World.call, sm_teardown_inv] using ih
    | outside w r _ ih => exact ih
  obtain ⟨r1, r2, r3⟩ := sm_step_rests x cfg w
  refine ⟨hinv, hstep w hinv, r1, r2, r3, ?_⟩
  intro hs
  have := hstep w hinv
  simp only [sm_teardown_inv] at this
  cases hb : (sm_step x cfg w).sm.in_teardown
  · rfl
  · rcases this.mp hb with h1 | h1 <;> rcases hs with h2 | h2 | h2 | h2 <;>
      rw [h1] at h2 <;> exact absurd h2 (by decide)

/-- C25 at a concrete world: the first sm_step after sm_init. -/
theorem sm_teardown_only_waiting_witness :
    sm_teardown_inv
      (sm_step ext_quiet cfg_plain
        (sm_init ext_quiet (world_at sm_state_t.RUNNING 3 true))).sm :=
  (sm_teardown_only_waiting ext_quiet cfg_plain _
    (sm_reachable.init (world_at sm_state_t.RUNNING 3 true))).2.1

/-! ## C26: the pids that signals are sent to -/

/-- C26 fails: a finished task (pid 0) that is RUNNING, enabled and clean is
sent SIGSTOP at pid 0 when its condition aggregate is FLUX; a record with
pid 0 that waits and is no longer enabled is sent SIGCONT at pid 0; and
service_kill sends SIGKILL to whatever pid the record holds. -/
theorem service_signal_pid_zero :
    task_finished.state = svc_state_t.RUNNING ∧ task_finished.pid = 0 ∧
      service_enabled env_flux task_finished = true ∧
      Event.kill 0 Signal.SIGSTOP ∈ (service_step env_flux task_finished).2 ∧
      Event.kill 0 Signal.SIGCONT ∈ (service_step env_up task_waiting_blocked).2 ∧
      Event.kill 0 Signal.SIGKILL ∈ (service_kill env_up task_finished).2 := by
  decide

/-! ## C27: a reload requested together with a change of runlevel -/

/-- The passes of the runlevel sequence leave the reload flag alone. -/
theorem sm_step_table_keeps_reload {R : Type} (x : Ext R) (cfg : sm_cfg) (w : World R)
    (h : w.sm.state = sm_state_t.RUNLEVEL_CHANGE ∨ w.sm.state = sm_state_t.RUNLEVEL_WAIT ∨
      w.sm.state = sm_state_t.RUNLEVEL_CLEAN) :
    (sm_step_table x cfg w).sm.reload = w.sm.reload := by
  obtain ⟨⟨state, newlevel, reload, teardown⟩, runlevel, prevlevel, bootstrap, reg, trace⟩ := w
  simp only at h
  rcases h with h | h | h <;> subst h <;>
    simp only [sm_step_table, World.call, World.set_state, World.set_teardown] <;>
    (try split_ifs) <;> simp

/-- In RUNNING with the reload flag set and no level in 0..9 requested,
sm_step consumes the flag and runs the pass of RELOAD_CHANGE; the levels
stay as they are, and sm_step returns in RELOAD_WAIT, RELOAD_CLEAN or
RUNNING. -/
theorem sm_step_running_reload {R : Type} (x : Ext R) (cfg : sm_cfg) (w : World R)
    (hs : w.sm.state = sm_state_t.RUNNING) (hr : w.sm.reload = true)
    (hn : ¬ (0 ≤ w.sm.newlevel ∧ w.sm.newlevel ≤ 9)) :
    (sm_step x cfg w).sm.reload = false ∧ (sm_step x cfg w).runlevel = w.runlevel ∧
      (sm_step x cfg w).prevlevel = w.prevlevel ∧
      (sm_step x cfg w).sm.state.after_reload = true ∧
      ∃ calls : List Seen, (sm_step x cfg w).trace =
        w.trace ++
          [⟨Call.service_step_all svc_mask_t.ANY, ⟨w.runlevel, w.prevlevel, w.sm.in_teardown⟩⟩,
           ⟨Call.conf_reload, ⟨w.runlevel, w.prevlevel, w.sm.in_teardown⟩⟩,
           ⟨Call.cond_reload, ⟨w.runlevel, w.prevlevel, true⟩⟩,
           ⟨Call.service_step_all svc_mask_t.ANY, ⟨w.runlevel, w.prevlevel, true⟩⟩] ++ calls := by
  have e1 := sm_step_table_running_reload x cfg w hs hr hn
  have e2 := sm_step_table_reload_change x cfg (sm_step_table x cfg w) (by rw [e1]; rfl)
  have u1 : sm_step x cfg w = sm_step x cfg (sm_step_table x cfg w) := by
    rw [sm_step_unfold, if_pos (by rw [e1, hs]; simp [World.set_state])]
  have u2 : sm_step x cfg w = sm_step x cfg (sm_step_table x cfg (sm_step_table x cfg w)) := by
    rw [u1, sm_step_unfold, if_pos (by rw [e2]; rw [e1]; simp [World.set_state])]
  have hinv : reload_inv
      (w.trace ++
        [⟨Call.service_step_all svc_mask_t.ANY, ⟨w.runlevel, w.prevlevel, w.sm.in_teardown⟩⟩,
         ⟨Call.conf_reload, ⟨w.runlevel, w.prevlevel, w.sm.in_teardown⟩⟩,
         ⟨Call.cond_reload, ⟨w.runlevel, w.prevlevel, true⟩⟩,
         ⟨Call.service_step_all svc_mask_t.ANY, ⟨w.runlevel, w.prevlevel, true⟩⟩])
      w.runlevel w.prevlevel (sm_step_table x cfg (sm_step_table x cfg w)) := by
    rw [e2, e1]
    exact ⟨hn, rfl, rfl, rfl, rfl, [], by simp [World.call, World.set_state, World.set_teardown]⟩
  obtain ⟨-, k2, k3, k4, k5, k6⟩ := sm_step_induct x cfg _ (reload_inv_pass x cfg _ _ _) _ hinv
  rw [← u2] at k2 k3 k4 k5 k6
  exact ⟨k2, k4, k5, k3, k6⟩

/-- The pass in RUNLEVEL_WAIT when no service is stopping. -/
theorem sm_step_table_wait_over {R : Type} (x : Ext R) (cfg : sm_cfg) (w : World R)
    (hs : w.sm.state = sm_state_t.RUNLEVEL_WAIT) (hstop : x.svc_stop_completed w.reg = none) :
    (sm_step_table x cfg w).sm =
        { w.sm with state := sm_state_t.RUNLEVEL_CLEAN, in_teardown := false } ∧
      (sm_step_table x cfg w).runlevel = w.runlevel ∧
      (sm_step_table x cfg w).prevlevel = w.prevlevel ∧
      ∃ calls : List Seen, (sm_step_table x cfg w).trace = w.trace ++ calls ∧
        Call.cond_reload ∉ calls.map Seen.call ∧ Call.do_shutdown ∉ calls.map Seen.call := by
  obtain ⟨⟨state, newlevel, reload, teardown⟩, runlevel, prevlevel, bootstrap, reg, trace⟩ := w
  simp only at hs hstop
  subst hs
  refine ⟨?_, ?_, ?_, ?_⟩ <;>
    simp only [sm_step_table, World.call, World.set_state, World.set_teardown, hstop,
      Option.isSome_none, Bool.false_eq_true, if_false] <;>
    (try simp only [List.append_assoc]) <;>
    exact ⟨_, rfl, by simp, by simp⟩

/-- The pass in RUNLEVEL_CLEAN when no cleanup is pending, in a runlevel
other than 0 and 6. -/
theorem sm_step_table_clean_over {R : Type} (x : Ext R) (cfg : sm_cfg) (w : World R)
    (hs : w.sm.state = sm_state_t.RUNLEVEL_CLEAN)
    (hclean : x.svc_clean_completed w.reg = none)
    (h0 : w.runlevel ≠ 0) (h6 : w.runlevel ≠ 6) :
    (sm_step_table x cfg w).sm = { w.sm with state := sm_state_t.RUNNING } ∧
      (sm_step_table x cfg w).runlevel = w.runlevel ∧
      (sm_step_table x cfg w).prevlevel = w.prevlevel ∧
      ∃ calls : List Seen, (sm_step_table x cfg w).trace = w.trace ++ calls ∧
        Call.cond_reload ∉ calls.map Seen.call ∧ Call.do_shutdown ∉ calls.map Seen.call := by
  obtain ⟨⟨state, newlevel, reload, teardown⟩, runlevel, prevlevel, bootstrap, reg, trace⟩ := w
  simp only at hs hclean h0 h6
  subst hs
  have hc : ¬ (runlevel = 0 ∨ runlevel = 6) := by
    rintro (h | h)
    · exact h0 h
    · exact h6 h
  refine ⟨?_, ?_, ?_, ?_⟩ <;>
    simp only [sm_step_table, World.call, World.set_state, World.set_teardown, hclean,
      Option.isSome_none, Bool.false_eq_true, if_false, if_neg hc] <;>
    (try split_ifs) <;> (try simp only [List.append_assoc]) <;>
    first
      | rfl
      | exact ⟨_, rfl, by simp, by simp⟩
      | exact ⟨[], by simp, by simp, by simp⟩

/-- The calls of the pass in RUNLEVEL_CHANGE include runlevel_set and
include neither cond_reload nor do_shutdown. -/
theorem sm_step_table_change_marks {R : Type} (x : Ext R) (cfg : sm_cfg)
    (w : World R) (hs : w.sm.state = sm_state_t.RUNLEVEL_CHANGE) :
    ∃ calls : List Seen, (sm_step_table x cfg w).trace = w.trace ++ calls ∧
      Call.runlevel_set w.runlevel w.sm.newlevel ∈ calls.map Seen.call ∧
      Call.cond_reload ∉ calls.map Seen.call ∧ Call.do_shutdown ∉ calls.map Seen.call := by
  obtain ⟨⟨state, newlevel, reload, teardown⟩, runlevel, prevlevel, bootstrap, reg, trace⟩ := w
  simp only at hs
  subst hs
  simp only [sm_step_table, World.call, World.set_state, World.set_teardown]
  split_ifs <;> simp only [List.append_assoc] <;> exact ⟨_, rfl, by simp, by simp, by simp⟩

/-- A reload pending in RUNLEVEL_CLEAN, in a runlevel other than 0 and 6 with
no level requested: sm_step either stays, with the flag set, or goes through
RUNNING and performs the reload. -/
theorem reload_from_clean {R : Type} (x : Ext R) (cfg : sm_cfg) (L : Int) (u : World R)
    (hs : u.sm.state = sm_state_t.RUNLEVEL_CLEAN) (hr : u.sm.reload = true)
    (hn : u.sm.newlevel = -1) (hl : u.runlevel = L) (hL0 : L ≠ 0) (hL6 : L ≠ 6)
    (htd : u.sm.in_teardown = false) :
    reload_kept x L (sm_step x cfg u) ∨ reload_done x cfg L u (sm_step x cfg u) := by
  cases hq : x.svc_clean_completed u.reg with
  | some i =>
    left
    rw [sm_step_waits x cfg u (Or.inr ⟨hs, by rw [hq]; rfl⟩)]
    exact ⟨Or.inr hs, hr, hl, hn, fun h => by rw [hs] at h; exact absurd h (by decide),
      fun _ => ⟨by rw [hq]; rfl, htd⟩⟩
  | none =>
    right
    obtain ⟨f1, f2, f3, cs, f4, f5, f6⟩ := sm_step_table_clean_over x cfg u hs hq
      (by rw [hl]; exact hL0) (by rw [hl]; exact hL6)
    have g1 : (sm_step_table x cfg u).sm.state = sm_state_t.RUNNING := by rw [f1]
    have g2 : (sm_step_table x cfg u).sm.reload = true := by rw [f1]; exact hr
    have g3 : (sm_step_table x cfg u).sm.newlevel = -1 := by rw [f1]; exact hn
    have g4 : (sm_step_table x cfg u).sm.in_teardown = false := by rw [f1]; exact htd
    have g5 : (sm_step_table x cfg u).runlevel = L := by rw [f2, hl]
    have e : sm_step x cfg u = sm_step x cfg (sm_step_table x cfg u) := by
      rw [sm_step_unfold, if_pos (by rw [g1, hs]; decide)]
    obtain ⟨k1, k2, -, k3, k4⟩ := sm_step_running_reload x cfg (sm_step_table x cfg u) g1 g2
      (by rw [g3]; omega)
    rw [g5, g4] at k4
    rw [g5] at k2
    refine ⟨?_, sm_step_table x cfg u, ⟨1, rfl⟩, e, g1, g2, g3, g5, g4, ⟨cs, f4, f5, f6⟩,
      ?_, ?_, ?_⟩
    · rw [e]
      intro h
      rcases h with h | h <;> rw [h] at k3 <;> exact absurd k3 (by decide)
    · rw [e]; exact k4
    · rw [e]; exact k1
    · rw [e]; exact k2

/-- The same in RUNLEVEL_WAIT. -/
theorem reload_from_wait {R : Type} (x : Ext R) (cfg : sm_cfg) (L : Int) (u : World R)
    (hs : u.sm.state = sm_state_t.RUNLEVEL_WAIT) (hr : u.sm.reload = true)
    (hn : u.sm.newlevel = -1) (hl : u.runlevel = L) (hL0 : L ≠ 0) (hL6 : L ≠ 6) :
    reload_kept x L (sm_step x cfg u) ∨ reload_done x cfg L u (sm_step x cfg u) := by
  cases hq : x.svc_stop_completed u.reg with
  | some i =>
    left
    rw [sm_step_waits x cfg u (Or.inl ⟨hs, by rw [hq]; rfl⟩)]
    exact ⟨Or.inl hs, hr, hl, hn, fun _ => by rw [hq]; rfl,
      fun h => by rw [hs] at h; exact absurd h (by decide)⟩
  | none =>
    obtain ⟨d1, d2, d3, cs, d4, d5, d6⟩ := sm_step_table_wait_over x cfg u hs hq
    have b1 : (sm_step_table x cfg u).sm.state = sm_state_t.RUNLEVEL_CLEAN := by rw [d1]
    have e : sm_step x cfg u = sm_step x cfg (sm_step_table x cfg u) := by
      rw [sm_step_unfold, if_pos (by rw [b1, hs]; decide)]
    rw [e]
    rcases reload_from_clean x cfg L (sm_step_table x cfg u) b1 (by rw [d1]; exact hr)
      (by rw [d1]; exact hn) (by rw [d2, hl]) hL0 hL6 (by rw [d1]) with h | h
    · exact Or.inl h
    · right
      obtain ⟨a0, v, ⟨k, ak⟩, a1, a2, a3, a4, a5, a6, ⟨cs2, a7, a8, a9⟩, a10⟩ := h
      refine ⟨a0, v, ⟨k + 1, ak⟩, a1, a2, a3, a4, a5, a6, ⟨cs ++ cs2, ?_, ?_, ?_⟩, a10⟩
      · rw [a7, d4, List.append_assoc]
      · simp only [List.map_append, List.mem_append]
        rintro (h | h)
        · exact d5 h
        · exact a8 h
      · simp only [List.map_append, List.mem_append]
        rintro (h | h)
        · exact d6 h
        · exact a9 h

/-- C27: a reload request is not dropped by a change of runlevel.  The
reload flag is set and a change to a level L other than 0 and 6 is under
way: either sm_step is called in RUNNING with the different level L in 1..9
requested, or in a later call in RUNLEVEL_WAIT or RUNLEVEL_CLEAN with
runlevel L and no further level requested.  When sm_step returns, one of two
things has happened.  Either it has returned in RUNLEVEL_WAIT or
RUNLEVEL_CLEAN, because the query of that state reports a service, and then
the reload flag is still set and the runlevel is L; or the machine has come
back to RUNNING, after some passes of this call, in a world with runlevel L, no level requested and the flag
still set, neither cond_reload nor do_shutdown having been called, and the
same call has gone on from there: the flag is consumed and conf_reload and
cond_reload are called with runlevel L, which is still the runlevel when
sm_step returns.  In particular, called in RUNNING while a stopping service
is reported after the pass in RUNLEVEL_CHANGE, sm_step returns in
RUNLEVEL_WAIT with the flag set. -/
theorem sm_step_reload_after_change {R : Type} (x : Ext R) (cfg : sm_cfg) (w : World R)
    (L : Int) (hr : w.sm.reload = true) (hL0 : L ≠ 0) (hL6 : L ≠ 6)
    (hentry : (w.sm.state = sm_state_t.RUNNING ∧ w.sm.newlevel = L ∧ 0 ≤ L ∧ L ≤ 9 ∧
        L ≠ w.runlevel) ∨
      (w.sm.state = sm_state_t.RUNLEVEL_WAIT ∧ w.sm.newlevel = -1 ∧ w.runlevel = L) ∨
      (w.sm.state = sm_state_t.RUNLEVEL_CLEAN ∧ w.sm.newlevel = -1 ∧ w.runlevel = L ∧
        w.sm.in_teardown = false)) :
    ((sm_step x cfg w).sm.state = sm_state_t.RUNLEVEL_WAIT ∨
        (sm_step x cfg w).sm.state = sm_state_t.RUNLEVEL_CLEAN →
      (sm_step x cfg w).sm.reload = true ∧ (sm_step x cfg w).runlevel = L ∧
      (sm_step x cfg w).sm.newlevel = -1 ∧
      ((sm_step x cfg w).sm.state = sm_state_t.RUNLEVEL_WAIT →
        (x.svc_stop_completed (sm_step x cfg w).reg).isSome = true) ∧
      ((sm_step x cfg w).sm.state = sm_state_t.RUNLEVEL_CLEAN →
        (x.svc_clean_completed (sm_step x cfg w).reg).isSome = true ∧
        (sm_step x cfg w).sm.in_teardown = false)) ∧
    (¬ ((sm_step x cfg w).sm.state = sm_state_t.RUNLEVEL_WAIT ∨
        (sm_step x cfg w).sm.state = sm_state_t.RUNLEVEL_CLEAN) →
      ∃ v : World R,
        (∃ k : Nat, v = sm_step_nth x cfg k w) ∧
        sm_step x cfg w = sm_step x cfg v ∧
        v.sm.state = sm_state_t.RUNNING ∧ v.sm.reload = true ∧ v.sm.newlevel = -1 ∧
        v.runlevel = L ∧ v.sm.in_teardown = false ∧
        (∃ calls : List Seen, v.trace = w.trace ++ calls ∧
          (w.sm.state = sm_state_t.RUNNING →
            Call.runlevel_set w.runlevel L ∈ calls.map Seen.call) ∧
          Call.cond_reload ∉ calls.map Seen.call ∧
          Call.do_shutdown ∉ calls.map Seen.call) ∧
        (∃ calls : List Seen, (sm_step x cfg w).trace =
          v.trace ++
            [⟨Call.service_step_all svc_mask_t.ANY, ⟨L, v.prevlevel, false⟩⟩,
             ⟨Call.conf_reload, ⟨L, v.prevlevel, false⟩⟩,
             ⟨Call.cond_reload, ⟨L, v.prevlevel, true⟩⟩,
             ⟨Call.service_step_all svc_mask_t.ANY, ⟨L, v.prevlevel, true⟩⟩] ++
            calls) ∧
        (sm_step x cfg w).sm.reload = false ∧
        (sm_step x cfg w).runlevel = L) ∧
    (w.sm.state = sm_state_t.RUNNING →
      (x.svc_stop_completed (sm_step_table x cfg (sm_step_table x cfg w)).reg).isSome = true →
      (sm_step x cfg w).sm.state = sm_state_t.RUNLEVEL_WAIT ∧
      (sm_step x cfg w).sm.reload = true ∧
      (sm_step x cfg w).runlevel = L) := by
  have fin : ∀ (u : World R) (cs : List Seen), sm_step x cfg w = sm_step x cfg u →
      (∃ j : Nat, ∀ k : Nat, sm_step_nth x cfg k u = sm_step_nth x cfg (k + j) w) →
      u.trace = w.trace ++ cs →
      (w.sm.state = sm_state_t.RUNNING → Call.runlevel_set w.runlevel L ∈ cs.map Seen.call) →
      Call.cond_reload ∉ cs.map Seen.call → Call.do_shutdown ∉ cs.map Seen.call →
      (reload_kept x L (sm_step x cfg u) ∨ reload_done x cfg L u (sm_step x cfg u)) →
      ((sm_step x cfg w).sm.state = sm_state_t.RUNLEVEL_WAIT ∨
          (sm_step x cfg w).sm.state = sm_state_t.RUNLEVEL_CLEAN →
        (sm_step x cfg w).sm.reload = true ∧ (sm_step x cfg w).runlevel = L ∧
        (sm_step x cfg w).sm.newlevel = -1 ∧
        ((sm_step x cfg w).sm.state = sm_state_t.RUNLEVEL_WAIT →
          (x.svc_stop_completed (sm_step x cfg w).reg).isSome = true) ∧
        ((sm_step x cfg w).sm.state = sm_state_t.RUNLEVEL_CLEAN →
          (x.svc_clean_completed (sm_step x cfg w).reg).isSome = true ∧
          (sm_step x cfg w).sm.in_teardown = false)) ∧
      (¬ ((sm_step x cfg w).sm.state = sm_state_t.RUNLEVEL_WAIT ∨
          (sm_step x cfg w).sm.state = sm_state_t.RUNLEVEL_CLEAN) →
        ∃ v : World R,
          (∃ k : Nat, v = sm_step_nth x cfg k w) ∧
          sm_step x cfg w = sm_step x cfg v ∧
          v.sm.state = sm_state_t.RUNNING ∧ v.sm.reload = true ∧ v.sm.newlevel = -1 ∧
          v.runlevel = L ∧ v.sm.in_teardown = false ∧
          (∃ calls : List Seen, v.trace = w.trace ++ calls ∧
            (w.sm.state = sm_state_t.RUNNING →
              Call.runlevel_set w.runlevel L ∈ calls.map Seen.call) ∧
            Call.cond_reload ∉ calls.map Seen.call ∧
            Call.do_shutdown ∉ calls.map Seen.call) ∧
          (∃ calls : List Seen, (sm_step x cfg w).trace =
            v.trace ++
              [⟨Call.service_step_all svc_mask_t.ANY, ⟨L, v.prevlevel, false⟩⟩,
               ⟨Call.conf_reload, ⟨L, v.prevlevel, false⟩⟩,
               ⟨Call.cond_reload, ⟨L, v.prevlevel, true⟩⟩,
               ⟨Call.service_step_all svc_mask_t.ANY, ⟨L, v.prevlevel, true⟩⟩] ++
              calls) ∧
          (sm_step x cfg w).sm.reload = false ∧
          (sm_step x cfg w).runlevel = L) := by
    intro u cs eu hj hcs hmark hnr hns key
    obtain ⟨j, hj⟩ := hj
    rw [eu]
    rcases key with hk | hd
    · obtain ⟨k0, k1, k2, k3, k4, k5⟩ := hk
      exact ⟨fun _ => ⟨k1, k2, k3, k4, k5⟩, fun hne => absurd k0 hne⟩
    · obtain ⟨d0, v, ⟨k, dk⟩, d1, d2, d3, d4, d5, d6, ⟨cs2, d7, d8, d9⟩, d10, d11, d12⟩ := hd
      refine ⟨fun h => absurd h d0, fun _ => ⟨v, ⟨k + j, by rw [dk, hj]⟩, d1, d2, d3, d4, d5, d6,
        ⟨cs ++ cs2, ?_, ?_, ?_, ?_⟩, d10, d11, d12⟩⟩
      · rw [d7, hcs, List.append_assoc]
      · intro h
        simp only [List.map_append, List.mem_append]
        exact Or.inl (hmark h)
      · simp only [List.map_append, List.mem_append]
        rintro (h | h)
        · exact hnr h
        · exact d8 h
      · simp only [List.map_append, List.mem_append]
        rintro (h | h)
        · exact hns h
        · exact d9 h
  rcases hentry with ⟨hs, hn, h0, h9, hne⟩ | ⟨hs, hn, hl⟩ | ⟨hs, hn, hl, htd⟩
  · have hnew : w.sm.newlevel ≠ w.runlevel := by rw [hn]; exact hne
    have e1 := sm_step_table_running_change x cfg w hs (by rw [hn]; exact h0)
      (by rw [hn]; exact h9) hnew
    obtain ⟨W1, hW1⟩ : ∃ W1, W1 = sm_step_table x cfg w := ⟨_, rfl⟩
    have a1 : W1.sm.state = sm_state_t.RUNLEVEL_CHANGE := by rw [hW1, e1]; rfl
    have a2 : W1.sm.reload = true := by rw [hW1, e1]; exact hr
    have a3 : W1.sm.newlevel = L := by rw [hW1, e1]; exact hn
    have a4 : W1.runlevel = w.runlevel := by rw [hW1, e1]; rfl
    have a5 : ∃ calls : List Seen, W1.trace = w.trace ++ calls ∧
        Call.cond_reload ∉ calls.map Seen.call ∧ Call.do_shutdown ∉ calls.map Seen.call := by
      rw [hW1, e1]; exact ⟨_, rfl, by simp, by simp⟩
    have u1 : sm_step x cfg w = sm_step x cfg W1 := by
      rw [sm_step_unfold, ← hW1, if_pos (by rw [a1, hs]; decide)]
    obtain ⟨W2, hW2⟩ : ∃ W2, W2 = sm_step_table x cfg W1 := ⟨_, rfl⟩
    obtain ⟨-, c2, c3, c4, -, c6⟩ := sm_step_table_change x cfg W1 a1
    obtain ⟨cs2, t2, t3, t4, t5⟩ := sm_step_table_change_marks x cfg W1 a1
    rw [← hW2] at c2 c3 c4 c6 t2
    rw [a4, a3] at t3
    rw [a3] at c2
    rw [a2] at c6
    have u2 : sm_step x cfg w = sm_step x cfg W2 := by
      rw [u1, sm_step_unfold, ← hW2, if_pos (by rw [c4, a1]; decide)]
    obtain ⟨cs1, t1, t1n, t1s⟩ := a5
    obtain ⟨fA, fB⟩ := fin W2 (cs1 ++ cs2) u2 ⟨2, fun k => by rw [hW2, hW1]; rfl⟩
      (by rw [t2, t1, List.append_assoc])
      (fun _ => by
        simp only [List.map_append, List.mem_append]
        exact Or.inr t3)
      (by
        simp only [List.map_append, List.mem_append]
        rintro (h | h)
        · exact t1n h
        · exact t4 h)
      (by
        simp only [List.map_append, List.mem_append]
        rintro (h | h)
        · exact t1s h
        · exact t5 h)
      (reload_from_wait x cfg L W2 c4 c6 c3 c2 hL0 hL6)
    refine ⟨fA, fB, fun _ hsome => ?_⟩
    rw [← hW1, ← hW2] at hsome
    rw [u2, sm_step_waits x cfg W2 (Or.inl ⟨c4, hsome⟩)]
    exact ⟨c4, c6, c2⟩
  · obtain ⟨fA, fB⟩ := fin w [] rfl ⟨0, fun _ => rfl⟩ (by simp)
      (fun h => by rw [hs] at h; exact absurd h (by decide)) (by simp) (by simp)
      (reload_from_wait x cfg L w hs hr hn hl hL0 hL6)
    exact ⟨fA, fB, fun h => by rw [hs] at h; exact absurd h (by decide)⟩
  · obtain ⟨fA, fB⟩ := fin w [] rfl ⟨0, fun _ => rfl⟩ (by simp)
      (fun h => by rw [hs] at h; exact absurd h (by decide)) (by simp) (by simp)
      (reload_from_clean x cfg L w hs hr hn hl hL0 hL6 htd)
    exact ⟨fA, fB, fun h => by rw [hs] at h; exact absurd h (by decide)⟩

/-- C27 at concrete worlds: runlevel 2, level 3 requested, the reload flag
set.  With nothing stopping the flag is consumed and the runlevel is 3; with
a service stopping sm_step returns in RUNLEVEL_WAIT with the flag set, and a
later call that still finds it stopping leaves the flag set. -/
theorem sm_step_reload_after_change_witness :
    (sm_step ext_quiet cfg_plain (world_at sm_state_t.RUNNING 3 true)).sm.reload = false ∧
      (sm_step ext_quiet cfg_plain (world_at sm_state_t.RUNNING 3 true)).runlevel = 3 ∧
      (sm_step ext_stopping cfg_plain (world_at sm_state_t.RUNNING 3 true)).sm.reload = true ∧
      (sm_step ext_stopping cfg_plain
        (sm_step ext_stopping cfg_plain (world_at sm_state_t.RUNNING 3 true))).sm.reload
        = true :=
  have h := (sm_step_reload_after_change ext_quiet cfg_plain
    (world_at sm_state_t.RUNNING 3 true) 3 rfl (by decide) (by decide)
    (Or.inl ⟨rfl, rfl, by decide, by decide, by decide⟩)).2.1 (by decide)
  have g := (sm_step_reload_after_change ext_stopping cfg_plain
    (world_at sm_state_t.RUNNING 3 true) 3 rfl (by decide) (by decide)
    (Or.inl ⟨rfl, rfl, by decide, by decide, by decide⟩)).1 (by decide)
  have k := (sm_step_reload_after_change ext_stopping cfg_plain
    (sm_step ext_stopping cfg_plain (world_at sm_state_t.RUNNING 3 true)) 3 (by decide)
    (by decide) (by decide) (Or.inr (Or.inl (by decide)))).1 (by decide)
  ⟨h.elim fun _ hv => hv.2.2.2.2.2.2.2.2.2.1, h.elim fun _ hv => hv.2.2.2.2.2.2.2.2.2.2,
    g.1, k.1⟩

/-! ## C29: strtobytes -/

theorem to_int_fits (z : Int) (h0 : 0 ≤ z) (h1 : z < 2147483648) : to_int z = z := by
  unfold to_int
  omega

theorem takeWhile_all_append (p : Char → Bool) (ds : List Char) (c : Char) (rest : List Char)
    (hd : ∀ d ∈ ds, p d = true) (hc : p c = false) :
    (ds ++ c :: rest).takeWhile p = ds := by
  induction ds with
  | nil => simp [List.takeWhile, hc]
  | cons d ds ih =>
    have h1 : p d = true := hd d (List.mem_cons_self d ds)
    simp only [List.cons_append, List.takeWhile_cons, h1, if_true]
    rw [ih (fun x hx => hd x (List.mem_cons_of_mem d hx))]

theorem takeWhile_all (p : Char → Bool) (ds : List Char) (hd : ∀ d ∈ ds, p d = true) :
    ds.takeWhile p = ds := by
  induction ds with
  | nil => rfl
  | cons d ds ih =>
    have h1 : p d = true := hd d (List.mem_cons_self d ds)
    simp only [List.takeWhile_cons, h1, if_true]
    rw [ih (fun x hx => hd x (List.mem_cons_of_mem d hx))]

theorem digit_not_space :
    ∀ d ∈ digit_chars, d ∉ space_chars ∧ d ≠ '-' ∧ d ≠ '+' := by
  decide

/-- atoi of a string of digits whose value fits in a `long` is the value of
the digits, as an `int`. -/
theorem atoi_digits (ds : List Char) (hd : ∀ d ∈ ds, d ∈ digit_chars)
    (hl : (digits_value ds : Int) ≤ LONG_MAX) :
    atoi ds = to_int (digits_value ds) := by
  have hp : ∀ d ∈ ds, digit_chars.contains d = true := fun d h => by
    simpa using hd d h
  have hv : (0 : Int) ≤ digits_value ds := Int.ofNat_nonneg _
  have hclamp : ∀ z : Int, 0 ≤ z → z ≤ LONG_MAX →
      (if z < -LONG_MAX - 1 then -LONG_MAX - 1 else if LONG_MAX < z then LONG_MAX else z) = z := by
    intro z h0 h1
    unfold LONG_MAX at h1 ⊢
    split_ifs <;> omega
  cases ds with
  | nil => rfl
  | cons d ds =>
    obtain ⟨h1, h2, h3⟩ := digit_not_space d (hd d (List.mem_cons_self d ds))
    have e1 : (d :: ds).dropWhile space_chars.contains = d :: ds := by
      simp [List.dropWhile, h1]
    unfold atoi strtol10
    simp only [e1, List.head?_cons, Option.some.injEq, h2, h3, or_self, if_false,
      decide_False, Bool.false_eq_true]
    rw [takeWhile_all _ _ hp, hclamp _ hv hl]

theorem strtobytes_plain (ds : List Char) (hd : ∀ d ∈ ds, d ∈ digit_chars) :
    strtobytes (some ds) = atoi ds := by
  have hp : ∀ d ∈ ds, digit_chars.contains d = true := fun d h => by
    simpa using hd d h
  have e1 : strspn ds digit_chars = ds.length := by
    simp only [strspn, takeWhile_all _ _ hp]
  have e2 : ds.get? ds.length = none := List.get?_eq_none.mpr (le_refl _)
  simp only [strtobytes, e1, e2, List.take_length, List.range_zero, List.foldl_nil]

theorem scale_one (a : Int) :
    List.foldl (fun b (_ : Nat) => to_int (b * 1000)) a [0] = to_int (a * 1000) := rfl

theorem scale_two (a : Int) :
    List.foldl (fun b (_ : Nat) => to_int (b * 1000)) a [0, 1] =
      to_int (to_int (a * 1000) * 1000) := rfl

theorem scale_three (a : Int) :
    List.foldl (fun b (_ : Nat) => to_int (b * 1000)) a [0, 1, 2] =
      to_int (to_int (to_int (a * 1000) * 1000) * 1000) := rfl

theorem strtobytes_suffix (ds rest : List Char) (c : Char) (hd : ∀ d ∈ ds, d ∈ digit_chars)
    (hc : c ∉ digit_chars) :
    strtobytes (some (ds ++ c :: rest)) =
      if c = 'G' then to_int (to_int (to_int (atoi ds * 1000) * 1000) * 1000)
      else if c = 'M' then to_int (to_int (atoi ds * 1000) * 1000)
      else if c = 'k' then to_int (atoi ds * 1000)
      else -1 := by
  have hp : ∀ d ∈ ds, digit_chars.contains d = true := fun d h => by
    simpa using hd d h
  have hq : digit_chars.contains c = false := by simpa using hc
  have e1 : strspn (ds ++ c :: rest) digit_chars = ds.length := by
    simp only [strspn, takeWhile_all_append _ ds c rest hp hq]
  have e2 : (ds ++ c :: rest).get? ds.length = some c := by
    rw [List.get?_eq_getElem?, List.getElem?_append_right (le_refl _), Nat.sub_self]
    exact List.getElem?_cons_zero
  have e3 : (ds ++ c :: rest).take ds.length = ds := List.take_left _ _
  have r1 : List.range 1 = [0] := rfl
  have r2 : List.range 2 = [0, 1] := rfl
  have r3 : List.range 3 = [0, 1, 2] := rfl
  simp only [strtobytes, e1, e2, e3]
  rw [r3, r2, r1, scale_three, scale_two, scale_one]

/-- C29 fails: characters after the suffix are ignored, so "10kB" gives
10000, and a string without any digit is read as 0: the empty string and
"k" both give 0. -/
theorem strtobytes_counterexample :
    strtobytes (some ['1', '0', 'k', 'B']) = 10000 ∧ strtobytes (some []) = 0 ∧
      strtobytes (some ['k']) = 0 := by
  decide

/-- C29, amended: strtobytes reads the leading decimal digits of its
argument, with value n (0 when there are none).  If the string ends there it
returns n; if the next character is k, M or G it returns n*1000, n*1000^2 or
n*1000^3, whatever follows that character, whenever that product fits in a
signed 32-bit int; if the next character is anything else it returns -1, and
so it does for NULL. -/
theorem strtobytes_reads (ds rest : List Char) (c : Char) (hd : ∀ d ∈ ds, d ∈ digit_chars)
    (hc : c ∉ digit_chars) :
    strtobytes none = -1 ∧
    ((digits_value ds : Int) < 2147483648 → strtobytes (some ds) = digits_value ds) ∧
    ((digits_value ds : Int) * 1000 < 2147483648 →
      strtobytes (some (ds ++ 'k' :: rest)) = digits_value ds * 1000) ∧
    ((digits_value ds : Int) * 1000000 < 2147483648 →
      strtobytes (some (ds ++ 'M' :: rest)) = digits_value ds * 1000000) ∧
    ((digits_value ds : Int) * 1000000000 < 2147483648 →
      strtobytes (some (ds ++ 'G' :: rest)) = digits_value ds * 1000000000) ∧
    (c ≠ 'k' → c ≠ 'M' → c ≠ 'G' → strtobytes (some (ds ++ c :: rest)) = -1) := by
  have hv : (0 : Int) ≤ digits_value ds := Int.ofNat_nonneg _
  have ha : (digits_value ds : Int) < 2147483648 → atoi ds = digits_value ds := fun h => by
    rw [atoi_digits ds hd (by unfold LONG_MAX; omega), to_int_fits _ hv h]
  refine ⟨rfl, ?_, ?_, ?_, ?_, ?_⟩
  · intro h
    rw [strtobytes_plain ds hd, ha h]
  · intro h
    rw [strtobytes_suffix ds rest 'k' hd (by decide), ha (by omega)]
    simp only [Char.reduceEq, if_false, if_true]
    rw [to_int_fits _ (by omega) h]
  · intro h
    rw [strtobytes_suffix ds rest 'M' hd (by decide), ha (by omega)]
    simp only [Char.reduceEq, if_false, if_true]
    rw [to_int_fits (digits_value ds * 1000) (by omega) (by omega),
      to_int_fits (digits_value ds * 1000 * 1000) (by omega) (by omega)]
    ring
  · intro h
    rw [strtobytes_suffix ds rest 'G' hd (by decide), ha (by omega)]
    simp only [Char.reduceEq, if_false, if_true]
    rw [to_int_fits (digits_value ds * 1000) (by omega) (by omega),
      to_int_fits (digits_value ds * 1000 * 1000) (by omega) (by omega),
      to_int_fits (digits_value ds * 1000 * 1000 * 1000) (by omega) (by omega)]
    ring
  · intro h1 h2 h3
    rw [strtobytes_suffix ds rest c hd hc, if_neg h3, if_neg h2, if_neg h1]

/-- C29 at a concrete string: "12M" and "12x". -/
theorem strtobytes_reads_witness :
    strtobytes (some ['1', '2', 'M']) = 12000000 ∧ strtobytes (some ['1', '2', 'x']) = -1 :=
  have h := strtobytes_reads ['1', '2'] [] 'x' (by decide) (by decide)
  ⟨h.2.2.2.1 (by decide), h.2.2.2.2.2 (by decide) (by decide) (by decide)⟩
/-! ## C30: memsz -/

/-- C30 fails on the code: for sz = 2^30 + 1020 * 2^20 the megabyte count is
1020 and 1020 / 102 = 10, so memsz prints two decimal digits, "1.10G", where
one digit 0..9 is meant (the same happens for every count 1020..1023 of the
next lower unit, as for 1023 bytes, "0.10k"). -/
theorem memsz_two_digit_fraction :
    memsz 2143289344 16 = ['1', '.', '1', '0', 'G'] ∧
      memsz 1023 16 = ['0', '.', '1', '0', 'k'] := by
  decide
/-! ## C22: sanitize -/

/-- C22 fails on the code: the pattern of sanitize has no anchors, so
regexec succeeds as soon as one letter, digit or underscore occurs anywhere
in the string; "foo/bar" is returned although it is no JOB[:ID], and so are
"a b" and "../x;y". -/
theorem sanitize_unanchored :
    sanitize false ['f', 'o', 'o', '/', 'b', 'a', 'r', NUL] 8
        = some ['f', 'o', 'o', '/', 'b', 'a', 'r'] ∧
      sanitize false ['a', ' ', 'b', NUL] 4 = some ['a', ' ', 'b'] ∧
      sanitize false ['.', '.', '/', 'x', ';', 'y', NUL] 7
        = some ['.', '.', '/', 'x', ';', 'y'] := by
  decide

/-! ## C24: the tokeniser of run -/

theorem buf_get (pre : List Char) (c : Char) (more : List Char) (a : Nat) (ha : a = pre.length) :
    (pre ++ c :: more).get? a = some c := by
  subst ha
  induction pre with
  | nil => rfl
  | cons d pre ih => simpa using ih

theorem buf_set (pre : List Char) (c x : Char) (more : List Char) (a : Nat)
    (ha : a = pre.length) : (pre ++ c :: more).set a x = pre ++ x :: more := by
  subst ha
  induction pre with
  | nil => rfl
  | cons d pre ih => simp

theorem strsep_at (pre tok : List Char) (c : Char) (more delim : List Char) (a : Nat)
    (ha : a = pre.length) (h : free_of delim tok = true)
    (hc : (decide (c ≠ NUL) && !delim.contains c) = false) :
    strsep (pre ++ (tok ++ c :: more)) a delim =
      if c = NUL then .ok (pre ++ (tok ++ c :: more), none)
      else .ok (pre ++ (tok ++ NUL :: more), some (a + tok.length + 1)) := by
  subst ha
  have h1 : ∀ d ∈ tok, (decide (d ≠ NUL) && !delim.contains d) = true := by
    simpa [free_of] using h
  have e1 : (pre ++ (tok ++ c :: more)).drop pre.length = tok ++ c :: more := List.drop_left _ _
  have e2 : (tok ++ c :: more).takeWhile (fun c => decide (c ≠ NUL) && !delim.contains c) = tok :=
    takeWhile_all_append _ tok c more h1 hc
  have e3 : (pre ++ (tok ++ c :: more)).get? (pre.length + tok.length) = some c := by
    rw [← List.append_assoc]
    exact buf_get (pre ++ tok) c more _ (by simp)
  have e4 : (pre ++ (tok ++ c :: more)).set (pre.length + tok.length) NUL
      = pre ++ (tok ++ NUL :: more) := by
    rw [← List.append_assoc, ← List.append_assoc]
    exact buf_set (pre ++ tok) c NUL more _ (by simp)
  simp only [strsep, e1, e2, e3, e4]

theorem chars_no_nul (x : Arg) (h : x.wf = true) : ∀ c ∈ x.chars, c ≠ NUL := by
  cases x with
  | word w =>
    simp only [Arg.wf, free_of, Bool.and_eq_true, List.all_eq_true, decide_eq_true_eq] at h
    intro c hc
    exact (h.1.1 c hc).1
  | quoted q text =>
    simp only [Arg.wf, free_of, Bool.and_eq_true, List.all_eq_true, decide_eq_true_eq,
      Bool.or_eq_true] at h
    intro c hc
    simp only [Arg.chars, List.mem_cons, List.mem_append, List.mem_singleton,
      List.not_mem_nil, or_false] at hc
    have hq : q ≠ NUL := by
      rcases h.1 with h | h <;> rw [h] <;> decide
    rcases hc with hc | hc | hc
    · rw [hc]; exact hq
    · exact (h.2 c hc).1
    · rw [hc]; exact hq

theorem args_wf_head (x : Arg) (r : List (Char × Arg)) (h : args_wf x r = true) :
    x.wf = true := by
  cases r with
  | nil => cases x <;> simp_all [args_wf]
  | cons p r =>
    obtain ⟨s, y⟩ := p
    simp only [args_wf, Bool.and_eq_true] at h
    exact h.1.1

theorem run_loop_null (slots : Nat) (buf : List Char) (args : List Nat) :
    run_loop slots buf none args = .ok (buf, none, args) := by
  cases slots <;> rfl

theorem stop_not_quote (c : Char)
    (hc : (decide (c ≠ NUL) && !(['\t', ' '].contains c)) = false) : c ≠ '\'' ∧ c ≠ '"' := by
  constructor <;> intro h <;> rw [h] at hc <;> revert hc <;> decide

/-- One round of the loop at a plain word that ends at `c`, a blank or the
terminating NUL. -/
theorem run_loop_word (w : List Char) (hw : Arg.wf (.word w) = true) (c : Char)
    (hc : (decide (c ≠ NUL) && !(['\t', ' '].contains c)) = false)
    (pre more : List Char) (args : List Nat) (n a : Nat) (ha : a = pre.length) :
    run_loop (n + 1) (pre ++ (w ++ c :: more)) (some a) args =
      if c = NUL then .ok (pre ++ (w ++ c :: more), none, args ++ [a])
      else run_loop n (pre ++ (w ++ NUL :: more)) (some (a + w.length + 1)) (args ++ [a]) := by
  simp only [Arg.wf, Bool.and_eq_true, decide_eq_true_eq] at hw
  obtain ⟨⟨hf, h1⟩, h2⟩ := hw
  have hg : ∃ d, (pre ++ (w ++ c :: more)).get? a = some d ∧ d ≠ '\'' ∧ d ≠ '"' := by
    cases w with
    | nil => exact ⟨c, buf_get pre c more a ha, stop_not_quote c hc⟩
    | cons d w =>
      refine ⟨d, buf_get pre d (w ++ c :: more) a ha, ?_, ?_⟩
      · intro h; exact h1 (by rw [h]; rfl)
      · intro h; exact h2 (by rw [h]; rfl)
  obtain ⟨d, hd, hd1, hd2⟩ := hg
  simp only [run_loop, hd, hd1, hd2, or_self, if_false, strsep_at pre w c more _ a ha hf hc]
  split_ifs
  · simp only [run_loop_null]
  · rfl

/-- One round of the loop at a quoted element that is followed by one more
character `s`: the element keeps both quotes and `s` is overwritten. -/
theorem run_loop_quoted (q : Char) (t : List Char) (hw : Arg.wf (.quoted q t) = true) (s : Char)
    (pre more : List Char) (args : List Nat) (n a : Nat) (ha : a = pre.length) :
    run_loop (n + 1) (pre ++ (q :: (t ++ q :: s :: more))) (some a) args =
      run_loop n (pre ++ (q :: (t ++ q :: NUL :: more))) (some (a + t.length + 3))
        (args ++ [a]) := by
  simp only [Arg.wf, Bool.and_eq_true, Bool.or_eq_true, decide_eq_true_eq] at hw
  obtain ⟨hq, ht⟩ := hw
  have hn : q ≠ NUL := by
    rcases hq with h | h <;> rw [h] <;> decide
  have hget : (pre ++ (q :: (t ++ q :: s :: more))).get? a = some q := buf_get pre q _ a ha
  have hb0 : pre ++ (q :: (t ++ q :: s :: more)) = (pre ++ [q]) ++ (t ++ q :: (s :: more)) := by
    simp
  have hs : strsep (pre ++ (q :: (t ++ q :: s :: more))) (a + 1) [q] =
      .ok ((pre ++ [q]) ++ (t ++ NUL :: s :: more), some (a + 1 + t.length + 1)) := by
    rw [hb0, strsep_at (pre ++ [q]) t q (s :: more) [q] (a + 1) (by simp [ha]) ht (by simp),
      if_neg hn]
  have hg2 : ((pre ++ [q]) ++ (t ++ NUL :: s :: more)).get? (a + 1 + t.length + 1) = some s := by
    have e : (pre ++ [q]) ++ (t ++ NUL :: s :: more) = (pre ++ q :: (t ++ [NUL])) ++ s :: more := by
      simp
    rw [e]
    exact buf_get _ s more _ (by simp [ha]; omega)
  have hset1 : ((pre ++ [q]) ++ (t ++ NUL :: s :: more)).set (a + 1 + t.length + 1 - 1) q =
      (pre ++ q :: t) ++ q :: s :: more := by
    have e : (pre ++ [q]) ++ (t ++ NUL :: s :: more) = (pre ++ q :: t) ++ NUL :: s :: more := by
      simp
    rw [e]
    exact buf_set _ NUL q _ _ (by simp [ha]; omega)
  have hset2 : ((pre ++ q :: t) ++ q :: s :: more).set (a + 1 + t.length + 1) NUL =
      pre ++ (q :: (t ++ q :: NUL :: more)) := by
    have e : (pre ++ q :: t) ++ q :: s :: more = (pre ++ q :: (t ++ [q])) ++ s :: more := by
      simp
    rw [e, buf_set _ s NUL more _ (by simp [ha]; omega)]
    simp
  have e5 : a + 1 + t.length + 1 + 1 = a + t.length + 3 := by omega
  simp only [run_loop, hget, hq, if_true, hs, hg2, hset1, hset2, e5]

/-- The loop of run on a well-formed tail of a command: it ends with `arg`
NULL, every blank between two elements overwritten with NUL, and one entry
of `args` per element. -/
theorem run_loop_args (r : List (Char × Arg)) :
    ∀ (x : Arg) (pre : List Char) (args : List Nat) (slots a : Nat),
      a = pre.length → args_wf x r = true → r.length < slots →
      run_loop slots (pre ++ args_text x r) (some a) args
        = .ok (pre ++ final_text x r, none, args ++ arg_offsets a x r) := by
  induction r with
  | nil =>
    intro x pre args slots a ha hw hs
    obtain ⟨n, rfl⟩ : ∃ n, slots = n + 1 := ⟨slots - 1, by simp at hs; omega⟩
    cases x with
    | quoted q t => simp [args_wf] at hw
    | word w =>
      simp only [args_wf] at hw
      simp only [args_text, final_text, arg_offsets, Arg.chars]
      rw [run_loop_word w hw NUL (by decide) pre [] args n a ha, if_pos rfl]
  | cons p r ih =>
    obtain ⟨s, y⟩ := p
    intro x pre args slots a ha hw hs
    obtain ⟨n, rfl⟩ : ∃ n, slots = n + 1 := ⟨slots - 1, by simp at hs; omega⟩
    simp only [args_wf, Bool.and_eq_true, Bool.or_eq_true, decide_eq_true_eq] at hw
    obtain ⟨⟨hx, hsb⟩, hy⟩ := hw
    have hs' : r.length < n := by simp at hs; omega
    have hsn : s ≠ NUL := by
      rcases hsb with h | h <;> rw [h] <;> decide
    cases x with
    | word w =>
      have hc : (decide (s ≠ NUL) && !(['\t', ' '].contains s)) = false := by
        rcases hsb with h | h <;> rw [h] <;> decide
      simp only [args_text, final_text, arg_offsets, Arg.chars]
      rw [run_loop_word w hx s hc pre (args_text y r) args n a ha, if_neg hsn]
      have h := ih y (pre ++ (w ++ [NUL])) (args ++ [a]) n (a + w.length + 1)
        (by simp [ha]; omega) hy hs'
      simp only [List.append_assoc, List.singleton_append] at h
      rw [h]
    | quoted q t =>
      simp only [args_text, final_text, arg_offsets, Arg.chars]
      have e : pre ++ ((q :: (t ++ [q])) ++ s :: args_text y r)
          = pre ++ (q :: (t ++ q :: s :: args_text y r)) := by simp
      rw [e, run_loop_quoted q t hx s pre _ args n a ha]
      have h := ih y (pre ++ (q :: (t ++ [q, NUL]))) (args ++ [a]) n (a + t.length + 3)
        (by simp [ha]; omega) hy hs'
      have e2 : a + (q :: (t ++ [q])).length + 1 = a + t.length + 3 := by simp; omega
      simp only [List.append_assoc, List.singleton_append, List.cons_append,
        List.nil_append] at h
      rw [e2, h]
      simp

theorem cstr_at_arg (pre tok more : List Char) (a : Nat) (ha : a = pre.length)
    (h : ∀ c ∈ tok, c ≠ NUL) : cstr_at (pre ++ (tok ++ NUL :: more)) a = tok := by
  subst ha
  simp only [cstr_at, List.drop_left]
  exact takeWhile_all_append _ tok NUL more (by simpa using h) (by simp)

/-- What execvp reads at the entries of `args` after the loop: the elements
of the command. -/
theorem cstr_at_args (r : List (Char × Arg)) :
    ∀ (x : Arg) (pre : List Char) (a : Nat), a = pre.length → args_wf x r = true →
      (arg_offsets a x r).map (cstr_at (pre ++ final_text x r))
        = x.chars :: r.map (fun p => p.2.chars) := by
  induction r with
  | nil =>
    intro x pre a ha hw
    simp only [arg_offsets, final_text, List.map_cons, List.map_nil]
    rw [cstr_at_arg pre x.chars [] a ha (chars_no_nul x (args_wf_head x [] hw))]
  | cons p r ih =>
    obtain ⟨s, y⟩ := p
    intro x pre a ha hw
    have hx := args_wf_head x _ hw
    simp only [args_wf, Bool.and_eq_true] at hw
    simp only [arg_offsets, final_text, List.map_cons]
    rw [cstr_at_arg pre x.chars _ a ha (chars_no_nul x hx)]
    have h := ih y (pre ++ (x.chars ++ [NUL])) (a + x.chars.length + 1) (by simp [ha]; omega) hw.2
    simp only [List.append_assoc, List.singleton_append] at h
    rw [h]

theorem args_text_eq (r : List (Char × Arg)) :
    ∀ y : Arg, args_text y r = y.chars ++ (rest_text r ++ [NUL]) := by
  induction r with
  | nil => intro y; rfl
  | cons p r ih =>
    obtain ⟨s, z⟩ := p
    intro y
    simp only [args_text, rest_text, ih z, List.cons_append, List.append_assoc]

/-- C24 fails on the code for a long command: with seventeen elements,
the second of them quoted, the argv is full after sixteen, run gives up with
"Command too long" and no argv is passed to execvp. -/
theorem run_argv_counterexample :
    run_argv ['a', ' ', '"', 'x', ' ', 'y', '"', ' ', 'c', ' ', 'd', ' ', 'e', ' ', 'f', ' ',
      'g', ' ', 'h', ' ', 'i', ' ', 'j', ' ', 'k', ' ', 'l', ' ', 'm', ' ', 'n', ' ', 'o', ' ',
      'p', ' ', 'q']
      = .ok none := by
  rfl

/-- A well-formed command of at most NUM_ARGS elements: the argv lists the
elements in order. -/
theorem run_argv_fits (w1 : List Char) (rest : List (Char × Arg))
    (h1 : free_of ['\t', ' '] w1 = true) (h2 : rest_wf rest = true)
    (h3 : rest.length < NUM_ARGS) :
    run_argv (w1 ++ rest_text rest) = .ok (some (w1 :: rest.map (fun p => p.2.chars))) := by
  have hn : ∀ c ∈ w1, c ≠ NUL := by
    have h := h1
    simp only [free_of, Bool.and_eq_true, List.all_eq_true, decide_eq_true_eq] at h
    exact fun c hc => (h c hc).1
  cases rest with
  | nil =>
    have e : (w1 ++ rest_text []) ++ [NUL] = [] ++ (w1 ++ NUL :: []) := by simp [rest_text]
    have hs := strsep_at [] w1 NUL [] ['\t', ' '] 0 rfl h1 (by decide)
    rw [if_pos rfl] at hs
    simp only [run_argv, e, hs, run_loop_null]
    have hr := cstr_at_arg [] w1 [] 0 rfl hn
    simp only [List.nil_append] at hr
    simp [hr]
  | cons p r =>
    obtain ⟨s, y⟩ := p
    simp only [rest_wf, Bool.and_eq_true, Bool.or_eq_true, decide_eq_true_eq] at h2
    obtain ⟨hsb, hy⟩ := h2
    have hsn : s ≠ NUL := by
      rcases hsb with h | h <;> rw [h] <;> decide
    have hc : (decide (s ≠ NUL) && !(['\t', ' '].contains s)) = false := by
      rcases hsb with h | h <;> rw [h] <;> decide
    have e : (w1 ++ rest_text ((s, y) :: r)) ++ [NUL] = [] ++ (w1 ++ s :: args_text y r) := by
      simp [rest_text, args_text_eq r y]
    have hs := strsep_at [] w1 s (args_text y r) ['\t', ' '] 0 rfl h1 hc
    rw [if_neg hsn] at hs
    have hl : r.length < NUM_ARGS - 1 := by
      simp only [List.length_cons, NUM_ARGS] at h3 ⊢
      omega
    have hloop := run_loop_args r y (w1 ++ [NUL]) [0] (NUM_ARGS - 1) (0 + w1.length + 1)
      (by simp) hy hl
    simp only [List.append_assoc, List.singleton_append, List.nil_append] at hloop hs
    have hread := cstr_at_args r y (w1 ++ [NUL]) (0 + w1.length + 1) (by simp) hy
    simp only [List.append_assoc, List.singleton_append] at hread
    have hr := cstr_at_arg [] w1 (final_text y r) 0 rfl hn
    simp only [List.nil_append] at hr
    simp only [run_argv, e, List.nil_append, hs, hloop, ne_eq, not_true_eq_false, and_false,
      if_false, List.map_cons, List.cons_append, hr, hread]

/-- The loop of run on a well-formed tail with more elements than slots: it
ends with every slot used and `arg` not NULL. -/
theorem run_loop_full (r : List (Char × Arg)) :
    ∀ (x : Arg) (pre : List Char) (args : List Nat) (slots a : Nat),
      a = pre.length → args_wf x r = true → slots ≤ r.length →
      ∃ (b : List Char) (a2 : Nat) (args2 : List Nat),
        run_loop slots (pre ++ args_text x r) (some a) args = .ok (b, some a2, args2) ∧
          args2.length = args.length + slots := by
  induction r with
  | nil =>
    intro x pre args slots a _ _ hs
    have h0 : slots = 0 := by simpa using hs
    subst h0
    exact ⟨_, a, args, rfl, rfl⟩
  | cons p r ih =>
    obtain ⟨s, y⟩ := p
    intro x pre args slots a ha hw hs
    cases slots with
    | zero => exact ⟨_, a, args, rfl, rfl⟩
    | succ n =>
      simp only [args_wf, Bool.and_eq_true, Bool.or_eq_true, decide_eq_true_eq] at hw
      obtain ⟨⟨hx, hsb⟩, hy⟩ := hw
      have hn : n ≤ r.length := by simpa using hs
      have hsn : s ≠ NUL := by
        rcases hsb with h | h <;> rw [h] <;> decide
      cases x with
      | word w =>
        have hc : (decide (s ≠ NUL) && !(['\t', ' '].contains s)) = false := by
          rcases hsb with h | h <;> rw [h] <;> decide
        simp only [args_text, Arg.chars]
        rw [run_loop_word w hx s hc pre (args_text y r) args n a ha, if_neg hsn]
        obtain ⟨b, a2, args2, h1, h2⟩ := ih y (pre ++ (w ++ [NUL])) (args ++ [a]) n
          (a + w.length + 1) (by simp [ha]; omega) hy hn
        simp only [List.append_assoc, List.singleton_append] at h1
        exact ⟨b, a2, args2, h1, by rw [h2]; simp; omega⟩
      | quoted q t =>
        simp only [args_text, Arg.chars]
        have e : pre ++ ((q :: (t ++ [q])) ++ s :: args_text y r)
            = pre ++ (q :: (t ++ q :: s :: args_text y r)) := by simp
        rw [e, run_loop_quoted q t hx s pre _ args n a ha]
        obtain ⟨b, a2, args2, h1, h2⟩ := ih y (pre ++ (q :: (t ++ [q, NUL]))) (args ++ [a]) n
          (a + t.length + 3) (by simp [ha]; omega) hy hn
        simp only [List.append_assoc, List.singleton_append, List.cons_append,
          List.nil_append] at h1
        exact ⟨b, a2, args2, h1, by rw [h2]; simp; omega⟩

/-- A well-formed command of more than NUM_ARGS elements is refused. -/
theorem run_argv_too_long (w1 : List Char) (rest : List (Char × Arg))
    (h1 : free_of ['\t', ' '] w1 = true) (h2 : rest_wf rest = true)
    (h3 : NUM_ARGS ≤ rest.length) :
    run_argv (w1 ++ rest_text rest) = .ok none := by
  cases rest with
  | nil => simp [NUM_ARGS] at h3
  | cons p r =>
    obtain ⟨s, y⟩ := p
    simp only [rest_wf, Bool.and_eq_true, Bool.or_eq_true, decide_eq_true_eq] at h2
    obtain ⟨hsb, hy⟩ := h2
    have hsn : s ≠ NUL := by
      rcases hsb with h | h <;> rw [h] <;> decide
    have hc : (decide (s ≠ NUL) && !(['\t', ' '].contains s)) = false := by
      rcases hsb with h | h <;> rw [h] <;> decide
    have e : (w1 ++ rest_text ((s, y) :: r)) ++ [NUL] = [] ++ (w1 ++ s :: args_text y r) := by
      simp [rest_text, args_text_eq r y]
    have hs := strsep_at [] w1 s (args_text y r) ['\t', ' '] 0 rfl h1 hc
    rw [if_neg hsn] at hs
    have hl : NUM_ARGS - 1 ≤ r.length := by
      simp only [List.length_cons, NUM_ARGS] at h3 ⊢
      omega
    obtain ⟨b, a2, args2, hloop, hlen⟩ := run_loop_full r y (w1 ++ [NUL]) [0] (NUM_ARGS - 1)
      (0 + w1.length + 1) (by simp) hy hl
    simp only [List.append_assoc, List.singleton_append, List.nil_append] at hloop hs
    have hfull : args2.length = NUM_ARGS := by rw [hlen]; rfl
    simp only [run_argv, e, List.nil_append, hs, hloop, hfull]
    simp

/-- C24, amended: for a command made of a first word w1 (no space, tab or
NUL in it) and then elements that each follow one space or tab, every
element being a plain word or a text in a pair of equal quotes (single or
double) without that quote inside, and the last element being a plain word:
if the command has at most NUM_ARGS (16) elements, the argv passed to execvp
lists the elements in order, a quoted element as one entry with its quotes
and its embedded blanks; if it has more, run gives up with "Command too
long" and passes no argv to execvp. -/
theorem run_argv_quoted (w1 : List Char) (rest : List (Char × Arg))
    (h1 : free_of ['\t', ' '] w1 = true) (h2 : rest_wf rest = true) :
    (rest.length < NUM_ARGS →
      run_argv (w1 ++ rest_text rest) = .ok (some (w1 :: rest.map (fun p => p.2.chars)))) ∧
    (NUM_ARGS ≤ rest.length → run_argv (w1 ++ rest_text rest) = .ok none) :=
  ⟨run_argv_fits w1 rest h1 h2, run_argv_too_long w1 rest h1 h2⟩

/-- C24, amended, at the command of the comment in run:
su -c "dbus-daemon --system" messagebus. -/
theorem run_argv_quoted_witness :
    run_argv ['s', 'u', ' ', '-', 'c', ' ', '"', 'd', 'b', 'u', 's', '-', 'd', 'a', 'e', 'm',
        'o', 'n', ' ', '-', '-', 's', 'y', 's', 't', 'e', 'm', '"', ' ', 'm', 'e', 's', 's',
        'a', 'g', 'e', 'b', 'u', 's']
      = .ok (some [['s', 'u'], ['-', 'c'],
        ['"', 'd', 'b', 'u', 's', '-', 'd', 'a', 'e', 'm', 'o', 'n', ' ',
          '-', '-', 's', 'y', 's', 't', 'e', 'm', '"'],
        ['m', 'e', 's', 's', 'a', 'g', 'e', 'b', 'u', 's']]) :=
  (run_argv_quoted ['s', 'u'] [(' ', .word ['-', 'c']),
      (' ', .quoted '"' ['d', 'b', 'u', 's', '-', 'd', 'a', 'e', 'm', 'o', 'n', ' ',
        '-', '-', 's', 'y', 's', 't', 'e', 'm']),
      (' ', .word ['m', 'e', 's', 's', 'a', 'g', 'e', 'b', 'u', 's'])]
    (by decide) (by decide)).1 (by decide)

/-! ## C28: memory safety of the tokeniser -/

/-- C28 fails on the code.  When a quoted argument is the last token, as in
ls "a b", the write  *arg++ = 0  leaves `arg` one past the terminating NUL
and the next test of the loop reads `*arg` there; when a quote is never
closed, as in echo "abc, strsep sets `arg` to NULL and the next statements
compute `arg - 1` and write through it. -/
theorem run_argv_leaves_string :
    run_argv ['l', 's', ' ', '"', 'a', ' ', 'b', '"'] = .error .out_of_bounds ∧
      run_argv ['e', 'c', 'h', 'o', ' ', '"', 'a', 'b', 'c'] = .error .null_pointer :=
  ⟨rfl, rfl⟩

/-! ## C21: the instance id of a registered service -/

/-- C21 fails on the code: the text after the colon goes through atoi and
the result is used as it is, so the line  :0 /sbin/udhcpc -i eth1  of a
service looks up and creates the record (/sbin/udhcpc, 0), the id -3 is
taken from ":-3" and 0 from ":abc"; nothing checks the range [1, MAXINT]
that the comment above service_register asks for. -/
theorem service_register_id_unchecked (x : reg_env) :
    service_register x svc_type_t.SERVICE
        (some [':', '0', ' ', '/', 's', 'b', 'i', 'n', '/', 'u', 'd', 'h', 'c', 'p', 'c', ' ',
          '-', 'i', ' ', 'e', 't', 'h', '1'])
      = .ok (.record ['/', 's', 'b', 'i', 'n', '/', 'u', 'd', 'h', 'c', 'p', 'c'] 0
          svc_type_t.SERVICE) ∧
    service_register x svc_type_t.SERVICE
        (some [':', '-', '3', ' ', '/', 's', 'b', 'i', 'n', '/', 'u', 'd', 'h', 'c', 'p', 'c'])
      = .ok (.record ['/', 's', 'b', 'i', 'n', '/', 'u', 'd', 'h', 'c', 'p', 'c'] (-3)
          svc_type_t.SERVICE) ∧
    service_register x svc_type_t.SERVICE
        (some [':', 'a', 'b', 'c', ' ', '/', 's', 'b', 'i', 'n', '/', 'u', 'd', 'h', 'c', 'p', 'c'])
      = .ok (.record ['/', 's', 'b', 'i', 'n', '/', 'u', 'd', 'h', 'c', 'p', 'c'] 0
          svc_type_t.SERVICE) := by
  obtain ⟨a, b, c, d⟩ := x
  cases a <;> exact ⟨rfl, rfl, rfl⟩

end Finit
